import Mathlib

/-!
Capture view and session controller of build-capture.

A shallow embedding of `build-capture.go`.  The program owns one
`buildCapture` value (the transcript `lines`, a `tview.List` showing one item
per line followed by an ` EOT │ ` sentinel, a few text views and an error
counter) and a handful of goroutines that append to it.

The first part models the sequential bookkeeping (`append0`, `append`,
`appendError`, `atBottom`, `changed`, `update`).  The second part models the
goroutines of `start` and `main` as a labelled transition system.
-/

namespace Capture

/-! ## Formatting -/

/-- The `%d` verb of `fmt.Sprintf` on a non-negative integer: its decimal digits. -/
def fmtD (n : Nat) : List Char := Nat.toDigits 10 n

/-- The `%4d` verb: decimal digits, padded on the left with spaces to width 4. -/
def fmt4d (n : Nat) : List Char :=
  List.replicate (4 - (fmtD n).length) ' ' ++ fmtD n

/-- The `%d` verb on a Go `int`. -/
def fmtInt (i : Int) : String := toString i

/-! ## The `tview.List` primitive

Only what the program uses: the items (main text, and whether a `selected`
callback is attached) and the index of the current item.  `InsertItem` and
`SetCurrentItem` follow the library: a negative index counts from the end
(`-1` is the last position), out-of-range indices are clamped, and an insertion
at or before the current item shifts the current item by one. -/

/-- One item of a `tview.List`. -/
structure ListItem where
  mainText : String
  selected : Bool
  deriving DecidableEq, Repr

/-- The state of a `tview.List`. -/
structure TviewList where
  items : List ListItem
  currentItem : Int
  deriving DecidableEq, Repr

namespace TviewList

/-- The method `GetItemCount`. -/
def GetItemCount (l : TviewList) : Int := l.items.length

/-- The method `GetCurrentItem`. -/
def GetCurrentItem (l : TviewList) : Int := l.currentItem

/-- The position at which `InsertItem index` inserts. -/
def insertPos (l : TviewList) (index : Int) : Int :=
  let len : Int := l.items.length
  let index := if index < 0 then len + index + 1 else index
  if index < 0 then 0 else if index > len then len else index

/-- The method `InsertItem`, without the "changed" notification. -/
def InsertItem (l : TviewList) (index : Int) (item : ListItem) : TviewList :=
  let len : Int := l.items.length
  let pos := l.insertPos index
  let cur := if l.currentItem < len ∧ l.currentItem ≥ pos then l.currentItem + 1
             else l.currentItem
  { items := l.items.take pos.toNat ++ item :: l.items.drop pos.toNat
    currentItem := cur }

/-- The index that `SetCurrentItem index` selects. -/
def clampIndex (l : TviewList) (index : Int) : Int :=
  let len : Int := l.items.length
  let index := if index < 0 then len + index else index
  let index := if index ≥ len then len - 1 else index
  if index < 0 then 0 else index

end TviewList

/-! ## `buildCapture` -/

/-- The fields of `buildCapture` that the bookkeeping reads or writes.  The
text views are represented by their current text. -/
structure BuildCapture where
  lines : List String
  list : TviewList
  status : String
  itemCount : String
  errorCount : String
  caption : String
  errors : Nat
  deriving DecidableEq, Repr

/-- The sentinel item added by `newBuildCapture`. -/
def eotItem : ListItem := { mainText := " EOT │ ", selected := false }

/-- The constructor `newBuildCapture`: the list holds only the sentinel. -/
def newBuildCapture : BuildCapture :=
  { lines := []
    list := { items := [eotItem], currentItem := 0 }
    status := ""
    itemCount := ""
    errorCount := ""
    caption := "(runing) Press 'k' to kill command"
    errors := 0 }

namespace BuildCapture

/-- The method `atBottom`. -/
def atBottom (bc : BuildCapture) : Bool :=
  bc.list.GetCurrentItem == bc.list.GetItemCount - 1

/-- The closure `bc.changed`: refresh the item counter. -/
def changed (bc : BuildCapture) (idx : Int) : BuildCapture :=
  let at_end := bc.atBottom
  let n := bc.list.GetItemCount - 1
  let st := if at_end then fmtInt n else fmtInt (idx + 1) ++ ":" ++ fmtInt n
  { bc with itemCount := "[green]([white]" ++ st ++ "[green])[white]" }

/-- Indexing a slice with a Go `int`; `none` is the run-time panic. -/
def index? (xs : List String) (i : Int) : Option String :=
  if i < 0 then none else xs[i.toNat]?

/-- The closure `bc.update`: show the text of the current line in the status view.  `none`
is the index-out-of-range panic of `bc.lines[...]`. -/
def update (bc : BuildCapture) : Option BuildCapture :=
  if !bc.atBottom then
    match index? bc.lines bc.list.GetCurrentItem with
    | some txt => some { bc with status := "[blue]" ++ txt }
    | none => none
  else some bc

/-- The call `bc.list.InsertItem`: the list fires "changed" for the first item of a
list that was empty. -/
def listInsertItem (bc : BuildCapture) (index : Int) (item : ListItem) : BuildCapture :=
  let bc := { bc with list := bc.list.InsertItem index item }
  if bc.list.items.length = 1 then bc.changed 0 else bc

/-- The call `bc.list.SetCurrentItem`: the list fires "changed" when the selection
moves, before storing the new index. -/
def listSetCurrentItem (bc : BuildCapture) (index : Int) : BuildCapture :=
  let idx := bc.list.clampIndex index
  let bc := if idx ≠ bc.list.currentItem then bc.changed idx else bc
  { bc with list := { bc.list with currentItem := idx } }

/-- The separator between the number and the text of an item. -/
def bar (isError : Bool) : String := if isError then " ╪ " else " │ "

/-- The main text of the item for line number `n`: `"%4d%s%s"`. -/
def itemText (n : Nat) (isError : Bool) (line : String) : String :=
  String.mk (fmt4d n) ++ bar isError ++ line

/-- The method `append0`; `line` is the formatted text `fmt.Sprintf(format, args...)`.
`bc.app.Draw()` only repaints and is not represented. -/
def append0 (bc : BuildCapture) (isError : Bool) (line : String) : BuildCapture :=
  let at_end := bc.atBottom
  let bc := { bc with lines := bc.lines ++ [line] }
  let bc := bc.listInsertItem (-2)
    { mainText := itemText bc.lines.length isError line, selected := true }
  let bc := if at_end then bc.listSetCurrentItem (-1) else bc
  bc.changed bc.list.GetCurrentItem

/-- The method `append`. -/
def append (bc : BuildCapture) (line : String) : BuildCapture :=
  bc.append0 false line

/-- The method `appendError`. -/
def appendError (bc : BuildCapture) (line : String) : BuildCapture :=
  let bc := { bc with errors := bc.errors + 1 }
  let bc := { bc with
    errorCount := "[red]([yellow]" ++ toString bc.errors ++ "[red])[white]" }
  bc.append0 true line

end BuildCapture

/-- User navigation inside the list (arrow keys, Home, End, page keys): the
list stores an index within its bounds and then fires "changed" if the
selection moved. -/
def BuildCapture.moveCursor (bc : BuildCapture) (index : Int) : BuildCapture :=
  let idx := bc.list.clampIndex index
  let moved := idx ≠ bc.list.currentItem
  let bc := { bc with list := { bc.list with currentItem := idx } }
  if moved then bc.changed idx else bc

/-- One call of `append` (`isError = false`) or `appendError` (`isError = true`)
with its formatted text. -/
structure Call where
  isError : Bool
  text : String
  deriving DecidableEq, Repr

/-- Perform one call. -/
def applyCall (bc : BuildCapture) (c : Call) : BuildCapture :=
  if c.isError then bc.appendError c.text else bc.append c.text

/-- Perform calls one after another. -/
def applyCalls (bc : BuildCapture) (cs : List Call) : BuildCapture :=
  cs.foldl applyCall bc

/-- The number shown at the start of an item: skip the padding, read the
decimal digits.  `none` when there is no digit (the sentinel). -/
def seqNumber (item : String) : Option Nat :=
  let ds := (item.data.dropWhile (fun c => c == ' ')).takeWhile Char.isDigit
  if ds.isEmpty then none
  else some (ds.foldl (fun acc c => acc * 10 + (c.toNat - '0'.toNat)) 0)

/-- What can happen to a view: a line is appended, or the cursor is moved. -/
inductive ViewOp where
  | call (c : Call)
  | move (index : Int)
  deriving DecidableEq, Repr

/-- Perform one view operation. -/
def applyOp (bc : BuildCapture) : ViewOp → BuildCapture
  | .call c => applyCall bc c
  | .move i => bc.moveCursor i

/-- Perform view operations one after another. -/
def applyOps (bc : BuildCapture) (ops : List ViewOp) : BuildCapture :=
  ops.foldl applyOp bc

/-! ## The goroutines of `start` and `main`

A labelled transition system.  Every action is one atomic piece of one
goroutine (or of the environment: the child process exiting, the user pressing
a key).  A send on an unbuffered channel and the matching receive are one
action; a goroutine blocked on a send sits in a `sending` state until then.
`step` returns `none` when the action is not enabled.

The stdout reader, the stderr reader and the primary goroutine call `append`
and `appendError` while the others run, and the program takes no lock.  Such a
call is therefore not one action: it is started by the action that reaches it
and then runs statement by statement (`Act.advance`), reading `bc.errors` and
`bc.lines` into registers before writing them back, so that calls of different
goroutines interleave and an update can be lost.  A call into the list or into
a text view is one statement.  The two calls of `appendError` made while no
other goroutine of the program can append (for a failed set-up, and by `main`
after `start` has returned) are single actions.

Ghost fields (`log`, `overlap`, `killCalls`, `killSends`, `keysK`) record
history and are never read by the transitions.  `log` records the calls of
`append` and `appendError` in the order in which they are started. -/

/-- Where a transcript line came from. -/
inductive Origin where
  | stdout
  | stderr
  | setupError
  | killNotice
  | killError
  | cmdFailed
  | failSummary
  deriving DecidableEq, Repr

/-- The child process as seen through `cmd.ProcessState`. -/
inductive Proc where
  | notStarted
  | running
  | exited (code : Nat)
  | signaled
  deriving DecidableEq, Repr

/-- The method `ProcessState.ExitCode()`: `-1` unless the process exited on its own. -/
def Proc.ExitCode : Proc → Int
  | .exited c => c
  | _ => -1

/-- The method `ProcessState.Success()`. -/
def Proc.Success : Proc → Bool
  | .exited 0 => true
  | _ => false

/-- A stream-reader goroutine. -/
inductive ReaderPc where
  | idle
  | reading
  | sending
  | done
  deriving DecidableEq, Repr

/-- The goroutine running `primary()`. -/
inductive PrimaryPc where
  | idle
  | selecting
  | killing
  | sending
  | done
  deriving DecidableEq, Repr

/-- The goroutine of `main` that runs `bc.start()`. -/
inductive StartPc where
  | notStarted
  | waiting (i : Nat)
  | returned (rc : Int)
  | finishing (rc : Int)
  | completed (rc : Int)
  deriving DecidableEq, Repr

/-- The event loop of the user interface. -/
inductive UiPc where
  | idle
  | sendingKill
  deriving DecidableEq, Repr

/-- Result of the three set-up calls of `start`. -/
inductive SetupResult where
  | stdoutPipeError (err : String)
  | stderrPipeError (err : String)
  | startError (err : String)
  | ok
  deriving DecidableEq, Repr

/-- The goroutines of `start` that append to the transcript side by side. -/
inductive Goroutine where
  | stdoutReader
  | stderrReader
  | primary
  deriving DecidableEq, Repr

/-- The statements of a call of `appendError` (all of them) or `append` (from
`readBottom` on), in program order. -/
inductive AppendPc where
  /-- The read of `bc.errors++`. -/
  | loadErrors
  /-- The write of `bc.errors++`. -/
  | storeErrors
  /-- The statement `bc.errorCount.SetText(...)`. -/
  | showErrors
  /-- The statement `at_end := bc.atBottom()`. -/
  | readBottom
  /-- The read of `bc.lines = append(bc.lines, line)`. -/
  | loadLines
  /-- The write of `bc.lines = append(bc.lines, line)`. -/
  | storeLines
  /-- The statement `bc.list.InsertItem(-2, ...)`. -/
  | insertItem
  /-- The statement `if at_end { bc.list.SetCurrentItem(-1) }`. -/
  | setCurrent
  /-- The statements `bc.changed(...)` and `bc.app.Draw()`, after which the
  call returns. -/
  | notify
  deriving DecidableEq, Repr

/-- A call of `append` or `appendError` in progress: its arguments, the next
statement, and the values it has read. -/
structure Pending where
  origin : Origin
  isError : Bool
  line : String
  pc : AppendPc
  regErrors : Nat
  regLines : List String
  atEnd : Bool
  deriving DecidableEq, Repr

/-- The call at its first statement. -/
def Pending.start (o : Origin) (isError : Bool) (line : String) : Pending :=
  { origin := o
    isError := isError
    line := line
    pc := if isError then .loadErrors else .readBottom
    regErrors := 0
    regLines := []
    atEnd := false }

/-- The next statement of a call in progress, on the shared `buildCapture`:
the new value of `bc`, and the call if it has not returned. -/
def BuildCapture.advance (bc : BuildCapture) (p : Pending) : BuildCapture × Option Pending :=
  match p.pc with
  | .loadErrors => (bc, some { p with regErrors := bc.errors, pc := .storeErrors })
  | .storeErrors => ({ bc with errors := p.regErrors + 1 }, some { p with pc := .showErrors })
  | .showErrors =>
    ({ bc with errorCount := "[red]([yellow]" ++ toString bc.errors ++ "[red])[white]" },
      some { p with pc := .readBottom })
  | .readBottom => (bc, some { p with atEnd := bc.atBottom, pc := .loadLines })
  | .loadLines => (bc, some { p with regLines := bc.lines, pc := .storeLines })
  | .storeLines => ({ bc with lines := p.regLines ++ [p.line] }, some { p with pc := .insertItem })
  | .insertItem =>
    (bc.listInsertItem (-2)
        { mainText := BuildCapture.itemText bc.lines.length p.isError p.line, selected := true },
      some { p with pc := .setCurrent })
  | .setCurrent =>
    (if p.atEnd then bc.listSetCurrentItem (-1) else bc, some { p with pc := .notify })
  | .notify => (bc.changed bc.list.GetCurrentItem, none)

/-- Run a call for at most `fuel` statements with no other goroutine in between. -/
def BuildCapture.finish : Nat → BuildCapture → Option Pending → BuildCapture
  | 0, bc, _ => bc
  | _ + 1, bc, none => bc
  | fuel + 1, bc, some p => BuildCapture.finish fuel (bc.advance p).1 (bc.advance p).2

/-- The whole program state. -/
structure Session where
  bc : BuildCapture
  cmdPath : String
  cmdArgs : List String
  proc : Proc
  outRest : List String
  errRest : List String
  outPc : ReaderPc
  errPc : ReaderPc
  primary : PrimaryPc
  startPc : StartPc
  outPending : Option Pending
  errPending : Option Pending
  priPending : Option Pending
  ui : UiPc
  appRunning : Bool
  clear : Bool
  finished : Bool
  killed : Bool
  stdout : String
  log : List (Origin × String)
  overlap : Bool
  killCalls : Nat
  killSends : Nat
  keysK : Nat
  deriving DecidableEq, Repr

/-- The state at the start of `main`, for a command whose standard output and
standard error will deliver the given lines. -/
def Session.init (path : String) (args outLines errLines : List String) : Session :=
  { bc := newBuildCapture
    cmdPath := path
    cmdArgs := args
    proc := .notStarted
    outRest := outLines
    errRest := errLines
    outPc := .idle
    errPc := .idle
    primary := .idle
    startPc := .notStarted
    outPending := none
    errPending := none
    priPending := none
    ui := .idle
    appRunning := true
    clear := false
    finished := false
    killed := false
    stdout := ""
    log := []
    overlap := false
    killCalls := 0
    killSends := 0
    keysK := 0 }

/-- The actions. -/
inductive Act where
  /-- The three set-up calls at the top of `start`, with their result; on
  success the three goroutines are started and `start` enters its loop. -/
  | setup (r : SetupResult)
  /-- The call `scannerOut.Scan()` returns true: `bc.append` is called. -/
  | scanOut
  /-- The call `scannerOut.Scan()` returns false: the stream is at its end, or
  the pipe was closed by `cmd.Wait()` after the child was gone. -/
  | eofOut
  /-- The stdout reader's send on `chStdout` meets a receive of the loop. -/
  | sendOut
  /-- The call `scannerErr.Scan()` returns true: `bc.appendError` is called. -/
  | scanErr
  /-- The call `scannerErr.Scan()` returns false: the stream is at its end, or
  the pipe was closed by `cmd.Wait()` after the child was gone. -/
  | eofErr
  /-- The stderr reader's send on `chStderr` meets a receive of the loop. -/
  | sendErr
  /-- The child process exits on its own with the given code. -/
  | exit (code : Nat)
  /-- The function `primary()` takes the `waitForCommand()` case of its `select`
  and returns false; for a command that did not succeed the goroutine then
  calls `bc.appendError`. -/
  | waitReturns
  /-- The function `primary()` takes the `killChan` case: the send of the input
  capture completes and `bc.appendError` is called with the notice. -/
  | recvKill
  /-- The call `bc.cmd.Process.Kill()` returns (`some err` on failure).  On
  failure `bc.appendError` is called with the error; on success a child that is
  still running is terminated by the signal and `bc.cmd.Wait()` returns. -/
  | kill (err : Option String)
  /-- The send on `chPrimary` meets a receive of the loop. -/
  | sendPrimary
  /-- The loop has received three signals and `start` returns the exit code. -/
  | startReturn
  /-- In `main`: `finished = true` and the caption is changed. -/
  | markFinished
  /-- In `main`: the `Fail:` line is appended when `start` returned non-zero. -/
  | reportFail
  /-- The user presses a rune key, handled by the input capture. -/
  | key (ch : Char)
  /-- The user moves the cursor with a navigation key, handled by the list. -/
  | navigate (index : Int)
  /-- The goroutine executes the next statement of its call of `append` or
  `appendError`. -/
  | advance (g : Goroutine)
  deriving DecidableEq, Repr

namespace Session

/-- The call in progress of a goroutine. -/
def pendingOf (s : Session) : Goroutine → Option Pending
  | .stdoutReader => s.outPending
  | .stderrReader => s.errPending
  | .primary => s.priPending

/-- Replace the call in progress of a goroutine. -/
def setPending (s : Session) (g : Goroutine) (p : Option Pending) : Session :=
  match g with
  | .stdoutReader => { s with outPending := p }
  | .stderrReader => { s with errPending := p }
  | .primary => { s with priPending := p }

/-- Whether another goroutine is inside a call of `append` or `appendError`. -/
def busyOthers (s : Session) (g : Goroutine) : Bool :=
  match g with
  | .stdoutReader => s.errPending.isSome || s.priPending.isSome
  | .stderrReader => s.outPending.isSome || s.priPending.isSome
  | .primary => s.outPending.isSome || s.errPending.isSome

/-- Goroutine `g` calls `bc.append` (`isError = false`) or `bc.appendError`
(`isError = true`): the call is recorded in the log and then runs statement by
statement. -/
def call (s : Session) (g : Goroutine) (o : Origin) (isError : Bool) (line : String) :
    Session :=
  setPending { s with log := s.log ++ [(o, line)], overlap := s.overlap || s.busyOthers g }
    g (some (Pending.start o isError line))

/-- A call of `bc.appendError` made while no other goroutine of the program
can append, recorded in the log. -/
def err (s : Session) (o : Origin) (line : String) : Session :=
  { s with bc := s.bc.appendError line, log := s.log ++ [(o, line)] }

/-- One more signal received by the loop `for i := 0; i < 3; i++`. -/
def recv (s : Session) : Option Session :=
  match s.startPc with
  | .waiting i => if i < 3 then some { s with startPc := .waiting (i + 1) } else none
  | _ => none

/-- The closure `quit` of `main`. -/
def quit (s : Session) : Session :=
  let s := { s with appRunning := false }
  if !s.clear then
    { s with stdout := s.stdout ++ (String.intercalate "\n" s.bc.lines ++ "\n") }
  else s

/-- The input capture installed by `main`.  A `'k'` that is not suppressed
leaves the event loop blocked on `bc.killChan <- struct{}{}`. -/
def handleKey (s : Session) (ch : Char) : Session :=
  if ch = 'k' then
    let s := { s with keysK := s.keysK + 1 }
    if !s.killed then { s with ui := .sendingKill } else s
  else if ch = 'c' then
    let s := { s with clear := true }
    if s.finished then s.quit else s
  else if ch = 'q' then
    if s.finished then s.quit else s
  else s

/-- The text of the line appended by `main` when `start` returned non-zero. -/
def failText (s : Session) : String :=
  "Fail: " ++ s.cmdPath ++ " " ++ String.intercalate " " s.cmdArgs

/-- One action. -/
def step (s : Session) : Act → Option Session
  | .setup r =>
    if s.startPc = .notStarted then
      match r with
      | .stdoutPipeError e =>
        some { s.err .setupError ("Error creating StdoutPipe: " ++ e) with
               startPc := .returned (-2) }
      | .stderrPipeError e =>
        some { s.err .setupError ("Error creating StderrPipe: " ++ e) with
               startPc := .returned (-2) }
      | .startError e =>
        some { s.err .setupError ("Error starting cmd: " ++ e) with
               startPc := .returned (-2) }
      | .ok =>
        some { s with proc := .running, outPc := .reading, errPc := .reading,
                      primary := .selecting, startPc := .waiting 0 }
    else none
  | .scanOut =>
    match s.outPc, s.outRest, s.outPending with
    | .reading, l :: rest, none =>
      some (({ s with outRest := rest } : Session).call .stdoutReader .stdout false l)
    | _, _, _ => none
  | .eofOut =>
    if s.outPc = .reading ∧ s.outPending = none ∧ (s.outRest = [] ∨ s.proc ≠ .running) then
      some { s with outPc := .sending }
    else none
  | .sendOut =>
    if s.outPc = .sending then s.recv.map (fun s => { s with outPc := .done }) else none
  | .scanErr =>
    match s.errPc, s.errRest, s.errPending with
    | .reading, l :: rest, none =>
      some (({ s with errRest := rest } : Session).call .stderrReader .stderr true l)
    | _, _, _ => none
  | .eofErr =>
    if s.errPc = .reading ∧ s.errPending = none ∧ (s.errRest = [] ∨ s.proc ≠ .running) then
      some { s with errPc := .sending }
    else none
  | .sendErr =>
    if s.errPc = .sending then s.recv.map (fun s => { s with errPc := .done }) else none
  | .exit code =>
    if s.proc = .running then some { s with proc := .exited code } else none
  | .waitReturns =>
    if s.primary = .selecting ∧ s.proc ≠ .running then
      let s := { s with primary := .sending }
      if !s.proc.Success then
        some (s.call .primary .cmdFailed true
          ("Command failed: rc = " ++ fmtInt s.proc.ExitCode))
      else some s
    else none
  | .recvKill =>
    if s.primary = .selecting ∧ s.ui = .sendingKill then
      let s := { s with ui := .idle, killed := true, killSends := s.killSends + 1,
                        primary := .killing }
      some (s.call .primary .killNotice true "Process was killed by user")
    else none
  | .kill e =>
    if s.primary = .killing ∧ s.priPending = none then
      let s := { s with killCalls := s.killCalls + 1, primary := .sending }
      match e with
      | some msg => some (s.call .primary .killError true ("Error killing process: " ++ msg))
      | none => some { s with proc := if s.proc = .running then .signaled else s.proc }
    else none
  | .sendPrimary =>
    if s.primary = .sending ∧ s.priPending = none then
      s.recv.map (fun s => { s with primary := .done })
    else none
  | .startReturn =>
    if s.startPc = .waiting 3 then some { s with startPc := .returned s.proc.ExitCode }
    else none
  | .markFinished =>
    match s.startPc with
    | .returned rc =>
      some { s with finished := true, startPc := .finishing rc,
                    bc := { s.bc with caption := "(completed) Press 'q' to exit" } }
    | _ => none
  | .reportFail =>
    match s.startPc with
    | .finishing rc =>
      let s := { s with startPc := .completed rc }
      if rc ≠ 0 then some (s.err .failSummary s.failText) else some s
    | _ => none
  | .key ch =>
    if s.appRunning ∧ s.ui = .idle then some (s.handleKey ch) else none
  | .navigate i =>
    if s.appRunning ∧ s.ui = .idle then some { s with bc := s.bc.moveCursor i } else none
  | .advance g =>
    match s.pendingOf g with
    | some p => some (setPending { s with bc := (s.bc.advance p).1 } g (s.bc.advance p).2)
    | none => none

/-- Run a sequence of actions; `none` if some action is not enabled. -/
def runActs (s : Session) : List Act → Option Session
  | [] => some s
  | a :: as => (s.step a).bind (fun s => s.runActs as)

end Session

/-- The shape that the bookkeeping maintains: one item per line plus the
sentinel in last position, and the current item inside the list. -/
def BuildCapture.WellFormed (bc : BuildCapture) : Prop :=
  bc.list.items.length = bc.lines.length + 1 ∧
  bc.list.items.getLast? = some eotItem ∧
  0 ≤ bc.list.currentItem ∧ bc.list.currentItem < bc.list.items.length

instance (bc : BuildCapture) : Decidable bc.WellFormed := by
  unfold BuildCapture.WellFormed; infer_instance

/-- The item that the `k`-th call (counting from 0) adds to the list. -/
def callItem (k : Nat) (c : Call) : ListItem :=
  { mainText := BuildCapture.itemText (k + 1) c.isError c.text, selected := true }

/-- A view with two lines whose cursor was moved up to the first line. -/
def pausedView : BuildCapture :=
  applyOps newBuildCapture
    [.call { isError := false, text := "first" }, .call { isError := true, text := "second" },
     .move 0]

/-! ## Reading the log -/

/-- The texts of the log entries of one origin, in order. -/
def linesOf (o : Origin) (log : List (Origin × String)) : List String :=
  (log.filter (fun e => e.1 = o)).map Prod.snd

/-- The number of log entries of one origin. -/
def originCount (o : Origin) (log : List (Origin × String)) : Nat :=
  (log.filter (fun e => e.1 = o)).length

/-- The log entries that are not output of the child process. -/
def synthetic (log : List (Origin × String)) : List (Origin × String) :=
  log.filter (fun e => e.1 ≠ .stdout ∧ e.1 ≠ .stderr)

/-- Whether `start` has returned. -/
def Session.startReturned (s : Session) : Bool :=
  match s.startPc with
  | .returned _ => true
  | .finishing _ => true
  | .completed _ => true
  | _ => false

/-- The value returned by `start`, once it has returned. -/
def Session.rc? (s : Session) : Option Int :=
  match s.startPc with
  | .returned rc => some rc
  | .finishing rc => some rc
  | .completed rc => some rc
  | _ => none

/-- Whether the three completion signals have all been delivered. -/
def Session.allDone (s : Session) : Bool :=
  s.outPc = .done ∧ s.errPc = .done ∧ s.primary = .done

/-- The number of completion signals delivered so far. -/
def Session.signals (s : Session) : Nat :=
  (if s.outPc = .done then 1 else 0) + (if s.errPc = .done then 1 else 0)
    + (if s.primary = .done then 1 else 0)

/-- The action that delivers a completion signal. -/
inductive Signal where
  | stdoutDone
  | stderrDone
  | primaryDone
  deriving DecidableEq, Repr

/-- The rendezvous action for a signal. -/
def Signal.act : Signal → Act
  | .stdoutDone => .sendOut
  | .stderrDone => .sendErr
  | .primaryDone => .sendPrimary

/-- A run of a command without output that exits with code 0, whose three
signals arrive in the given order, up to the return of `start`. -/
def orderedRun (order : List Signal) : Option Session :=
  (Session.init "true" ["true"] [] []).runActs
    ([.setup .ok, .eofOut, .eofErr, .exit 0, .waitReturns] ++ order.map Signal.act
      ++ [.startReturn])

/-- The rendezvous invariant: the loop counter equals the number of signals
delivered, and `start` has returned only after three signals (or after a
failed set-up, with no goroutine started); a goroutine is inside a call of
`append` or `appendError` only where its code makes one. -/
structure Session.Inv1 (s : Session) : Prop where
  shape :
    (s.startPc = .notStarted ∧
      s.outPc = .idle ∧ s.errPc = .idle ∧ s.primary = .idle ∧ s.proc = .notStarted) ∨
    (s.startPc = .waiting s.signals ∧
      s.outPc ≠ .idle ∧ s.errPc ≠ .idle ∧ s.primary ≠ .idle ∧ s.proc ≠ .notStarted) ∨
    (s.startReturned = true ∧ s.allDone = true ∧ s.proc ≠ .notStarted) ∨
    (s.startReturned = true ∧ s.outPc = .idle ∧ s.errPc = .idle ∧ s.primary = .idle ∧
      s.proc = .notStarted ∧ s.rc? = some (-2))
  stopped : s.appRunning = false → s.finished = true
  finished : s.finished = true → ∃ rc, s.startPc = .finishing rc ∨ s.startPc = .completed rc
  outBusy : s.outPc = .reading ∨ s.outPending = none
  errBusy : s.errPc = .reading ∨ s.errPending = none
  priBusy : s.primary = .sending ∨ s.primary = .killing ∨ s.priPending = none

/-- The actions of a run of `true` (no output, exit code 0) in which the
stderr signal arrives first, then the primary signal, then the stdout signal. -/
def quietActs : List Act :=
  [.eofOut, .eofErr, .exit 0, .waitReturns, .sendErr, .sendPrimary, .sendOut, .startReturn]

/-- The state at the end of `quietActs`. -/
def quietReturned : Session :=
  ((Session.init "true" ["true"] [] []).runActs (.setup .ok :: quietActs)).getD
    (Session.init "true" ["true"] [] [])

/-- The kill invariant: at most one kill request is received, and the flag,
the call that appends the notice and the call of `Process.Kill` follow it. -/
structure Session.Inv2 (s : Session) : Prop where
  sends_le : s.killSends ≤ 1
  killed_iff : s.killed = true ↔ s.killSends = 1
  notices : originCount .killNotice s.log = s.killSends
  early : (s.primary = .idle ∨ s.primary = .selecting) → s.killSends = 0 ∧ s.killCalls = 0
  killing : s.primary = .killing → s.killSends = 1 ∧ s.killCalls = 0
  late : (s.primary = .sending ∨ s.primary = .done) → s.killCalls = s.killSends
  blocked : s.ui = .sendingKill → s.killSends = 0 ∧ 1 ≤ s.keysK
  pressed : 1 ≤ s.keysK → s.ui = .sendingKill ∨ s.killSends = 1
  pressedTwice : 2 ≤ s.keysK → s.killSends = 1

/-- The stream invariant: each reader has passed to `append` or `appendError`
what it has consumed of its stream, in order. -/
structure Session.Inv3 (outLines errLines : List String) (s : Session) : Prop where
  outs : linesOf .stdout s.log ++ s.outRest = outLines
  errs : linesOf .stderr s.log ++ s.errRest = errLines

/-- The line that `main` appends after a non-zero return of `start`, once it
has done so. -/
def Session.failPart (s : Session) : List (Origin × String) :=
  match s.startPc with
  | .completed rc => if rc ≠ 0 then [(.failSummary, s.failText)] else []
  | _ => []

/-- The line that the primary goroutine appends after `primary()` returned
false for a command that did not succeed, once it has called `appendError`. -/
def Session.endPart (s : Session) : List (Origin × String) :=
  if (s.primary = .sending ∨ s.primary = .done) ∧ s.proc.Success = false then
    [(.cmdFailed, "Command failed: rc = " ++ fmtInt s.proc.ExitCode)]
  else []

/-- The content invariant: which synthetic lines were appended, by kind of run. -/
structure Session.Inv5 (s : Session) : Prop where
  fresh : s.startPc = .notStarted → s.log = []
  failed : s.proc = .notStarted → s.startPc ≠ .notStarted →
    ∃ msg, s.log = (.setupError, msg) :: s.failPart
  natural : s.proc ≠ .notStarted → s.killSends = 0 →
    synthetic s.log = s.endPart ++ s.failPart
  killedRun : s.killSends = 1 →
    ∃ K, synthetic s.log = (.killNotice, "Process was killed by user") :: K ++ s.failPart ∧
      (∀ e ∈ K, e.1 = .killError) ∧ K.length ≤ s.killCalls
  tail : ∃ pre, s.log = pre ++ s.failPart
  exitStable : s.killSends = 0 → (s.primary = .sending ∨ s.primary = .done) →
    s.proc ≠ .running
  rcNatural : ∀ rc, s.rc? = some rc → s.proc ≠ .notStarted →
    (s.killSends = 0 ∨ s.proc = .signaled) → rc = s.proc.ExitCode

/-- Whether the write of `bc.lines` of a call is still to come. -/
def AppendPc.linesDue : AppendPc → Bool
  | .loadErrors => true
  | .storeErrors => true
  | .showErrors => true
  | .readBottom => true
  | .loadLines => true
  | .storeLines => true
  | _ => false

/-- Whether the write of `bc.errors` of a call of `appendError` is still to come. -/
def AppendPc.errorsDue : AppendPc → Bool
  | .loadErrors => true
  | .storeErrors => true
  | _ => false

/-- The line that a call in progress has yet to store in `bc.lines`. -/
def linesDebt : Option Pending → List String
  | some p => if p.pc.linesDue then [p.line] else []
  | none => []

/-- The increment that a call in progress has yet to store in `bc.errors`. -/
def errorsDebt : Option Pending → Nat
  | some p => if p.isError && p.pc.errorsDue then 1 else 0
  | none => 0

/-- The registers of a call in progress hold the current values, and a call of
`append` is past the statements of `appendError`. -/
def validPending (bc : BuildCapture) : Option Pending → Prop
  | some p =>
    (p.pc = .storeLines → p.regLines = bc.lines) ∧
    (p.pc = .storeErrors → p.regErrors = bc.errors) ∧
    (p.isError = false → p.pc.errorsDue = false ∧ p.pc ≠ .showErrors)
  | none => True

/-- The lines that the calls in progress have yet to store. -/
def Session.linesDebt (s : Session) : List String :=
  Capture.linesDebt s.outPending ++ Capture.linesDebt s.errPending
    ++ Capture.linesDebt s.priPending

/-- The increments that the calls in progress have yet to store. -/
def Session.errorsDebt (s : Session) : Nat :=
  Capture.errorsDebt s.outPending + Capture.errorsDebt s.errPending
    + Capture.errorsDebt s.priPending

/-- The number of calls of `appendError` in the log. -/
def errorCalls (log : List (Origin × String)) : Nat :=
  (log.filter (fun e => e.1 ≠ .stdout)).length

/-- The transcript invariant.  As long as no call of `append` or `appendError`
has started while another was in progress, `bc.lines` and `bc.errors` hold
what the calls in the log have stored; and the `Fail:` line, appended after all
goroutines are done, stays last. -/
structure Session.Inv6 (s : Session) : Prop where
  single : s.overlap = false →
    (s.outPending = none ∧ s.errPending = none) ∨
    (s.outPending = none ∧ s.priPending = none) ∨
    (s.errPending = none ∧ s.priPending = none)
  lines_eq : s.overlap = false → s.bc.lines ++ s.linesDebt = s.log.map Prod.snd
  errors_eq : s.overlap = false → s.bc.errors + s.errorsDebt = errorCalls s.log
  valid : s.overlap = false →
    validPending s.bc s.outPending ∧ validPending s.bc s.errPending ∧
      validPending s.bc s.priPending
  last : ∀ rc, s.startPc = .completed rc → rc ≠ 0 → s.bc.lines.getLast? = some s.failText

/-- The output invariant: nothing is written to standard output while the
application runs, nor once the toggle is set; and no call of `append` or
`appendError` overlaps another before the child process is started. -/
structure Session.Inv7 (s : Session) : Prop where
  quiet : s.appRunning = true → s.stdout = ""
  cleared : s.clear = true → s.stdout = ""
  started : s.proc = .notStarted → s.overlap = false

/-- All invariants of a run of a command whose streams deliver `outLines` and
`errLines`. -/
structure Session.Inv (outLines errLines : List String) (s : Session) : Prop where
  i1 : s.Inv1
  i2 : s.Inv2
  i3 : s.Inv3 outLines errLines
  i5 : s.Inv5
  i6 : s.Inv6
  i7 : s.Inv7

/-! ## Concrete runs -/

/-- The statements of one call, executed by goroutine `g` one after another. -/
def statements (g : Goroutine) (n : Nat) : List Act := List.replicate n (.advance g)

/-- The command `echo hello`. -/
def helloInit : Session := Session.init "echo" ["echo", "hello"] ["hello"] []

/-- A running `sleep 100` that has one line of output to deliver. -/
def sleepInit : Session := Session.init "sleep" ["sleep", "100"] ["tick"] []

/-- Two presses of `'k'`: the first is received by the primary goroutine,
which appends the notice and then kills the process. -/
def twoKillsActs : List Act :=
  [.setup .ok, .key 'k', .recvKill] ++ statements .primary 9 ++ [.key 'k', .kill none]

/-- The state after `twoKillsActs`. -/
def twoKills : Session := (sleepInit.runActs twoKillsActs).getD sleepInit

/-- Two presses of `'k'` in a complete run in which the stdout reader has read
`bc.lines` when the notice is appended, and writes it back afterwards. -/
def twoKillsRaceActs : List Act :=
  [.setup .ok, .key 'k', .scanOut] ++ statements .stdoutReader 2 ++ [.recvKill]
    ++ statements .primary 9 ++ [.key 'k'] ++ statements .stdoutReader 4 ++ [.kill none]
    ++ [.eofOut, .eofErr, .sendOut, .sendErr, .sendPrimary, .startReturn, .markFinished,
        .reportFail]

/-- The state after `twoKillsRaceActs`. -/
def twoKillsRace : Session := (sleepInit.runActs twoKillsRaceActs).getD sleepInit

/-- The end of a run: both streams end, the three signals arrive, `start`
returns and `main` finishes the session. -/
def closing : List Act :=
  [.eofOut, .eofErr, .sendOut, .sendErr, .sendPrimary, .startReturn, .markFinished,
   .reportFail]

/-- A complete run in which the user kills `sleep 100` after one line of
output; no two calls of `append` or `appendError` overlap. -/
def killedActs : List Act :=
  [.setup .ok, .scanOut] ++ statements .stdoutReader 6 ++ [.key 'k', .recvKill]
    ++ statements .primary 9 ++ [.kill none] ++ closing

/-- The state after `killedActs`. -/
def killedFinal : Session := (sleepInit.runActs killedActs).getD sleepInit

/-- A complete run in which the line of output is read after the kill. -/
def killedLateActs : List Act :=
  [.setup .ok, .key 'k', .recvKill] ++ statements .primary 9 ++ [.kill none, .scanOut]
    ++ statements .stdoutReader 6 ++ closing

/-- The state after `killedLateActs`. -/
def killedLate : Session := (sleepInit.runActs killedLateActs).getD sleepInit

/-- A complete run in which the stdout reader has read `bc.lines` when the
notice is appended, and writes it back afterwards. -/
def killedRaceActs : List Act :=
  [.setup .ok, .key 'k', .scanOut] ++ statements .stdoutReader 2 ++ [.recvKill]
    ++ statements .primary 9 ++ statements .stdoutReader 4 ++ [.kill none] ++ closing

/-- The state after `killedRaceActs`. -/
def killedRace : Session := (sleepInit.runActs killedRaceActs).getD sleepInit

/-- The session of `echo hello` after it has finished, on which the user
presses `'k'`. -/
def lateKillActs : List Act :=
  [.setup .ok, .scanOut] ++ statements .stdoutReader 6
    ++ [.eofOut, .eofErr, .exit 0, .waitReturns, .sendOut, .sendErr, .sendPrimary,
        .startReturn, .markFinished, .reportFail, .key 'k']

/-- The state after `lateKillActs`. -/
def lateKill : Session := (helloInit.runActs lateKillActs).getD helloInit

/-- A command that writes `oops` to its standard error and exits with code 2. -/
def oopsInit : Session :=
  Session.init "sh" ["sh", "-c", "echo oops >&2; exit 2"] [] ["oops"]

/-- A complete run of the `oops` command in which no two calls overlap and
`oops` is read before the child exits. -/
def oopsActs : List Act :=
  [.setup .ok, .scanErr] ++ statements .stderrReader 9 ++ [.exit 2, .waitReturns]
    ++ statements .primary 9 ++ closing

/-- The state after `oopsActs`. -/
def oopsFinal : Session := (oopsInit.runActs oopsActs).getD oopsInit

/-- A complete run of the `oops` command in which `oops` is read after the
primary goroutine has reported the failure. -/
def oopsLateActs : List Act :=
  [.setup .ok, .exit 2, .waitReturns] ++ statements .primary 9 ++ [.scanErr]
    ++ statements .stderrReader 9 ++ closing

/-- The state after `oopsLateActs`. -/
def oopsLate : Session := (oopsInit.runActs oopsLateActs).getD oopsInit

/-- A complete run of the `oops` command in which the pipe is closed before
`oops` is read. -/
def oopsDroppedActs : List Act :=
  [.setup .ok, .exit 2, .eofErr, .waitReturns] ++ statements .primary 9
    ++ [.eofOut, .sendOut, .sendErr, .sendPrimary, .startReturn, .markFinished, .reportFail]

/-- The state after `oopsDroppedActs`. -/
def oopsDropped : Session := (oopsInit.runActs oopsDroppedActs).getD oopsInit

/-- A complete run of the `oops` command in which the stderr reader has read
`bc.lines` when the primary goroutine reports the failure, and writes it back
afterwards. -/
def oopsRaceActs : List Act :=
  [.setup .ok, .scanErr] ++ statements .stderrReader 5 ++ [.exit 2, .waitReturns]
    ++ statements .primary 9 ++ statements .stderrReader 4 ++ closing

/-- The state after `oopsRaceActs`. -/
def oopsRace : Session := (oopsInit.runActs oopsRaceActs).getD oopsInit

/-- A complete run of the `oops` command in which the stderr reader has read
`bc.errors` when the primary goroutine reports the failure, and writes it back
afterwards. -/
def oopsMiscountActs : List Act :=
  [.setup .ok, .scanErr] ++ statements .stderrReader 1 ++ [.exit 2, .waitReturns]
    ++ statements .primary 9 ++ statements .stderrReader 8 ++ closing

/-- The state after `oopsMiscountActs`. -/
def oopsMiscount : Session := (oopsInit.runActs oopsMiscountActs).getD oopsInit

/-- A command that cannot be started. -/
def nosuchInit : Session := Session.init "nosuch" ["nosuch"] [] []

/-- The run after a failed `cmd.Start()`. -/
def nosuchActs : List Act := [.markFinished, .reportFail]

/-- The state after the failed start and `nosuchActs`. -/
def nosuchFinal : Session :=
  (nosuchInit.runActs (.setup (.startError "executable file not found") :: nosuchActs)).getD
    nosuchInit

/-- A complete run of `echo hello`, after the set-up. -/
def helloActs : List Act :=
  [.scanOut] ++ statements .stdoutReader 6
    ++ [.eofOut, .eofErr, .exit 0, .waitReturns, .sendOut, .sendErr, .sendPrimary,
        .startReturn, .markFinished, .reportFail]

/-- The state of `echo hello` when the session is finished. -/
def helloFinished : Session := (helloInit.runActs (.setup .ok :: helloActs)).getD helloInit

/-! ## Bookkeeping lemmas -/

namespace BuildCapture

@[simp] theorem changed_lines (bc : BuildCapture) (i : Int) : (bc.changed i).lines = bc.lines := rfl
@[simp] theorem changed_list (bc : BuildCapture) (i : Int) : (bc.changed i).list = bc.list := rfl
@[simp] theorem changed_errors (bc : BuildCapture) (i : Int) :
    (bc.changed i).errors = bc.errors := rfl

theorem insertPos_neg_two (l : TviewList) (h : 1 ≤ l.items.length) :
    l.insertPos (-2) = (l.items.length : Int) - 1 := by
  unfold TviewList.insertPos
  simp only []
  split_ifs <;> omega

@[simp] theorem listInsertItem_lines (bc : BuildCapture) (i : Int) (it : ListItem) :
    (bc.listInsertItem i it).lines = bc.lines := by
  unfold listInsertItem; simp only []; split <;> rfl

@[simp] theorem listInsertItem_list (bc : BuildCapture) (i : Int) (it : ListItem) :
    (bc.listInsertItem i it).list = bc.list.InsertItem i it := by
  unfold listInsertItem; simp only []; split <;> rfl

@[simp] theorem listInsertItem_errors (bc : BuildCapture) (i : Int) (it : ListItem) :
    (bc.listInsertItem i it).errors = bc.errors := by
  unfold listInsertItem; simp only []; split <;> rfl

@[simp] theorem listSetCurrentItem_lines (bc : BuildCapture) (i : Int) :
    (bc.listSetCurrentItem i).lines = bc.lines := by
  unfold listSetCurrentItem; simp only []; split <;> rfl

@[simp] theorem listSetCurrentItem_errors (bc : BuildCapture) (i : Int) :
    (bc.listSetCurrentItem i).errors = bc.errors := by
  unfold listSetCurrentItem; simp only []; split <;> rfl

@[simp] theorem listSetCurrentItem_items (bc : BuildCapture) (i : Int) :
    (bc.listSetCurrentItem i).list.items = bc.list.items := by
  unfold listSetCurrentItem; simp only []; split <;> rfl

@[simp] theorem listSetCurrentItem_cur (bc : BuildCapture) (i : Int) :
    (bc.listSetCurrentItem i).list.currentItem = bc.list.clampIndex i := by
  unfold listSetCurrentItem; simp only []

theorem append0_lines (bc : BuildCapture) (e : Bool) (t : String) :
    (bc.append0 e t).lines = bc.lines ++ [t] := by
  unfold append0; simp only []; split <;> simp

theorem append0_errors (bc : BuildCapture) (e : Bool) (t : String) :
    (bc.append0 e t).errors = bc.errors := by
  unfold append0; simp only []; split <;> simp

theorem append0_items (bc : BuildCapture) (e : Bool) (t : String) :
    (bc.append0 e t).list.items =
      (bc.list.InsertItem (-2)
        { mainText := itemText (bc.lines.length + 1) e t, selected := true }).items := by
  unfold append0; simp only []; split <;> simp

/-- The items after `append0`, for a list that ends with some last item. -/
theorem append0_items_snoc (bc : BuildCapture) (e : Bool) (t : String)
    (pre : List ListItem) (last : ListItem) (h : bc.list.items = pre ++ [last]) :
    (bc.append0 e t).list.items =
      pre ++ [{ mainText := itemText (bc.lines.length + 1) e t, selected := true }, last] := by
  rw [append0_items]
  have hlen : 1 ≤ bc.list.items.length := by rw [h]; simp
  unfold TviewList.InsertItem
  simp only [insertPos_neg_two _ hlen]
  have hp : ((bc.list.items.length : Int) - 1).toNat = pre.length := by
    rw [h]; simp
  rw [hp, h]
  simp

end BuildCapture

/-! ## Decimal numbers -/

theorem digitChar_spec (k : Nat) (h : k < 10) :
    (Nat.digitChar k).isDigit = true ∧ (Nat.digitChar k).toNat - '0'.toNat = k ∧
      ((Nat.digitChar k) == ' ') = false := by
  interval_cases k <;> decide

theorem toDigitsCore_spec : ∀ (fuel n : Nat) (acc : List Char), n < fuel →
    ∃ ds, Nat.toDigitsCore 10 fuel n acc = ds ++ acc ∧ ds ≠ [] ∧
      (∀ c ∈ ds, c.isDigit = true) ∧ (∀ c ∈ ds, (c == ' ') = false) ∧
      ds.foldl (fun a c => a * 10 + (c.toNat - '0'.toNat)) 0 = n := by
  intro fuel
  induction fuel with
  | zero => intro n acc h; omega
  | succ f ih =>
    intro n acc h
    have hd := digitChar_spec (n % 10) (Nat.mod_lt _ (by decide))
    unfold Nat.toDigitsCore
    simp only []
    by_cases h0 : n / 10 = 0
    · rw [if_pos h0]
      refine ⟨[Nat.digitChar (n % 10)], rfl, by simp, ?_, ?_, ?_⟩
      · intro c hc; simp at hc; rw [hc]; exact hd.1
      · intro c hc; simp at hc; rw [hc]; exact hd.2.2
      · simp only [List.foldl_cons, List.foldl_nil]; rw [hd.2.1]; omega
    · rw [if_neg h0]
      obtain ⟨ds, h1, _, h3, h4, h5⟩ := ih (n / 10) (Nat.digitChar (n % 10) :: acc) (by omega)
      refine ⟨ds ++ [Nat.digitChar (n % 10)], by rw [h1]; simp, by simp, ?_, ?_, ?_⟩
      · intro c hc
        rcases List.mem_append.1 hc with hc | hc
        · exact h3 c hc
        · simp at hc; rw [hc]; exact hd.1
      · intro c hc
        rcases List.mem_append.1 hc with hc | hc
        · exact h4 c hc
        · simp at hc; rw [hc]; exact hd.2.2
      · rw [List.foldl_append, h5]
        simp only [List.foldl_cons, List.foldl_nil]; rw [hd.2.1]; omega

theorem fmtD_spec (n : Nat) :
    fmtD n ≠ [] ∧ (∀ c ∈ fmtD n, c.isDigit = true) ∧ (∀ c ∈ fmtD n, (c == ' ') = false) ∧
      (fmtD n).foldl (fun a c => a * 10 + (c.toNat - '0'.toNat)) 0 = n := by
  obtain ⟨ds, h1, h2, h3, h4, h5⟩ := toDigitsCore_spec (n + 1) n [] (by omega)
  have : fmtD n = ds := by unfold fmtD Nat.toDigits; rw [h1]; simp
  rw [this]; exact ⟨h2, h3, h4, h5⟩

theorem dropWhile_spaces (k : Nat) (ds rest : List Char) (hne : ds ≠ [])
    (h : ∀ c ∈ ds, (c == ' ') = false) :
    (List.replicate k ' ' ++ ds ++ rest).dropWhile (fun c => c == ' ') = ds ++ rest := by
  induction k with
  | zero =>
    cases ds with
    | nil => exact absurd rfl hne
    | cons d ds => simp [List.dropWhile, h d (by simp)]
  | succ k ih => simpa [List.replicate_succ, List.dropWhile] using ih

theorem takeWhile_digits (ds rest : List Char) (h : ∀ c ∈ ds, c.isDigit = true) :
    (ds ++ ' ' :: rest).takeWhile Char.isDigit = ds := by
  induction ds with
  | nil => simp [List.takeWhile]
  | cons d ds ih =>
    have hd := h d (by simp)
    have ih2 := ih (fun c hc => h c (by simp [hc]))
    simp only [List.cons_append, List.takeWhile_cons, hd, if_true, ih2]

theorem bar_data (e : Bool) : ∃ rest, (BuildCapture.bar e).data = ' ' :: rest := by
  cases e
  · exact ⟨_, rfl⟩
  · exact ⟨_, rfl⟩

/-- Reading the number back from an item text gives the line number. -/
theorem seqNumber_itemText (n : Nat) (e : Bool) (t : String) :
    seqNumber (BuildCapture.itemText n e t) = some n := by
  obtain ⟨hne, hdig, hsp, hval⟩ := fmtD_spec n
  obtain ⟨rest, hbar⟩ := bar_data e
  have hdata : (BuildCapture.itemText n e t).data =
      List.replicate (4 - (fmtD n).length) ' ' ++ fmtD n ++ (' ' :: (rest ++ t.data)) := by
    simp [BuildCapture.itemText, fmt4d, String.data_append, hbar]
  unfold seqNumber
  simp only [hdata]
  rw [dropWhile_spaces _ _ _ hne hsp, takeWhile_digits _ _ hdig]
  have : (fmtD n).isEmpty = false := by
    cases hfd : fmtD n with
    | nil => exact absurd hfd hne
    | cons _ _ => rfl
  have h48 : '0'.toNat = 48 := by decide
  rw [h48] at hval
  simp [this, hval]

/-! ## Sequences of calls -/

theorem applyCall_lines (bc : BuildCapture) (c : Call) :
    (applyCall bc c).lines = bc.lines ++ [c.text] := by
  unfold applyCall BuildCapture.appendError BuildCapture.append
  split <;> simp [BuildCapture.append0_lines]

theorem applyCall_items_snoc (bc : BuildCapture) (c : Call)
    (pre : List ListItem) (last : ListItem) (h : bc.list.items = pre ++ [last]) :
    (applyCall bc c).list.items = pre ++ [callItem bc.lines.length c, last] := by
  unfold applyCall BuildCapture.appendError BuildCapture.append callItem
  split
  · next he => rw [BuildCapture.append0_items_snoc _ _ _ pre last (by simpa using h)]; simp [he]
  · next he => rw [BuildCapture.append0_items_snoc _ _ _ pre last h]; simp [he]

theorem applyCalls_snoc (bc : BuildCapture) (cs : List Call) (c : Call) :
    applyCalls bc (cs ++ [c]) = applyCall (applyCalls bc cs) c := by
  simp [applyCalls, List.foldl_append]

theorem applyCalls_shape (calls : List Call) :
    (applyCalls newBuildCapture calls).lines = calls.map Call.text ∧
    (applyCalls newBuildCapture calls).list.items =
      List.zipWith callItem (List.range calls.length) calls ++ [eotItem] := by
  induction calls using List.reverseRecOn with
  | nil => exact ⟨rfl, rfl⟩
  | append_singleton cs c ih =>
    obtain ⟨h1, h2⟩ := ih
    rw [applyCalls_snoc]
    refine ⟨by rw [applyCall_lines, h1]; simp, ?_⟩
    rw [applyCall_items_snoc _ _ _ _ h2, h1]
    simp only [List.length_append, List.length_singleton, List.length_map]
    rw [List.range_succ, List.zipWith_append _ _ _ _ _ (by simp)]
    simp

/-- C1: after any sequence of `append` / `appendError` calls on a fresh
`buildCapture`, `bc.lines` holds the texts of the calls in order, the list holds
for the `k`-th call the item `"%4d%s%s"` of `k`, its separator and its text,
followed by the sentinel, and the numbers read back from the items are exactly
`1, 2, ..., N` in order (the sentinel shows none); error lines are numbered in
the same series. -/
theorem sequence_numbers_one_to_N (calls : List Call) :
    (applyCalls newBuildCapture calls).lines = calls.map Call.text ∧
    (applyCalls newBuildCapture calls).list.items =
      List.zipWith callItem (List.range calls.length) calls ++ [eotItem] ∧
    (applyCalls newBuildCapture calls).list.items.map (fun it => seqNumber it.mainText) =
      (List.range' 1 calls.length).map some ++ [none] := by
  obtain ⟨h1, h2⟩ := applyCalls_shape calls
  refine ⟨h1, h2, ?_⟩
  rw [h2, List.map_append]
  congr 1
  apply List.ext_getElem
  · simp
  · intro i hi1 hi2
    simp [callItem, seqNumber_itemText, Nat.add_comm]

/-! ## The cursor across an append -/

namespace BuildCapture

theorem insertItem_length (l : TviewList) (i : Int) (it : ListItem) :
    (l.InsertItem i it).items.length = l.items.length + 1 := by
  unfold TviewList.InsertItem
  simp only [List.length_append, List.length_cons, List.length_take, List.length_drop]
  omega

theorem insertPos_neg_two_empty (l : TviewList) (h : l.items.length = 0) :
    l.insertPos (-2) = 0 := by
  unfold TviewList.insertPos
  simp only []
  split_ifs <;> omega

theorem append0_count (bc : BuildCapture) (e : Bool) (t : String) :
    (bc.append0 e t).list.GetItemCount = bc.list.GetItemCount + 1 := by
  unfold TviewList.GetItemCount
  rw [append0_items, insertItem_length]
  push_cast; rfl

theorem append0_cur_of_atBottom (bc : BuildCapture) (e : Bool) (t : String)
    (h : bc.atBottom = true) :
    (bc.append0 e t).list.currentItem = bc.list.items.length := by
  unfold append0
  simp only [h, if_true, changed_list, listSetCurrentItem_cur, listInsertItem_list]
  unfold TviewList.clampIndex
  simp only [insertItem_length]
  split_ifs <;> omega

theorem append0_cur_of_not_atBottom (bc : BuildCapture) (e : Bool) (t : String)
    (h : bc.atBottom = false) :
    (bc.append0 e t).list.currentItem = bc.list.currentItem := by
  have hne : bc.list.currentItem ≠ (bc.list.items.length : Int) - 1 := by
    simpa [atBottom, TviewList.GetCurrentItem, TviewList.GetItemCount] using h
  unfold append0
  simp only [h, Bool.false_eq_true, if_false, changed_list, listInsertItem_list]
  unfold TviewList.InsertItem
  simp only []
  by_cases h0 : bc.list.items.length = 0
  · have hp := insertPos_neg_two_empty bc.list h0
    split_ifs <;> omega
  · have hp := insertPos_neg_two bc.list (by omega)
    split_ifs <;> omega

end BuildCapture

/-- C2: when `atBottom()` holds before `append0`, it holds after, and the
current item is the new last index, one more than the old last index. -/
theorem pinned_cursor_follows (bc : BuildCapture) (isError : Bool) (line : String)
    (h : bc.atBottom = true) :
    (bc.append0 isError line).atBottom = true ∧
    (bc.append0 isError line).list.GetCurrentItem
      = (bc.append0 isError line).list.GetItemCount - 1 ∧
    (bc.append0 isError line).list.GetCurrentItem = (bc.list.GetItemCount - 1) + 1 := by
  have hc := BuildCapture.append0_cur_of_atBottom bc isError line h
  have hn := BuildCapture.append0_count bc isError line
  simp only [BuildCapture.atBottom, TviewList.GetCurrentItem, beq_iff_eq] at *
  simp only [TviewList.GetItemCount] at *
  omega

/-- Witness for C2 on a fresh view, which is pinned to the sentinel. -/
theorem pinned_cursor_follows_witness :
    newBuildCapture.atBottom = true ∧
    (newBuildCapture.append0 false "hello").atBottom = true ∧
    (newBuildCapture.append0 false "hello").list.GetCurrentItem
      = (newBuildCapture.append0 false "hello").list.GetItemCount - 1 ∧
    (newBuildCapture.append0 false "hello").list.GetCurrentItem
      = (newBuildCapture.list.GetItemCount - 1) + 1 :=
  ⟨by decide, pinned_cursor_follows newBuildCapture false "hello" (by decide)⟩

/-! ## Well-formed views -/

namespace BuildCapture

theorem WellFormed.items_eq {bc : BuildCapture} (h : bc.WellFormed) :
    bc.list.items = bc.list.items.dropLast ++ [eotItem] :=
  (List.dropLast_append_getLast? eotItem (by simpa using h.2.1)).symm

theorem wellFormed_new : newBuildCapture.WellFormed := by decide

theorem wellFormed_append0 (bc : BuildCapture) (e : Bool) (t : String) (h : bc.WellFormed) :
    (bc.append0 e t).WellFormed := by
  have hitems := append0_items_snoc bc e t _ _ h.items_eq
  obtain ⟨h1, h2, h3, h4⟩ := h
  refine ⟨?_, ?_, ?_, ?_⟩
  · rw [append0_items, insertItem_length, append0_lines, h1]; simp
  · rw [hitems]; simp
  · cases hb : bc.atBottom
    · rw [append0_cur_of_not_atBottom bc e t hb]; exact h3
    · rw [append0_cur_of_atBottom bc e t hb]; omega
  · rw [append0_items, insertItem_length]
    cases hb : bc.atBottom
    · rw [append0_cur_of_not_atBottom bc e t hb]; push_cast; omega
    · rw [append0_cur_of_atBottom bc e t hb]; push_cast; omega

theorem wellFormed_errors (bc : BuildCapture) (n : Nat) (txt : String) (h : bc.WellFormed) :
    ({ bc with errors := n, errorCount := txt } : BuildCapture).WellFormed := h

theorem wellFormed_moveCursor (bc : BuildCapture) (i : Int) (h : bc.WellFormed) :
    (bc.moveCursor i).WellFormed := by
  obtain ⟨h1, h2, h3, h4⟩ := h
  have hc : 0 ≤ bc.list.clampIndex i ∧ bc.list.clampIndex i < bc.list.items.length := by
    unfold TviewList.clampIndex
    simp only []
    split_ifs <;> omega
  unfold moveCursor
  simp only []
  split
  · exact ⟨h1, h2, hc.1, hc.2⟩
  · exact ⟨h1, h2, hc.1, hc.2⟩

end BuildCapture

theorem wellFormed_applyOp (bc : BuildCapture) (op : ViewOp) (h : bc.WellFormed) :
    (applyOp bc op).WellFormed := by
  cases op with
  | call c =>
    show (applyCall bc c).WellFormed
    unfold applyCall BuildCapture.append BuildCapture.appendError
    split
    · exact BuildCapture.wellFormed_append0 _ _ _ (BuildCapture.wellFormed_errors _ _ _ h)
    · exact BuildCapture.wellFormed_append0 _ _ _ h
  | move i => exact BuildCapture.wellFormed_moveCursor bc i h

theorem wellFormed_applyOps (ops : List ViewOp) (bc : BuildCapture) (h : bc.WellFormed) :
    (applyOps bc ops).WellFormed := by
  induction ops generalizing bc with
  | nil => exact h
  | cons op ops ih => exact ih _ (wellFormed_applyOp bc op h)

theorem index_of_wellFormed (bc : BuildCapture) (h : bc.WellFormed)
    (hb : bc.atBottom = false) :
    0 ≤ bc.list.currentItem ∧ bc.list.currentItem < bc.lines.length ∧
      ∃ txt, BuildCapture.index? bc.lines bc.list.currentItem = some txt := by
  obtain ⟨h1, _, h3, h4⟩ := h
  have hne : bc.list.currentItem ≠ (bc.list.items.length : Int) - 1 := by
    simpa [BuildCapture.atBottom, TviewList.GetCurrentItem, TviewList.GetItemCount] using hb
  have hlt : bc.list.currentItem < bc.lines.length := by omega
  refine ⟨h3, hlt, ?_⟩
  have hn : bc.list.currentItem.toNat < bc.lines.length := by omega
  refine ⟨bc.lines[bc.list.currentItem.toNat], ?_⟩
  unfold BuildCapture.index?
  rw [if_neg (by omega)]
  exact List.getElem?_eq_getElem hn

/-- C3: in a well-formed view whose cursor is not on the sentinel, `append0`
leaves the current item index unchanged, the index still designates the same
captured line and the same list item, and `atBottom()` is still false. -/
theorem paused_cursor_stays (bc : BuildCapture) (isError : Bool) (line : String)
    (hwf : bc.WellFormed) (h : bc.atBottom = false) :
    bc.list.GetCurrentItem < bc.list.GetItemCount - 1 ∧
    (bc.append0 isError line).list.GetCurrentItem = bc.list.GetCurrentItem ∧
    (bc.append0 isError line).atBottom = false ∧
    BuildCapture.index? (bc.append0 isError line).lines (bc.append0 isError line).list.GetCurrentItem
      = BuildCapture.index? bc.lines bc.list.GetCurrentItem ∧
    (BuildCapture.index? bc.lines bc.list.GetCurrentItem).isSome = true ∧
    (bc.append0 isError line).list.items.get? bc.list.GetCurrentItem.toNat
      = bc.list.items.get? bc.list.GetCurrentItem.toNat := by
  obtain ⟨h0, hlt, txt, htxt⟩ := index_of_wellFormed bc hwf h
  have hieq := hwf.items_eq
  have hcur := BuildCapture.append0_cur_of_not_atBottom bc isError line h
  have hcnt := BuildCapture.append0_count bc isError line
  have hitems := BuildCapture.append0_items_snoc bc isError line _ _ hwf.items_eq
  obtain ⟨h1, _, _, _⟩ := hwf
  have hn : bc.list.currentItem.toNat < bc.lines.length := by omega
  simp only [TviewList.GetCurrentItem, TviewList.GetItemCount] at *
  refine ⟨by omega, hcur, ?_, ?_, ?_, ?_⟩
  · simp only [BuildCapture.atBottom, TviewList.GetCurrentItem, TviewList.GetItemCount, hcur]
    simp only [beq_eq_false_iff_ne, ne_eq]
    omega
  · rw [hcur, BuildCapture.append0_lines]
    unfold BuildCapture.index?
    rw [if_neg (by omega), if_neg (by omega)]
    exact List.getElem?_append_left hn
  · rw [htxt]; rfl
  · have hd : bc.list.currentItem.toNat < bc.list.items.dropLast.length := by
      rw [List.length_dropLast]; omega
    rw [hitems]
    conv_rhs => rw [hieq]
    simp only [List.get?_eq_getElem?]
    rw [List.getElem?_append_left hd, List.getElem?_append_left hd]

/-- Witness for C3: a view with two lines and the cursor on the first. -/
theorem paused_cursor_stays_witness :
    pausedView.WellFormed ∧ pausedView.atBottom = false ∧
    (pausedView.list.GetCurrentItem < pausedView.list.GetItemCount - 1 ∧
    (pausedView.append0 false "third").list.GetCurrentItem = pausedView.list.GetCurrentItem ∧
    (pausedView.append0 false "third").atBottom = false ∧
    BuildCapture.index? (pausedView.append0 false "third").lines
        (pausedView.append0 false "third").list.GetCurrentItem
      = BuildCapture.index? pausedView.lines pausedView.list.GetCurrentItem ∧
    (BuildCapture.index? pausedView.lines pausedView.list.GetCurrentItem).isSome = true ∧
    (pausedView.append0 false "third").list.items.get? pausedView.list.GetCurrentItem.toNat
      = pausedView.list.items.get? pausedView.list.GetCurrentItem.toNat) :=
  ⟨by decide, by decide, paused_cursor_stays pausedView false "third" (by decide) (by decide)⟩

/-- C10: in every state reached from a fresh `buildCapture` by appends and
cursor moves, the list has `len(bc.lines) + 1` items with the sentinel last, the
current item is inside the list, and either `atBottom()` holds or the current
index is a valid index of `bc.lines`; `bc.update` never panics. -/
theorem update_index_in_range (ops : List ViewOp) :
    (applyOps newBuildCapture ops).list.GetItemCount
      = (applyOps newBuildCapture ops).lines.length + 1 ∧
    (applyOps newBuildCapture ops).list.items.getLast? = some eotItem ∧
    ((applyOps newBuildCapture ops).atBottom = true ∨
      (0 ≤ (applyOps newBuildCapture ops).list.GetCurrentItem ∧
       (applyOps newBuildCapture ops).list.GetCurrentItem
         < (applyOps newBuildCapture ops).lines.length)) ∧
    (applyOps newBuildCapture ops).update.isSome = true := by
  have hwf := wellFormed_applyOps ops newBuildCapture BuildCapture.wellFormed_new
  generalize applyOps newBuildCapture ops = bc at hwf
  refine ⟨by simp [TviewList.GetItemCount, hwf.1], hwf.2.1, ?_, ?_⟩
  · cases hb : bc.atBottom
    · right
      obtain ⟨h0, h1, _⟩ := index_of_wellFormed bc hwf hb
      exact ⟨h0, h1⟩
    · left; rfl
  · unfold BuildCapture.update
    cases hb : bc.atBottom
    · obtain ⟨_, _, txt, htxt⟩ := index_of_wellFormed bc hwf hb
      simp [TviewList.GetCurrentItem, htxt]
    · simp

/-! ## What each action does -/

namespace Session

theorem step_setup_ok {s s' : Session} (hs : s.step (.setup .ok) = some s') :
    s.startPc = .notStarted ∧
    s' = { s with proc := .running, outPc := .reading, errPc := .reading,
                  primary := .selecting, startPc := .waiting 0 } := by
  simp only [step] at hs
  split at hs
  · next hg => exact ⟨hg, (Option.some.inj hs).symm⟩
  · exact absurd hs (by simp)

theorem step_setup_fail {s s' : Session} {r : SetupResult} (hr : r ≠ .ok)
    (hs : s.step (.setup r) = some s') :
    s.startPc = .notStarted ∧
    ∃ msg, s' = { s.err .setupError msg with startPc := .returned (-2) } := by
  simp only [step] at hs
  split at hs
  · next hg =>
    refine ⟨hg, ?_⟩
    cases r with
    | ok => exact absurd rfl hr
    | stdoutPipeError e => exact ⟨_, (Option.some.inj hs).symm⟩
    | stderrPipeError e => exact ⟨_, (Option.some.inj hs).symm⟩
    | startError e => exact ⟨_, (Option.some.inj hs).symm⟩
  · exact absurd hs (by simp)

theorem step_scanOut {s s' : Session} (hs : s.step .scanOut = some s') :
    ∃ l rest, s.outPc = .reading ∧ s.outRest = l :: rest ∧ s.outPending = none ∧
      s' = ({ s with outRest := rest } : Session).call .stdoutReader .stdout false l := by
  simp only [step] at hs
  split at hs
  · next l rest h1 h2 h3 => exact ⟨l, rest, h1, h2, h3, (Option.some.inj hs).symm⟩
  · exact absurd hs (by simp)

theorem step_eofOut {s s' : Session} (hs : s.step .eofOut = some s') :
    s.outPc = .reading ∧ s.outPending = none ∧ (s.outRest = [] ∨ s.proc ≠ .running) ∧
      s' = { s with outPc := .sending } := by
  simp only [step] at hs
  split at hs
  · next hg => exact ⟨hg.1, hg.2.1, hg.2.2, (Option.some.inj hs).symm⟩
  · exact absurd hs (by simp)

theorem recv_eq {s t : Session} (h : s.recv = some t) :
    ∃ i, s.startPc = .waiting i ∧ i < 3 ∧ t = { s with startPc := .waiting (i + 1) } := by
  unfold recv at h
  split at h
  · next i hi =>
    split at h
    · next hlt => exact ⟨i, hi, hlt, (Option.some.inj h).symm⟩
    · exact absurd h (by simp)
  · exact absurd h (by simp)

theorem step_sendOut {s s' : Session} (hs : s.step .sendOut = some s') :
    ∃ i, s.outPc = .sending ∧ s.startPc = .waiting i ∧ i < 3 ∧
      s' = { s with startPc := .waiting (i + 1), outPc := .done } := by
  simp only [step] at hs
  split at hs
  · next hg =>
    cases hr : s.recv with
    | none => rw [hr] at hs; exact absurd hs (by simp)
    | some t =>
      rw [hr] at hs
      obtain ⟨i, h1, h2, rfl⟩ := recv_eq hr
      exact ⟨i, hg, h1, h2, (Option.some.inj hs).symm⟩
  · exact absurd hs (by simp)

theorem step_scanErr {s s' : Session} (hs : s.step .scanErr = some s') :
    ∃ l rest, s.errPc = .reading ∧ s.errRest = l :: rest ∧ s.errPending = none ∧
      s' = ({ s with errRest := rest } : Session).call .stderrReader .stderr true l := by
  simp only [step] at hs
  split at hs
  · next l rest h1 h2 h3 => exact ⟨l, rest, h1, h2, h3, (Option.some.inj hs).symm⟩
  · exact absurd hs (by simp)

theorem step_eofErr {s s' : Session} (hs : s.step .eofErr = some s') :
    s.errPc = .reading ∧ s.errPending = none ∧ (s.errRest = [] ∨ s.proc ≠ .running) ∧
      s' = { s with errPc := .sending } := by
  simp only [step] at hs
  split at hs
  · next hg => exact ⟨hg.1, hg.2.1, hg.2.2, (Option.some.inj hs).symm⟩
  · exact absurd hs (by simp)

theorem step_sendErr {s s' : Session} (hs : s.step .sendErr = some s') :
    ∃ i, s.errPc = .sending ∧ s.startPc = .waiting i ∧ i < 3 ∧
      s' = { s with startPc := .waiting (i + 1), errPc := .done } := by
  simp only [step] at hs
  split at hs
  · next hg =>
    cases hr : s.recv with
    | none => rw [hr] at hs; exact absurd hs (by simp)
    | some t =>
      rw [hr] at hs
      obtain ⟨i, h1, h2, rfl⟩ := recv_eq hr
      exact ⟨i, hg, h1, h2, (Option.some.inj hs).symm⟩
  · exact absurd hs (by simp)

theorem step_sendPrimary {s s' : Session} (hs : s.step .sendPrimary = some s') :
    ∃ i, s.primary = .sending ∧ s.priPending = none ∧ s.startPc = .waiting i ∧ i < 3 ∧
      s' = { s with startPc := .waiting (i + 1), primary := .done } := by
  simp only [step] at hs
  split at hs
  · next hg =>
    cases hr : s.recv with
    | none => rw [hr] at hs; exact absurd hs (by simp)
    | some t =>
      rw [hr] at hs
      obtain ⟨i, h1, h2, rfl⟩ := recv_eq hr
      exact ⟨i, hg.1, hg.2, h1, h2, (Option.some.inj hs).symm⟩
  · exact absurd hs (by simp)

theorem step_exit {s s' : Session} {c : Nat} (hs : s.step (.exit c) = some s') :
    s.proc = .running ∧ s' = { s with proc := .exited c } := by
  simp only [step] at hs
  split at hs
  · next hg => exact ⟨hg, (Option.some.inj hs).symm⟩
  · exact absurd hs (by simp)

theorem step_waitReturns {s s' : Session} (hs : s.step .waitReturns = some s') :
    s.primary = .selecting ∧ s.proc ≠ .running ∧
    ((s.proc.Success = false ∧
        s' = ({ s with primary := .sending } : Session).call .primary .cmdFailed true
              ("Command failed: rc = " ++ fmtInt s.proc.ExitCode)) ∨
     (s.proc.Success = true ∧ s' = { s with primary := .sending })) := by
  simp only [step] at hs
  split at hs
  · next hg =>
    refine ⟨hg.1, hg.2, ?_⟩
    split at hs
    · next hc => exact Or.inl ⟨by simpa using hc, (Option.some.inj hs).symm⟩
    · next hc => exact Or.inr ⟨by simpa using hc, (Option.some.inj hs).symm⟩
  · exact absurd hs (by simp)

theorem step_recvKill {s s' : Session} (hs : s.step .recvKill = some s') :
    s.primary = .selecting ∧ s.ui = .sendingKill ∧
    s' = ({ s with ui := .idle, killed := true, killSends := s.killSends + 1,
                   primary := .killing } : Session).call .primary .killNotice true
            "Process was killed by user" := by
  simp only [step] at hs
  split at hs
  · next hg => exact ⟨hg.1, hg.2, (Option.some.inj hs).symm⟩
  · exact absurd hs (by simp)

theorem step_kill {s s' : Session} {e : Option String} (hs : s.step (.kill e) = some s') :
    s.primary = .killing ∧ s.priPending = none ∧
    ((∃ msg, e = some msg ∧
        s' = ({ s with killCalls := s.killCalls + 1, primary := .sending } : Session).call
              .primary .killError true ("Error killing process: " ++ msg)) ∨
     (e = none ∧
        s' = { s with killCalls := s.killCalls + 1, primary := .sending,
                      proc := if s.proc = .running then .signaled else s.proc })) := by
  simp only [step] at hs
  split at hs
  · next hg =>
    refine ⟨hg.1, hg.2, ?_⟩
    cases e with
    | some msg => exact Or.inl ⟨msg, rfl, (Option.some.inj hs).symm⟩
    | none => exact Or.inr ⟨rfl, (Option.some.inj hs).symm⟩
  · exact absurd hs (by simp)

theorem step_startReturn {s s' : Session} (hs : s.step .startReturn = some s') :
    s.startPc = .waiting 3 ∧ s' = { s with startPc := .returned s.proc.ExitCode } := by
  simp only [step] at hs
  split at hs
  · next hg => exact ⟨hg, (Option.some.inj hs).symm⟩
  · exact absurd hs (by simp)

theorem step_markFinished {s s' : Session} (hs : s.step .markFinished = some s') :
    ∃ rc, s.startPc = .returned rc ∧
      s' = { s with finished := true, startPc := .finishing rc,
                    bc := { s.bc with caption := "(completed) Press 'q' to exit" } } := by
  simp only [step] at hs
  split at hs
  · next rc hg => exact ⟨rc, hg, (Option.some.inj hs).symm⟩
  · exact absurd hs (by simp)

theorem step_reportFail {s s' : Session} (hs : s.step .reportFail = some s') :
    ∃ rc, s.startPc = .finishing rc ∧
      ((rc ≠ 0 ∧ s' = ({ s with startPc := .completed rc } : Session).err
                        .failSummary s.failText) ∨
       (rc = 0 ∧ s' = { s with startPc := .completed rc })) := by
  simp only [step] at hs
  split at hs
  · next rc hg =>
    refine ⟨rc, hg, ?_⟩
    split at hs
    · next hc => exact Or.inl ⟨hc, (Option.some.inj hs).symm⟩
    · next hc => exact Or.inr ⟨by simpa using hc, (Option.some.inj hs).symm⟩
  · exact absurd hs (by simp)

theorem step_key {s s' : Session} {ch : Char} (hs : s.step (.key ch) = some s') :
    s.appRunning = true ∧ s.ui = .idle ∧ s' = s.handleKey ch := by
  simp only [step] at hs
  split at hs
  · next hg => exact ⟨hg.1, hg.2, (Option.some.inj hs).symm⟩
  · exact absurd hs (by simp)

theorem step_navigate {s s' : Session} {i : Int} (hs : s.step (.navigate i) = some s') :
    s.appRunning = true ∧ s.ui = .idle ∧ s' = { s with bc := s.bc.moveCursor i } := by
  simp only [step] at hs
  split at hs
  · next hg => exact ⟨hg.1, hg.2, (Option.some.inj hs).symm⟩
  · exact absurd hs (by simp)

/-- The effect of the input capture on `'k'`. -/
theorem handleKey_k (s : Session) :
    (s.killed = false ∧
      s.handleKey 'k' = { s with keysK := s.keysK + 1, ui := .sendingKill }) ∨
    (s.killed = true ∧ s.handleKey 'k' = { s with keysK := s.keysK + 1 }) := by
  unfold handleKey
  cases hkd : s.killed
  · left; simp [hkd]
  · right; simp [hkd]

/-- The effect of the input capture on any other key: only `clear`,
`appRunning` and `stdout` can change; the application stops only when the
session is finished, something is written only when the application stops with
the toggle unset, and the toggle is never unset. -/
theorem handleKey_other (s : Session) (ch : Char) (hk : ch ≠ 'k') :
    ∃ c a o, s.handleKey ch = { s with clear := c, appRunning := a, stdout := o } ∧
      ((a = false → s.appRunning = false ∨ s.finished = true) ∧
        (o = s.stdout ∨ (a = false ∧ c = false)) ∧ (s.clear = true → c = true)) := by
  unfold handleKey quit
  simp only [if_neg hk]
  split_ifs with h1 h2 h3 h4 h5 h6
  all_goals first
    | exact ⟨_, _, _, rfl, fun _ => Or.inr (by assumption), by simp_all, by simp_all⟩
    | exact ⟨_, s.appRunning, _, rfl, fun h => Or.inl h, by simp_all, by simp_all⟩

theorem step_advance {s s' : Session} {g : Goroutine} (hs : s.step (.advance g) = some s') :
    ∃ p, s.pendingOf g = some p ∧
      s' = setPending { s with bc := (s.bc.advance p).1 } g (s.bc.advance p).2 := by
  simp only [step] at hs
  split at hs
  · next p hp => exact ⟨p, hp, (Option.some.inj hs).symm⟩
  · exact absurd hs (by simp)

end Session

/-! ## The rendezvous -/

namespace Session

theorem signals_eq_three (s : Session) : s.signals = 3 ↔ s.allDone = true := by
  unfold signals allDone
  split_ifs <;> simp_all

theorem inv1_init (path : String) (args outLines errLines : List String) :
    (init path args outLines errLines).Inv1 := by
  constructor <;> simp [init, startReturned]

set_option maxHeartbeats 4000000 in
theorem inv1_step {s s' : Session} {a : Act} (h : s.Inv1) (hs : s.step a = some s') :
    s'.Inv1 := by
  obtain ⟨h1, h4, h5, p1, p2, p3⟩ := h
  cases a with
  | setup r =>
    by_cases hr : r = .ok
    · subst hr
      obtain ⟨hg, rfl⟩ := step_setup_ok hs
      clear hs
      constructor <;> simp_all [Session.err, Session.call, Session.setPending, Session.busyOthers, startReturned, allDone, signals, rc?]
    · obtain ⟨hg, msg, rfl⟩ := step_setup_fail hr hs
      clear hs
      constructor <;> simp_all [Session.err, Session.call, Session.setPending, Session.busyOthers, startReturned, allDone, signals, rc?]
  | scanOut =>
    obtain ⟨l, rest, hg1, hg2, hgp, rfl⟩ := step_scanOut hs
    clear hs
    constructor <;> simp_all [Session.err, Session.call, Session.setPending, Session.busyOthers, startReturned, allDone, signals, rc?]
  | eofOut =>
    obtain ⟨hg1, hgp, hg2, rfl⟩ := step_eofOut hs
    clear hs
    constructor <;> simp_all [Session.err, Session.call, Session.setPending, Session.busyOthers, startReturned, allDone, signals, rc?]
  | sendOut =>
    obtain ⟨i, hg1, hg2, hg3, rfl⟩ := step_sendOut hs
    clear hs
    constructor <;> simp_all [Session.err, Session.call, Session.setPending, Session.busyOthers, startReturned, allDone, signals, rc?]
    omega
  | scanErr =>
    obtain ⟨l, rest, hg1, hg2, hgp, rfl⟩ := step_scanErr hs
    clear hs
    constructor <;> simp_all [Session.err, Session.call, Session.setPending, Session.busyOthers, startReturned, allDone, signals, rc?]
  | eofErr =>
    obtain ⟨hg1, hgp, hg2, rfl⟩ := step_eofErr hs
    clear hs
    constructor <;> simp_all [Session.err, Session.call, Session.setPending, Session.busyOthers, startReturned, allDone, signals, rc?]
  | sendErr =>
    obtain ⟨i, hg1, hg2, hg3, rfl⟩ := step_sendErr hs
    clear hs
    constructor <;> simp_all [Session.err, Session.call, Session.setPending, Session.busyOthers, startReturned, allDone, signals, rc?]
    omega
  | exit c =>
    obtain ⟨hg1, rfl⟩ := step_exit hs
    clear hs
    constructor <;> simp_all [Session.err, Session.call, Session.setPending, Session.busyOthers, startReturned, allDone, signals, rc?]
  | waitReturns =>
    obtain ⟨hg1, hg2, ⟨hg3, rfl⟩ | ⟨hg3, rfl⟩⟩ := step_waitReturns hs
    · clear hs
      constructor <;> simp_all [Session.err, Session.call, Session.setPending, Session.busyOthers, startReturned, allDone, signals, rc?]
    · clear hs
      constructor <;> simp_all [Session.err, Session.call, Session.setPending, Session.busyOthers, startReturned, allDone, signals, rc?]
  | recvKill =>
    obtain ⟨hg1, hg2, rfl⟩ := step_recvKill hs
    clear hs
    constructor <;> simp_all [Session.err, Session.call, Session.setPending, Session.busyOthers, startReturned, allDone, signals, rc?]
  | kill e =>
    obtain ⟨hg1, hgp, ⟨msg, rfl, rfl⟩ | ⟨rfl, rfl⟩⟩ := step_kill hs
    · clear hs
      constructor <;> simp_all [Session.err, Session.call, Session.setPending, Session.busyOthers, startReturned, allDone, signals, rc?]
    · clear hs
      constructor <;> simp_all [startReturned, allDone, signals, rc?]
      split <;> simp_all
  | sendPrimary =>
    obtain ⟨i, hg1, hgp, hg2, hg3, rfl⟩ := step_sendPrimary hs
    clear hs
    constructor <;> simp_all [Session.err, Session.call, Session.setPending, Session.busyOthers, startReturned, allDone, signals, rc?]
  | startReturn =>
    obtain ⟨hg1, rfl⟩ := step_startReturn hs
    clear hs
    have hall : s.allDone = true ∧ s.proc ≠ .notStarted := by
      rcases h1 with h | h | h | h
      · rw [hg1] at h; exact absurd h.1 (by simp)
      · rw [hg1] at h
        exact ⟨(signals_eq_three s).1 (StartPc.waiting.inj h.1).symm, h.2.2.2.2⟩
      · simp [startReturned, hg1] at h
      · simp [startReturned, hg1] at h
    constructor
    · right; right; left
      exact ⟨rfl, hall.1, hall.2⟩
    · exact h4
    · intro hf
      obtain ⟨rc, h | h⟩ := h5 hf <;> rw [hg1] at h <;> exact absurd h (by simp)
    · exact p1
    · exact p2
    · exact p3
  | markFinished =>
    obtain ⟨rc, hg1, rfl⟩ := step_markFinished hs
    clear hs
    constructor <;> simp_all [Session.err, Session.call, Session.setPending, Session.busyOthers, startReturned, allDone, signals, rc?]
  | reportFail =>
    obtain ⟨rc, hg1, ⟨hg2, rfl⟩ | ⟨hg2, rfl⟩⟩ := step_reportFail hs
    · clear hs
      constructor <;> simp_all [Session.err, Session.call, Session.setPending, Session.busyOthers, startReturned, allDone, signals, rc?]
    · clear hs
      constructor <;> simp_all [Session.err, Session.call, Session.setPending, Session.busyOthers, startReturned, allDone, signals, rc?]
  | key ch =>
    obtain ⟨hg1, hg2, rfl⟩ := step_key hs
    clear hs
    by_cases hk : ch = 'k'
    · subst hk
      rcases handleKey_k s with ⟨hkd, he⟩ | ⟨hkd, he⟩
      · rw [he]
        constructor <;> simp_all [Session.err, Session.call, Session.setPending, Session.busyOthers, startReturned, allDone, signals, rc?]
      · rw [he]
        constructor <;> simp_all [Session.err, Session.call, Session.setPending, Session.busyOthers, startReturned, allDone, signals, rc?]
    · obtain ⟨c, a, o, he, ha⟩ := handleKey_other s ch hk
      rw [he]
      constructor <;> simp_all [Session.err, Session.call, Session.setPending, Session.busyOthers, startReturned, allDone, signals, rc?]
  | navigate i =>
    obtain ⟨hg1, hg2, rfl⟩ := step_navigate hs
    clear hs
    constructor <;> simp_all [Session.err, Session.call, Session.setPending, Session.busyOthers, startReturned, allDone, signals, rc?]
  | advance g =>
    obtain ⟨p, hgp, rfl⟩ := step_advance hs
    clear hs
    cases g with
    | stdoutReader =>
      simp only [pendingOf] at hgp
      constructor <;> simp_all [Session.err, Session.call, Session.setPending, Session.busyOthers, startReturned, allDone, signals, rc?]
    | stderrReader =>
      simp only [pendingOf] at hgp
      constructor <;> simp_all [Session.err, Session.call, Session.setPending, Session.busyOthers, startReturned, allDone, signals, rc?]
    | primary =>
      simp only [pendingOf] at hgp
      constructor <;> simp_all [Session.err, Session.call, Session.setPending, Session.busyOthers, startReturned, allDone, signals, rc?]
      rcases p3 with h | h <;> simp [h]

theorem run_cons (s : Session) (a : Act) (as : List Act) :
    s.runActs (a :: as) = (s.step a).bind (fun t => t.runActs as) := rfl

/-- A property kept by every step holds at the end of every run. -/
theorem run_induction (P : Session → Prop)
    (hstep : ∀ s a s', P s → s.step a = some s' → P s') :
    ∀ (acts : List Act) (s s' : Session), P s → s.runActs acts = some s' → P s' := by
  intro acts
  induction acts with
  | nil => intro s s' hP h; cases h; exact hP
  | cons a as ih =>
    intro s s' hP h
    rw [run_cons] at h
    cases hst : s.step a with
    | none => rw [hst] at h; exact absurd h (by simp)
    | some t => rw [hst] at h; exact ih t s' (hstep s a t hP hst) h

theorem inv1_run {path : String} {args outLines errLines : List String} {acts : List Act}
    {s : Session} (h : (init path args outLines errLines).runActs acts = some s) : s.Inv1 :=
  run_induction Inv1 (fun _ _ _ hi hs => inv1_step hi hs) acts _ s
    (inv1_init path args outLines errLines) h

set_option maxHeartbeats 4000000 in
theorem started_step {s s' : Session} {a : Act} (h : s.proc ≠ .notStarted)
    (hs : s.step a = some s') : s'.proc ≠ .notStarted := by
  cases a with
  | setup r =>
    by_cases hr : r = .ok
    · subst hr
      obtain ⟨hg, rfl⟩ := step_setup_ok hs
      clear hs
      simp_all [Session.err, Session.call, Session.setPending]
    · obtain ⟨hg, msg, rfl⟩ := step_setup_fail hr hs
      clear hs
      simp_all [Session.err, Session.call, Session.setPending]
  | scanOut =>
    obtain ⟨l, rest, hg1, hg2, hgp, rfl⟩ := step_scanOut hs
    clear hs
    simp_all [Session.err, Session.call, Session.setPending]
  | eofOut =>
    obtain ⟨hg1, hgp, hg2, rfl⟩ := step_eofOut hs
    clear hs
    simp_all [Session.err, Session.call, Session.setPending]
  | sendOut =>
    obtain ⟨i, hg1, hg2, hg3, rfl⟩ := step_sendOut hs
    clear hs
    simp_all [Session.err, Session.call, Session.setPending]
  | scanErr =>
    obtain ⟨l, rest, hg1, hg2, hgp, rfl⟩ := step_scanErr hs
    clear hs
    simp_all [Session.err, Session.call, Session.setPending]
  | eofErr =>
    obtain ⟨hg1, hgp, hg2, rfl⟩ := step_eofErr hs
    clear hs
    simp_all [Session.err, Session.call, Session.setPending]
  | sendErr =>
    obtain ⟨i, hg1, hg2, hg3, rfl⟩ := step_sendErr hs
    clear hs
    simp_all [Session.err, Session.call, Session.setPending]
  | exit c =>
    obtain ⟨hg1, rfl⟩ := step_exit hs
    clear hs
    simp_all [Session.err, Session.call, Session.setPending]
  | waitReturns =>
    obtain ⟨hg1, hg2, ⟨hg3, rfl⟩ | ⟨hg3, rfl⟩⟩ := step_waitReturns hs
    · clear hs
      simp_all [Session.err, Session.call, Session.setPending]
    · clear hs
      simp_all [Session.err, Session.call, Session.setPending]
  | recvKill =>
    obtain ⟨hg1, hg2, rfl⟩ := step_recvKill hs
    clear hs
    simp_all [Session.err, Session.call, Session.setPending]
  | kill e =>
    obtain ⟨hg1, hgp, ⟨msg, rfl, rfl⟩ | ⟨rfl, rfl⟩⟩ := step_kill hs
    · clear hs
      simp_all [Session.err, Session.call, Session.setPending]
    · clear hs
      simp only []
      split <;> simp_all
  | sendPrimary =>
    obtain ⟨i, hg1, hgp, hg2, hg3, rfl⟩ := step_sendPrimary hs
    clear hs
    simp_all [Session.err, Session.call, Session.setPending]
  | startReturn =>
    obtain ⟨hg1, rfl⟩ := step_startReturn hs
    clear hs
    simp_all [Session.err, Session.call, Session.setPending]
  | markFinished =>
    obtain ⟨rc, hg1, rfl⟩ := step_markFinished hs
    clear hs
    simp_all [Session.err, Session.call, Session.setPending]
  | reportFail =>
    obtain ⟨rc, hg1, ⟨hg2, rfl⟩ | ⟨hg2, rfl⟩⟩ := step_reportFail hs
    · clear hs
      simp_all [Session.err, Session.call, Session.setPending]
    · clear hs
      simp_all [Session.err, Session.call, Session.setPending]
  | key ch =>
    obtain ⟨hg1, hg2, rfl⟩ := step_key hs
    clear hs
    by_cases hk : ch = 'k'
    · subst hk
      rcases handleKey_k s with ⟨hkd, he⟩ | ⟨hkd, he⟩
      · rw [he]
        simp_all [Session.err, Session.call, Session.setPending]
      · rw [he]
        simp_all [Session.err, Session.call, Session.setPending]
    · obtain ⟨c, a, o, he, ha⟩ := handleKey_other s ch hk
      rw [he]
      simp_all [Session.err, Session.call, Session.setPending]
  | navigate i =>
    obtain ⟨hg1, hg2, rfl⟩ := step_navigate hs
    clear hs
    simp_all [Session.err, Session.call, Session.setPending]
  | advance g =>
    obtain ⟨p, hgp, rfl⟩ := step_advance hs
    clear hs
    cases g with
    | stdoutReader =>
      simp only [pendingOf] at hgp
      simp_all [Session.err, Session.call, Session.setPending]
    | stderrReader =>
      simp only [pendingOf] at hgp
      simp_all [Session.err, Session.call, Session.setPending]
    | primary =>
      simp only [pendingOf] at hgp
      simp_all [Session.err, Session.call, Session.setPending]

/-- After a successful set-up the process has been started, whatever follows. -/
theorem started_of_setup_ok {path : String} {args outLines errLines : List String}
    {acts : List Act} {s : Session}
    (h : (init path args outLines errLines).runActs (.setup .ok :: acts) = some s) :
    s.proc ≠ .notStarted := by
  rw [run_cons] at h
  cases hst : (init path args outLines errLines).step (.setup .ok) with
  | none => rw [hst] at h; exact absurd h (by simp)
  | some t =>
    rw [hst] at h
    obtain ⟨_, rfl⟩ := step_setup_ok hst
    exact run_induction (fun s => s.proc ≠ .notStarted)
      (fun _ _ _ hi hs => started_step hi hs) acts _ s (by simp) h

end Session

/-- C4: in every state reached after a successful set-up, `start` has returned
only if the stdout reader, the stderr reader and the exit-or-kill goroutine have
all delivered their signal (three signals, never two or fewer); the return step
of the loop is enabled exactly when all three have been delivered, and then it
makes `start` return; and for each of the six arrival orders there is a run in
which `start` returns. -/
theorem rendezvous_three_signals (path : String) (args outLines errLines : List String)
    (acts : List Act) (s : Session)
    (h : (Session.init path args outLines errLines).runActs (.setup .ok :: acts) = some s) :
    (s.startReturned = true →
      s.outPc = .done ∧ s.errPc = .done ∧ s.primary = .done ∧ s.signals = 3) ∧
    ((s.step .startReturn).isSome = true ↔
      (s.startReturned = false ∧ s.outPc = .done ∧ s.errPc = .done ∧ s.primary = .done)) ∧
    ((s.step .startReturn).map Session.startReturned ≠ some false) ∧
    (∀ order ∈ [[Signal.stdoutDone, .stderrDone, .primaryDone],
                [.stdoutDone, .primaryDone, .stderrDone],
                [.stderrDone, .stdoutDone, .primaryDone],
                [.stderrDone, .primaryDone, .stdoutDone],
                [.primaryDone, .stdoutDone, .stderrDone],
                [.primaryDone, .stderrDone, .stdoutDone]],
      (orderedRun order).map Session.startReturned = some true) := by
  have hinv := Session.inv1_run h
  have hstarted := Session.started_of_setup_ok h
  have hshape := hinv.shape
  have hdone : s.allDone = true ↔ (s.outPc = .done ∧ s.errPc = .done ∧ s.primary = .done) := by
    simp [Session.allDone]
  refine ⟨?_, ?_, ?_, by decide⟩
  · intro hret
    rcases hshape with h1 | h1 | h1 | h1
    · exact absurd h1.2.2.2.2 hstarted
    · rw [Session.startReturned, h1.1] at hret; exact absurd hret (by simp)
    · obtain ⟨h2, h3, h4⟩ := hdone.1 h1.2.1
      exact ⟨h2, h3, h4, (Session.signals_eq_three s).2 h1.2.1⟩
    · exact absurd h1.2.2.2.2.1 hstarted
  · constructor
    · intro hen
      cases hst : s.step .startReturn with
      | none => rw [hst] at hen; exact absurd hen (by simp)
      | some t =>
        obtain ⟨hw, _⟩ := Session.step_startReturn hst
        rcases hshape with h1 | h1 | h1 | h1
        · exact absurd h1.2.2.2.2 hstarted
        · rw [hw] at h1
          have h3 : s.signals = 3 := (StartPc.waiting.inj h1.1).symm
          have hd := hdone.1 ((Session.signals_eq_three s).1 h3)
          exact ⟨by simp [Session.startReturned, hw], hd⟩
        · rw [Session.startReturned, hw] at h1; exact absurd h1.1 (by simp)
        · exact absurd h1.2.2.2.2.1 hstarted
    · rintro ⟨hnot, hd⟩
      have hall := hdone.2 hd
      rcases hshape with h1 | h1 | h1 | h1
      · exact absurd h1.2.2.2.2 hstarted
      · have h3 := (Session.signals_eq_three s).2 hall
        rw [h3] at h1
        simp [Session.step, h1.1]
      · rw [h1.1] at hnot; exact absurd hnot (by simp)
      · exact absurd h1.2.2.2.2.1 hstarted
  · cases hst : s.step .startReturn with
    | none => simp
    | some t =>
      obtain ⟨_, rfl⟩ := Session.step_startReturn hst
      simp [Session.startReturned]

/-- Witness for C4: a quiet command whose signals arrive as stderr, primary,
stdout. -/
theorem rendezvous_three_signals_witness :
    (Session.init "true" ["true"] [] []).runActs (.setup .ok :: quietActs) = some quietReturned ∧
    ((quietReturned.startReturned = true →
      quietReturned.outPc = .done ∧ quietReturned.errPc = .done ∧
        quietReturned.primary = .done ∧ quietReturned.signals = 3) ∧
    ((quietReturned.step .startReturn).isSome = true ↔
      (quietReturned.startReturned = false ∧ quietReturned.outPc = .done ∧
        quietReturned.errPc = .done ∧ quietReturned.primary = .done)) ∧
    ((quietReturned.step .startReturn).map Session.startReturned ≠ some false) ∧
    (∀ order ∈ [[Signal.stdoutDone, .stderrDone, .primaryDone],
                [.stdoutDone, .primaryDone, .stderrDone],
                [.stderrDone, .stdoutDone, .primaryDone],
                [.stderrDone, .primaryDone, .stdoutDone],
                [.primaryDone, .stdoutDone, .stderrDone],
                [.primaryDone, .stderrDone, .stdoutDone]],
      (orderedRun order).map Session.startReturned = some true)) :=
  ⟨by decide, rendezvous_three_signals "true" ["true"] [] [] quietActs quietReturned (by decide)⟩

/-! ## Log lemmas -/

@[simp] theorem linesOf_nil (o : Origin) : linesOf o [] = [] := rfl

@[simp] theorem originCount_nil (o : Origin) : originCount o [] = 0 := rfl

@[simp] theorem synthetic_nil : synthetic [] = [] := rfl

theorem linesOf_snoc (o o' : Origin) (t : String) (log : List (Origin × String)) :
    linesOf o (log ++ [(o', t)]) = linesOf o log ++ (if o' = o then [t] else []) := by
  unfold linesOf
  rw [List.filter_append, List.map_append]
  by_cases h : o' = o <;> simp [List.filter, h]

theorem originCount_snoc (o o' : Origin) (t : String) (log : List (Origin × String)) :
    originCount o (log ++ [(o', t)]) = originCount o log + (if o' = o then 1 else 0) := by
  unfold originCount
  rw [List.filter_append, List.length_append]
  by_cases h : o' = o <;> simp [List.filter, h]

theorem synthetic_snoc (o' : Origin) (t : String) (log : List (Origin × String)) :
    synthetic (log ++ [(o', t)]) =
      synthetic log ++ (if o' ≠ .stdout ∧ o' ≠ .stderr then [(o', t)] else []) := by
  unfold synthetic
  rw [List.filter_append]
  by_cases h : o' ≠ .stdout ∧ o' ≠ .stderr
  · simp only [List.filter, h, ne_eq, not_false_eq_true, and_self, decide_True, if_true]
  · rw [if_neg h]
    simp only [List.filter, h, decide_False]

namespace BuildCapture

@[simp] theorem append_lines (bc : BuildCapture) (t : String) :
    (bc.append t).lines = bc.lines ++ [t] := append0_lines bc false t

@[simp] theorem append_errors (bc : BuildCapture) (t : String) :
    (bc.append t).errors = bc.errors := append0_errors bc false t

@[simp] theorem appendError_lines (bc : BuildCapture) (t : String) :
    (bc.appendError t).lines = bc.lines ++ [t] := by
  unfold appendError; simp only []; rw [append0_lines]

@[simp] theorem appendError_errors (bc : BuildCapture) (t : String) :
    (bc.appendError t).errors = bc.errors + 1 := by
  unfold appendError; simp only []; rw [append0_errors]

@[simp] theorem moveCursor_lines (bc : BuildCapture) (i : Int) :
    (bc.moveCursor i).lines = bc.lines := by
  unfold moveCursor; simp only []; split <;> rfl

@[simp] theorem moveCursor_errors (bc : BuildCapture) (i : Int) :
    (bc.moveCursor i).errors = bc.errors := by
  unfold moveCursor; simp only []; split <;> rfl

end BuildCapture

/-! ## The kill request -/

namespace Session

theorem inv2_init (path : String) (args outLines errLines : List String) :
    (init path args outLines errLines).Inv2 := by
  constructor <;> simp [init]

set_option maxHeartbeats 4000000 in
theorem inv2_step {s s' : Session} {a : Act} (h1 : s.Inv1) (h : s.Inv2)
    (hs : s.step a = some s') : s'.Inv2 := by
  obtain ⟨k1, k2, k3, k4, k5, k6, k7, k8, k9⟩ := h
  have hfresh : s.startPc = .notStarted → s.primary = .idle := fun hn => by
    rcases h1.shape with h | h | h | h
    · exact h.2.2.2.1
    · rw [hn] at h; exact absurd h.1 (by simp)
    · rw [startReturned, hn] at h; exact absurd h.1 (by simp)
    · rw [startReturned, hn] at h; exact absurd h.1 (by simp)
  clear h1
  cases a with
  | setup r =>
    by_cases hr : r = .ok
    · subst hr
      obtain ⟨hg, rfl⟩ := step_setup_ok hs
      clear hs
      constructor <;> simp_all [Session.err, Session.call, Session.setPending, originCount_snoc]
    · obtain ⟨hg, msg, rfl⟩ := step_setup_fail hr hs
      clear hs
      constructor <;> simp_all [Session.err, Session.call, Session.setPending, originCount_snoc]
  | scanOut =>
    obtain ⟨l, rest, hg1, hg2, hgp, rfl⟩ := step_scanOut hs
    clear hs
    constructor <;> simp_all [Session.err, Session.call, Session.setPending, originCount_snoc]
  | eofOut =>
    obtain ⟨hg1, hgp, hg2, rfl⟩ := step_eofOut hs
    clear hs
    constructor <;> simp_all [Session.err, Session.call, Session.setPending, originCount_snoc]
  | sendOut =>
    obtain ⟨i, hg1, hg2, hg3, rfl⟩ := step_sendOut hs
    clear hs
    constructor <;> simp_all [Session.err, Session.call, Session.setPending, originCount_snoc]
  | scanErr =>
    obtain ⟨l, rest, hg1, hg2, hgp, rfl⟩ := step_scanErr hs
    clear hs
    constructor <;> simp_all [Session.err, Session.call, Session.setPending, originCount_snoc]
  | eofErr =>
    obtain ⟨hg1, hgp, hg2, rfl⟩ := step_eofErr hs
    clear hs
    constructor <;> simp_all [Session.err, Session.call, Session.setPending, originCount_snoc]
  | sendErr =>
    obtain ⟨i, hg1, hg2, hg3, rfl⟩ := step_sendErr hs
    clear hs
    constructor <;> simp_all [Session.err, Session.call, Session.setPending, originCount_snoc]
  | exit c =>
    obtain ⟨hg1, rfl⟩ := step_exit hs
    clear hs
    constructor <;> simp_all [Session.err, Session.call, Session.setPending, originCount_snoc]
  | waitReturns =>
    obtain ⟨hg1, hg2, ⟨hg3, rfl⟩ | ⟨hg3, rfl⟩⟩ := step_waitReturns hs
    · clear hs
      constructor <;> simp_all [Session.err, Session.call, Session.setPending, originCount_snoc]
    · clear hs
      constructor <;> simp_all [Session.err, Session.call, Session.setPending, originCount_snoc]
  | recvKill =>
    obtain ⟨hg1, hg2, rfl⟩ := step_recvKill hs
    clear hs
    constructor <;> simp_all [Session.err, Session.call, Session.setPending, originCount_snoc]
  | kill e =>
    obtain ⟨hg1, hgp, ⟨msg, rfl, rfl⟩ | ⟨rfl, rfl⟩⟩ := step_kill hs
    · clear hs
      constructor <;> simp_all [Session.err, Session.call, Session.setPending, originCount_snoc]
    · clear hs
      constructor <;> simp_all [Session.err, Session.call, Session.setPending, originCount_snoc]
  | sendPrimary =>
    obtain ⟨i, hg1, hgp, hg2, hg3, rfl⟩ := step_sendPrimary hs
    clear hs
    constructor <;> simp_all [Session.err, Session.call, Session.setPending, originCount_snoc]
  | startReturn =>
    obtain ⟨hg1, rfl⟩ := step_startReturn hs
    clear hs
    constructor <;> simp_all [Session.err, Session.call, Session.setPending, originCount_snoc]
  | markFinished =>
    obtain ⟨rc, hg1, rfl⟩ := step_markFinished hs
    clear hs
    constructor <;> simp_all [Session.err, Session.call, Session.setPending, originCount_snoc]
  | reportFail =>
    obtain ⟨rc, hg1, ⟨hg2, rfl⟩ | ⟨hg2, rfl⟩⟩ := step_reportFail hs
    · clear hs
      constructor <;> simp_all [Session.err, Session.call, Session.setPending, originCount_snoc]
    · clear hs
      constructor <;> simp_all [Session.err, Session.call, Session.setPending, originCount_snoc]
  | key ch =>
    obtain ⟨hg1, hg2, rfl⟩ := step_key hs
    clear hs
    by_cases hk : ch = 'k'
    · subst hk
      rcases handleKey_k s with ⟨hkd, he⟩ | ⟨hkd, he⟩
      · rw [he]
        constructor <;> simp_all [Session.err, Session.call, Session.setPending, originCount_snoc]
        omega
      · rw [he]
        constructor <;> simp_all [Session.err, Session.call, Session.setPending, originCount_snoc]
    · obtain ⟨c, a, o, he, ha⟩ := handleKey_other s ch hk
      rw [he]
      constructor <;> simp_all [Session.err, Session.call, Session.setPending, originCount_snoc]
  | navigate i =>
    obtain ⟨hg1, hg2, rfl⟩ := step_navigate hs
    clear hs
    constructor <;> simp_all [Session.err, Session.call, Session.setPending, originCount_snoc]
  | advance g =>
    obtain ⟨p, hgp, rfl⟩ := step_advance hs
    clear hs
    cases g with
    | stdoutReader =>
      simp only [pendingOf] at hgp
      constructor <;> simp_all [Session.err, Session.call, Session.setPending, originCount_snoc]
    | stderrReader =>
      simp only [pendingOf] at hgp
      constructor <;> simp_all [Session.err, Session.call, Session.setPending, originCount_snoc]
    | primary =>
      simp only [pendingOf] at hgp
      constructor <;> simp_all [Session.err, Session.call, Session.setPending, originCount_snoc]

theorem inv3_init (path : String) (args outLines errLines : List String) :
    (init path args outLines errLines).Inv3 outLines errLines := by
  constructor <;> simp [init]

set_option maxHeartbeats 4000000 in
theorem inv3_step {outLines errLines : List String} {s s' : Session} {a : Act}
    (h : s.Inv3 outLines errLines) (hs : s.step a = some s') : s'.Inv3 outLines errLines := by
  obtain ⟨k3, k4⟩ := h
  cases a with
  | setup r =>
    by_cases hr : r = .ok
    · subst hr
      obtain ⟨hg, rfl⟩ := step_setup_ok hs
      clear hs
      constructor <;> simp_all [Session.err, Session.call, Session.setPending, linesOf_snoc]
    · obtain ⟨hg, msg, rfl⟩ := step_setup_fail hr hs
      clear hs
      constructor <;> simp_all [Session.err, Session.call, Session.setPending, linesOf_snoc]
  | scanOut =>
    obtain ⟨l, rest, hg1, hg2, hgp, rfl⟩ := step_scanOut hs
    clear hs
    constructor <;> simp_all [Session.err, Session.call, Session.setPending, linesOf_snoc]
  | eofOut =>
    obtain ⟨hg1, hgp, hg2, rfl⟩ := step_eofOut hs
    clear hs
    constructor <;> simp_all [Session.err, Session.call, Session.setPending, linesOf_snoc]
  | sendOut =>
    obtain ⟨i, hg1, hg2, hg3, rfl⟩ := step_sendOut hs
    clear hs
    constructor <;> simp_all [Session.err, Session.call, Session.setPending, linesOf_snoc]
  | scanErr =>
    obtain ⟨l, rest, hg1, hg2, hgp, rfl⟩ := step_scanErr hs
    clear hs
    constructor <;> simp_all [Session.err, Session.call, Session.setPending, linesOf_snoc]
  | eofErr =>
    obtain ⟨hg1, hgp, hg2, rfl⟩ := step_eofErr hs
    clear hs
    constructor <;> simp_all [Session.err, Session.call, Session.setPending, linesOf_snoc]
  | sendErr =>
    obtain ⟨i, hg1, hg2, hg3, rfl⟩ := step_sendErr hs
    clear hs
    constructor <;> simp_all [Session.err, Session.call, Session.setPending, linesOf_snoc]
  | exit c =>
    obtain ⟨hg1, rfl⟩ := step_exit hs
    clear hs
    constructor <;> simp_all [Session.err, Session.call, Session.setPending, linesOf_snoc]
  | waitReturns =>
    obtain ⟨hg1, hg2, ⟨hg3, rfl⟩ | ⟨hg3, rfl⟩⟩ := step_waitReturns hs
    · clear hs
      constructor <;> simp_all [Session.err, Session.call, Session.setPending, linesOf_snoc]
    · clear hs
      constructor <;> simp_all [Session.err, Session.call, Session.setPending, linesOf_snoc]
  | recvKill =>
    obtain ⟨hg1, hg2, rfl⟩ := step_recvKill hs
    clear hs
    constructor <;> simp_all [Session.err, Session.call, Session.setPending, linesOf_snoc]
  | kill e =>
    obtain ⟨hg1, hgp, ⟨msg, rfl, rfl⟩ | ⟨rfl, rfl⟩⟩ := step_kill hs
    · clear hs
      constructor <;> simp_all [Session.err, Session.call, Session.setPending, linesOf_snoc]
    · clear hs
      constructor <;> simp_all [Session.err, Session.call, Session.setPending, linesOf_snoc]
  | sendPrimary =>
    obtain ⟨i, hg1, hgp, hg2, hg3, rfl⟩ := step_sendPrimary hs
    clear hs
    constructor <;> simp_all [Session.err, Session.call, Session.setPending, linesOf_snoc]
  | startReturn =>
    obtain ⟨hg1, rfl⟩ := step_startReturn hs
    clear hs
    constructor <;> simp_all [Session.err, Session.call, Session.setPending, linesOf_snoc]
  | markFinished =>
    obtain ⟨rc, hg1, rfl⟩ := step_markFinished hs
    clear hs
    constructor <;> simp_all [Session.err, Session.call, Session.setPending, linesOf_snoc]
  | reportFail =>
    obtain ⟨rc, hg1, ⟨hg2, rfl⟩ | ⟨hg2, rfl⟩⟩ := step_reportFail hs
    · clear hs
      constructor <;> simp_all [Session.err, Session.call, Session.setPending, linesOf_snoc]
    · clear hs
      constructor <;> simp_all [Session.err, Session.call, Session.setPending, linesOf_snoc]
  | key ch =>
    obtain ⟨hg1, hg2, rfl⟩ := step_key hs
    clear hs
    by_cases hk : ch = 'k'
    · subst hk
      rcases handleKey_k s with ⟨hkd, he⟩ | ⟨hkd, he⟩
      · rw [he]
        constructor <;> simp_all [Session.err, Session.call, Session.setPending, linesOf_snoc]
      · rw [he]
        constructor <;> simp_all [Session.err, Session.call, Session.setPending, linesOf_snoc]
    · obtain ⟨c, a, o, he, ha⟩ := handleKey_other s ch hk
      rw [he]
      constructor <;> simp_all [Session.err, Session.call, Session.setPending, linesOf_snoc]
  | navigate i =>
    obtain ⟨hg1, hg2, rfl⟩ := step_navigate hs
    clear hs
    constructor <;> simp_all [Session.err, Session.call, Session.setPending, linesOf_snoc]
  | advance g =>
    obtain ⟨p, hgp, rfl⟩ := step_advance hs
    clear hs
    cases g with
    | stdoutReader =>
      simp only [pendingOf] at hgp
      constructor <;> simp_all [Session.err, Session.call, Session.setPending, linesOf_snoc]
    | stderrReader =>
      simp only [pendingOf] at hgp
      constructor <;> simp_all [Session.err, Session.call, Session.setPending, linesOf_snoc]
    | primary =>
      simp only [pendingOf] at hgp
      constructor <;> simp_all [Session.err, Session.call, Session.setPending, linesOf_snoc]

end Session

/-! ## The synthetic lines -/

namespace Session

theorem inv5_init (path : String) (args outLines errLines : List String) :
    (init path args outLines errLines).Inv5 := by
  constructor <;> simp [init, failPart, endPart, rc?]

theorem failPart_of_not_returned {s : Session} (h : s.startReturned = false) :
    s.failPart = [] := by
  unfold failPart
  unfold startReturned at h
  split <;> simp_all

theorem startReturned_of_rc {s : Session} {rc : Int} (h : s.rc? = some rc) :
    s.startReturned = true := by
  unfold rc? at h
  unfold startReturned
  split at h <;> simp_all

/-- The fail part depends only on `startPc` and the command. -/
theorem failPart_nil_of_startPc {s t : Session} (h : s.failPart = [])
    (h1 : t.startPc = s.startPc) : t.failPart = [] := by
  unfold failPart at h ⊢
  rw [h1]
  split at h <;> simp_all

set_option maxHeartbeats 4000000 in
theorem inv5_step {s s' : Session} {a : Act} (h1 : s.Inv1) (h2 : s.Inv2) (h : s.Inv5)
    (hs : s.step a = some s') : s'.Inv5 := by
  obtain ⟨k1, k2, k3, k4, k5, k6, k7⟩ := h
  have hfpE : ∀ {t : Session}, t.startReturned = false → t.failPart = [] :=
    fun h => failPart_of_not_returned h
  have hF1 : s.startPc = .notStarted →
      s.primary = .idle ∧ s.proc = .notStarted ∧ s.outPc = .idle ∧ s.errPc = .idle := by
    intro hn
    rcases h1.shape with h | h | h | h
    · exact ⟨h.2.2.2.1, h.2.2.2.2, h.2.1, h.2.2.1⟩
    · rw [hn] at h; exact absurd h.1 (by simp)
    · rw [startReturned, hn] at h; exact absurd h.1 (by simp)
    · rw [startReturned, hn] at h; exact absurd h.1 (by simp)
  have hF2 : s.startReturned = true →
      (s.primary = .done ∧ s.outPc = .done ∧ s.errPc = .done ∧ s.proc ≠ .notStarted) ∨
      (s.primary = .idle ∧ s.outPc = .idle ∧ s.errPc = .idle ∧ s.proc = .notStarted) := by
    intro hr
    rcases h1.shape with h | h | h | h
    · rw [startReturned, h.1] at hr; exact absurd hr (by simp)
    · rw [startReturned, h.1] at hr; exact absurd hr (by simp)
    · left
      have := h.2.1
      simp only [allDone, decide_eq_true_eq] at this
      exact ⟨this.2.2, this.1, this.2.1, h.2.2⟩
    · right; exact ⟨h.2.2.2.1, h.2.1, h.2.2.1, h.2.2.2.2.1⟩
  have hF3 : s.proc = .notStarted →
      s.primary = .idle ∧ s.outPc = .idle ∧ s.errPc = .idle := by
    intro hn
    rcases h1.shape with h | h | h | h
    · exact ⟨h.2.2.2.1, h.2.1, h.2.2.1⟩
    · exact absurd hn h.2.2.2.2
    · exact absurd hn h.2.2
    · exact ⟨h.2.2.2.1, h.2.1, h.2.2.1⟩
  cases a with
  | setup r =>
    by_cases hr : r = .ok
    · subst hr
      obtain ⟨hg, rfl⟩ := step_setup_ok hs
      clear hs
      have hl := k1 hg
      obtain ⟨hp, _, _, _⟩ := hF1 hg
      refine ⟨by simp, by simp, ?_, ?_, ⟨s.log, by simp [failPart]⟩, ?_, by simp [rc?]⟩
      · intro _ _
        simp [hl, endPart, failPart]
      · intro hk
        have := (h2.early (Or.inl hp)).1
        simp only [] at hk
        omega
      · intro _ hq
        simp at hq
    · obtain ⟨hg, msg, rfl⟩ := step_setup_fail hr hs
      clear hs
      have hl := k1 hg
      obtain ⟨hp, hpr, _, _⟩ := hF1 hg
      refine ⟨by simp, ?_, ?_, ?_, ⟨s.log ++ [(.setupError, msg)], by simp [failPart, Session.err]⟩,
        ?_, ?_⟩
      · intro _ _
        exact ⟨msg, by simp [Session.err, hl, failPart]⟩
      · intro hq
        exact absurd hpr hq
      · intro hk
        have := (h2.early (Or.inl hp)).1
        simp only [Session.err] at hk
        omega
      · intro _ hq
        simp [Session.err, hp] at hq
      · intro rc _ hq
        exact absurd hpr hq
  | scanOut =>
    obtain ⟨l, rest, hg1, hg2, hgp, rfl⟩ := step_scanOut hs
    clear hs
    have hns : s.startReturned = false := by
      cases hr : s.startReturned
      · rfl
      · rcases hF2 hr with h | h <;> simp [hg1] at h
    have hfp := hfpE hns
    have hfp' : (Session.failPart (Session.call { s with outRest := rest } .stdoutReader .stdout false l)) = [] := hfp
    refine ⟨?_, ?_, ?_, ?_, ⟨s.log ++ [(.stdout, l)], by rw [hfp']; simp [Session.call, Session.setPending]⟩, k6, k7⟩
    · intro hn
      have := hF1 hn
      simp [hg1] at this
    · intro hn
      have := hF3 hn
      simp [hg1] at this
    · intro hq hk
      have := k3 hq hk
      simp only [Session.call, Session.setPending, synthetic_snoc]
      simpa using this
    · intro hk
      obtain ⟨K, hK1, hK2, hK3⟩ := k4 hk
      refine ⟨K, ?_, hK2, hK3⟩
      simp only [Session.call, Session.setPending, synthetic_snoc]
      simpa using hK1
  | eofOut =>
    obtain ⟨hg1, hgp, hg2, rfl⟩ := step_eofOut hs
    clear hs
    exact ⟨k1, k2, k3, k4, k5, k6, k7⟩
  | sendOut =>
    obtain ⟨i, hg1, hg2, hg3, rfl⟩ := step_sendOut hs
    clear hs
    have hw : s.startReturned = false := by simp [startReturned, hg2]
    have hfp := hfpE hw
    refine ⟨by simp, ?_, ?_, ?_, ⟨s.log, by simp [failPart]⟩, ?_, by simp [rc?]⟩
    · intro hn _
      have := hF3 hn
      simp [hg1] at this
    · intro hq hk
      have := k3 hq hk
      simpa [failPart, endPart, hg1, hg2] using this
    · intro hk
      obtain ⟨K, hK1, hK2, hK3⟩ := k4 hk
      exact ⟨K, by simpa [failPart, hg2] using hK1, hK2, hK3⟩
    · exact k6
  | scanErr =>
    obtain ⟨l, rest, hg1, hg2, hgp, rfl⟩ := step_scanErr hs
    clear hs
    have hns : s.startReturned = false := by
      cases hr : s.startReturned
      · rfl
      · rcases hF2 hr with h | h <;> simp [hg1] at h
    have hfp := hfpE hns
    have hfp' : (Session.failPart (Session.call { s with errRest := rest } .stderrReader .stderr true l)) = [] := hfp
    refine ⟨?_, ?_, ?_, ?_, ⟨s.log ++ [(.stderr, l)], by rw [hfp']; simp [Session.call, Session.setPending]⟩, k6, k7⟩
    · intro hn
      have := hF1 hn
      simp [hg1] at this
    · intro hn
      have := hF3 hn
      simp [hg1] at this
    · intro hq hk
      have := k3 hq hk
      simp only [Session.call, Session.setPending, synthetic_snoc]
      simpa using this
    · intro hk
      obtain ⟨K, hK1, hK2, hK3⟩ := k4 hk
      refine ⟨K, ?_, hK2, hK3⟩
      simp only [Session.call, Session.setPending, synthetic_snoc]
      simpa using hK1
  | eofErr =>
    obtain ⟨hg1, hgp, hg2, rfl⟩ := step_eofErr hs
    clear hs
    exact ⟨k1, k2, k3, k4, k5, k6, k7⟩
  | sendErr =>
    obtain ⟨i, hg1, hg2, hg3, rfl⟩ := step_sendErr hs
    clear hs
    have hw : s.startReturned = false := by simp [startReturned, hg2]
    have hfp := hfpE hw
    refine ⟨by simp, ?_, ?_, ?_, ⟨s.log, by simp [failPart]⟩, ?_, by simp [rc?]⟩
    · intro hn _
      have := hF3 hn
      simp [hg1] at this
    · intro hq hk
      have := k3 hq hk
      simpa [failPart, endPart, hg1, hg2] using this
    · intro hk
      obtain ⟨K, hK1, hK2, hK3⟩ := k4 hk
      exact ⟨K, by simpa [failPart, hg2] using hK1, hK2, hK3⟩
    · exact k6
  | exit c =>
    obtain ⟨hg1, rfl⟩ := step_exit hs
    clear hs
    refine ⟨k1, ?_, ?_, k4, k5, ?_, ?_⟩
    · intro hn
      simp at hn
    · intro _ hk
      have := k3 (by simp [hg1]) hk
      by_cases hp : s.primary = .sending ∨ s.primary = .done
      · exact absurd hg1 (k6 hk hp)
      · simp only [endPart, hp, false_and, if_false] at this ⊢
        exact this
    · intro hk hp
      exact absurd hg1 (k6 hk hp)
    · intro rc hrc _ hq
      have hk : s.killSends = 0 := by simpa using hq
      rcases hF2 (startReturned_of_rc hrc) with h | h
      · exact absurd hg1 (k6 hk (Or.inr h.1))
      · rw [hg1] at h; exact absurd h.2.2.2 (by simp)
  | waitReturns =>
    obtain ⟨hg1, hg2, ⟨hg3, rfl⟩ | ⟨hg3, rfl⟩⟩ := step_waitReturns hs
    · clear hs
      have hns : s.startReturned = false := by
        cases hr : s.startReturned
        · rfl
        · rcases hF2 hr with h | h <;> simp [hg1] at h
      have hfp := hfpE hns
      have hfpU : ∀ (t : Session), t.startPc = s.startPc → t.failPart = [] :=
        fun t ht => failPart_nil_of_startPc (s := s) hfp ht
      have hrc : ∀ rc, s.rc? ≠ some rc := by
        intro rc hrc
        have := startReturned_of_rc hrc
        rw [hns] at this
        exact absurd this (by simp)
      have hk0 := (h2.early (Or.inr hg1)).1
      have hst : s.proc ≠ .notStarted := fun hn => by
        have := hF3 hn
        simp [hg1] at this
      refine ⟨?_, ?_, ?_, ?_, ⟨s.log ++ [(.cmdFailed, "Command failed: rc = " ++ fmtInt s.proc.ExitCode)],
        by simp [Session.call, Session.setPending, hfpU]⟩, ?_, ?_⟩
      · intro hn
        have := hF1 hn
        simp [hg1] at this
      · intro hn
        exact absurd hn hst
      · intro _ hk
        have := k3 hst hk0
        simp only [endPart, hg1, hfp] at this
        simp only [Session.call, Session.setPending, synthetic_snoc]
        simp [endPart, hg3, hfpU]
        simpa using this
      · intro hk
        simp only [Session.call, Session.setPending] at hk
        omega
      · intro _ _
        exact hg2
      · intro rc hq
        exact absurd hq (hrc rc)
    · clear hs
      have hns : s.startReturned = false := by
        cases hr : s.startReturned
        · rfl
        · rcases hF2 hr with h | h <;> simp [hg1] at h
      have hfp := hfpE hns
      have hfpU : ∀ (t : Session), t.startPc = s.startPc → t.failPart = [] :=
        fun t ht => failPart_nil_of_startPc (s := s) hfp ht
      have hrc : ∀ rc, s.rc? ≠ some rc := by
        intro rc hrc
        have := startReturned_of_rc hrc
        rw [hns] at this
        exact absurd this (by simp)
      have hk0 := (h2.early (Or.inr hg1)).1
      have hst : s.proc ≠ .notStarted := fun hn => by
        have := hF3 hn
        simp [hg1] at this
      refine ⟨k1, ?_, ?_, ?_, k5, ?_, k7⟩
      · intro hn
        exact absurd hn hst
      · intro _ hk
        have := k3 hst hk0
        simp only [endPart, hg1, hfp] at this
        simp [endPart, hg3, hfpU]
        simpa using this
      · intro hk
        simp only [] at hk
        omega
      · intro _ _
        exact hg2
  | recvKill =>
    obtain ⟨hg1, hg2, rfl⟩ := step_recvKill hs
    clear hs
    have hns : s.startReturned = false := by
      cases hr : s.startReturned
      · rfl
      · rcases hF2 hr with h | h <;> simp [hg1] at h
    have hfp := hfpE hns
    have hfpU : ∀ (t : Session), t.startPc = s.startPc → t.failPart = [] :=
      fun t ht => failPart_nil_of_startPc (s := s) hfp ht
    have hrc : ∀ rc, s.rc? ≠ some rc := by
      intro rc hrc
      have := startReturned_of_rc hrc
      rw [hns] at this
      exact absurd this (by simp)
    have hk0 := (h2.early (Or.inr hg1)).1
    have hst : s.proc ≠ .notStarted := fun hn => by
      have := hF3 hn
      simp [hg1] at this
    refine ⟨?_, ?_, ?_, ?_, ⟨s.log ++ [(.killNotice, "Process was killed by user")],
      by simp [Session.call, Session.setPending, hfpU]⟩, ?_, ?_⟩
    · intro hn
      have := hF1 hn
      simp [hg1] at this
    · intro hn
      exact absurd hn hst
    · intro _ hk
      simp only [Session.call, Session.setPending] at hk
      omega
    · intro _
      have := k3 hst hk0
      simp only [endPart, hg1, hfp] at this
      refine ⟨[], ?_, by simp, by simp⟩
      simp only [Session.call, Session.setPending, synthetic_snoc]
      simp [hfpU]
      simpa using this
    · intro hk
      simp only [Session.call, Session.setPending] at hk
      omega
    · intro rc hq
      exact absurd hq (hrc rc)
  | kill e =>
    obtain ⟨hg1, hgp, ⟨msg, rfl, rfl⟩ | ⟨rfl, rfl⟩⟩ := step_kill hs
    · clear hs
      have hns : s.startReturned = false := by
        cases hr : s.startReturned
        · rfl
        · rcases hF2 hr with h | h <;> simp [hg1] at h
      have hfp := hfpE hns
      have hfpU : ∀ (t : Session), t.startPc = s.startPc → t.failPart = [] :=
        fun t ht => failPart_nil_of_startPc (s := s) hfp ht
      have hrc : ∀ rc, s.rc? ≠ some rc := by
        intro rc hrc
        have := startReturned_of_rc hrc
        rw [hns] at this
        exact absurd this (by simp)
      have hk1 := (h2.killing hg1).1
      obtain ⟨K, hK1, hK2, hK3⟩ := k4 hk1
      refine ⟨?_, ?_, ?_, ?_, ⟨s.log ++ [(.killError, "Error killing process: " ++ msg)],
        by simp [Session.call, Session.setPending, hfpU]⟩, ?_, ?_⟩
      · intro hn
        have := hF1 hn
        simp [hg1] at this
      · intro hn
        have := hF3 hn
        simp [hg1] at this
      · intro _ hk
        simp only [Session.call, Session.setPending] at hk
        omega
      · intro _
        refine ⟨K ++ [(.killError, "Error killing process: " ++ msg)], ?_, ?_, ?_⟩
        · simp only [Session.call, Session.setPending, synthetic_snoc]
          rw [hK1, hfp]
          simp [hfpU]
        · intro e he
          rcases List.mem_append.1 he with he | he
          · exact hK2 e he
          · simp at he; rw [he]
        · simp [Session.call, Session.setPending]; omega
      · intro hk
        simp only [Session.call, Session.setPending] at hk
        omega
      · intro rc hq
        exact absurd hq (hrc rc)
    · clear hs
      have hns : s.startReturned = false := by
        cases hr : s.startReturned
        · rfl
        · rcases hF2 hr with h | h <;> simp [hg1] at h
      have hfp := hfpE hns
      have hfpU : ∀ (t : Session), t.startPc = s.startPc → t.failPart = [] :=
        fun t ht => failPart_nil_of_startPc (s := s) hfp ht
      have hrc : ∀ rc, s.rc? ≠ some rc := by
        intro rc hrc
        have := startReturned_of_rc hrc
        rw [hns] at this
        exact absurd this (by simp)
      have hk1 := (h2.killing hg1).1
      obtain ⟨K, hK1, hK2, hK3⟩ := k4 hk1
      refine ⟨k1, ?_, ?_, ?_, k5, ?_, ?_⟩
      · intro hn
        have hn' : s.proc = .notStarted := by
          simp only [] at hn
          split at hn
          · exact absurd hn (by simp)
          · exact hn
        have := hF3 hn'
        simp [hg1] at this
      · intro _ hk
        simp only [] at hk
        omega
      · intro _
        exact ⟨K, hK1, hK2, Nat.le_succ_of_le hK3⟩
      · intro hk
        simp only [] at hk
        omega
      · intro rc hq
        exact absurd hq (hrc rc)
  | sendPrimary =>
    obtain ⟨i, hg1, hgp, hg2, hg3, rfl⟩ := step_sendPrimary hs
    clear hs
    have hw : s.startReturned = false := by simp [startReturned, hg2]
    have hfp := hfpE hw
    refine ⟨by simp, ?_, ?_, ?_, ⟨s.log, by simp [failPart]⟩, ?_, by simp [rc?]⟩
    · intro hn _
      have := hF3 hn
      simp [hg1] at this
    · intro hq hk
      have := k3 hq hk
      simpa [failPart, endPart, hg1, hg2] using this
    · intro hk
      obtain ⟨K, hK1, hK2, hK3⟩ := k4 hk
      exact ⟨K, by simpa [failPart, hg2] using hK1, hK2, hK3⟩
    · intro hk _
      exact k6 hk (Or.inl hg1)
  | startReturn =>
    obtain ⟨hg1, rfl⟩ := step_startReturn hs
    clear hs
    have hw : s.startReturned = false := by simp [startReturned, hg1]
    have hfp := hfpE hw
    have hst : s.proc ≠ .notStarted := by
      rcases h1.shape with h | h | h | h
      · rw [hg1] at h; exact absurd h.1 (by simp)
      · exact h.2.2.2.2
      · exact h.2.2
      · rw [hw] at h; exact absurd h.1 (by simp)
    refine ⟨by simp, ?_, ?_, ?_, ⟨s.log, by simp [failPart]⟩, k6, ?_⟩
    · intro hn
      exact absurd hn hst
    · intro hq hk
      have := k3 hq hk
      simpa [failPart, endPart, hg1] using this
    · intro hk
      obtain ⟨K, hK1, hK2, hK3⟩ := k4 hk
      exact ⟨K, by simpa [failPart, hg1] using hK1, hK2, hK3⟩
    · intro rc hrc _ _
      simp only [rc?, Option.some.injEq] at hrc
      exact hrc.symm
  | markFinished =>
    obtain ⟨rc, hg1, rfl⟩ := step_markFinished hs
    clear hs
    have hw : s.failPart = [] := by simp [failPart, hg1]
    refine ⟨by simp, ?_, ?_, ?_, ⟨s.log, by simp [failPart]⟩, k6, ?_⟩
    · intro hn _
      obtain ⟨msg, hm⟩ := k2 hn (by simp [hg1])
      exact ⟨msg, by simpa [failPart, hg1] using hm⟩
    · intro hq hk
      have := k3 hq hk
      simpa [failPart, endPart, hg1] using this
    · intro hk
      obtain ⟨K, hK1, hK2, hK3⟩ := k4 hk
      exact ⟨K, by simpa [failPart, hg1] using hK1, hK2, hK3⟩
    · intro rc' hrc hq hk
      exact k7 rc' (by simpa [rc?, hg1] using hrc) hq hk
  | reportFail =>
    obtain ⟨rc, hg1, ⟨hg2, rfl⟩ | ⟨hg2, rfl⟩⟩ := step_reportFail hs
    · clear hs
      have hw : s.failPart = [] := by simp [failPart, hg1]
      have hf' : (Session.err { s with startPc := .completed rc } .failSummary s.failText).failPart
          = [(.failSummary, s.failText)] := by
        simp [failPart, Session.err, hg2, failText]
      refine ⟨by simp [Session.err], ?_, ?_, ?_, ⟨s.log, by rw [hf']; simp [Session.err]⟩, k6, ?_⟩
      · intro hn _
        obtain ⟨msg, hm⟩ := k2 hn (by simp [hg1])
        refine ⟨msg, ?_⟩
        rw [hf']
        simp [Session.err, hm, hw]
      · intro hq hk
        have := k3 hq hk
        rw [hf']
        simp only [Session.err, synthetic_snoc]
        rw [this, hw]
        simp [endPart]
      · intro hk
        obtain ⟨K, hK1, hK2, hK3⟩ := k4 hk
        refine ⟨K, ?_, hK2, hK3⟩
        rw [hf']
        simp only [Session.err, synthetic_snoc]
        rw [hK1, hw]
        simp
      · intro rc' hrc hq hk
        exact k7 rc' (by simpa [rc?, hg1, Session.err] using hrc) hq hk
    · clear hs
      have hw : s.failPart = [] := by simp [failPart, hg1]
      refine ⟨by simp, ?_, ?_, ?_, ⟨s.log, by simp [failPart, hg2]⟩, k6, ?_⟩
      · intro hn _
        obtain ⟨msg, hm⟩ := k2 hn (by simp [hg1])
        exact ⟨msg, by simpa [failPart, hg1, hg2] using hm⟩
      · intro hq hk
        have := k3 hq hk
        simpa [failPart, endPart, hg1, hg2] using this
      · intro hk
        obtain ⟨K, hK1, hK2, hK3⟩ := k4 hk
        exact ⟨K, by simpa [failPart, hg1, hg2] using hK1, hK2, hK3⟩
      · intro rc' hrc hq hk
        exact k7 rc' (by simpa [rc?, hg1] using hrc) hq hk
  | key ch =>
    obtain ⟨hg1, hg2, rfl⟩ := step_key hs
    clear hs
    by_cases hk : ch = 'k'
    · subst hk
      rcases handleKey_k s with ⟨hkd, he⟩ | ⟨hkd, he⟩
      · rw [he]
        exact ⟨k1, k2, k3, k4, k5, k6, k7⟩
      · rw [he]
        exact ⟨k1, k2, k3, k4, k5, k6, k7⟩
    · obtain ⟨c, a, o, he, ha⟩ := handleKey_other s ch hk
      rw [he]
      exact ⟨k1, k2, k3, k4, k5, k6, k7⟩
  | navigate i =>
    obtain ⟨hg1, hg2, rfl⟩ := step_navigate hs
    clear hs
    exact ⟨k1, k2, k3, k4, k5, k6, k7⟩
  | advance g =>
    obtain ⟨p, hgp, rfl⟩ := step_advance hs
    clear hs
    cases g with
    | stdoutReader =>
      simp only [pendingOf] at hgp
      exact ⟨k1, k2, k3, k4, k5, k6, k7⟩
    | stderrReader =>
      simp only [pendingOf] at hgp
      exact ⟨k1, k2, k3, k4, k5, k6, k7⟩
    | primary =>
      simp only [pendingOf] at hgp
      exact ⟨k1, k2, k3, k4, k5, k6, k7⟩

end Session

/-! ## The transcript -/

theorem errorCalls_snoc (o : Origin) (t : String) (log : List (Origin × String)) :
    errorCalls (log ++ [(o, t)]) = errorCalls log + (if o = .stdout then 0 else 1) := by
  unfold errorCalls
  rw [List.filter_append, List.length_append]
  by_cases h : o = .stdout <;> simp [List.filter, h]

@[simp] theorem linesDebt_none : linesDebt none = [] := rfl

@[simp] theorem errorsDebt_none : errorsDebt none = 0 := rfl

@[simp] theorem validPending_none (bc : BuildCapture) : validPending bc none = True := rfl

theorem busy_false {x : Bool} {a b : Option Pending}
    (h : (x || (a.isSome || b.isSome)) = false) : x = false ∧ a = none ∧ b = none := by
  cases a <;> cases b <;> simp_all

theorem validPending_congr {bc bc' : BuildCapture} {p : Option Pending}
    (h1 : bc'.lines = bc.lines) (h2 : bc'.errors = bc.errors) :
    validPending bc' p ↔ validPending bc p := by
  cases p with
  | none => simp [validPending]
  | some p => simp [validPending, h1, h2]

/-- One statement of a call whose registers are current: what `bc.lines` and
`bc.errors` hold together with what the call has yet to store does not change. -/
theorem advance_debt (bc : BuildCapture) (p : Pending) (hv : validPending bc (some p)) :
    (bc.advance p).1.lines ++ linesDebt (bc.advance p).2 = bc.lines ++ linesDebt (some p) ∧
    (bc.advance p).1.errors + errorsDebt (bc.advance p).2
      = bc.errors + errorsDebt (some p) ∧
    validPending (bc.advance p).1 (bc.advance p).2 := by
  obtain ⟨o, e, l, pc, rE, rL, ae⟩ := p
  obtain ⟨v1, v2, v3⟩ := hv
  simp only at v1 v2 v3
  cases pc
  case loadErrors =>
    cases e <;> simp_all [BuildCapture.advance, linesDebt, errorsDebt, validPending,
      AppendPc.linesDue, AppendPc.errorsDue]
  case storeErrors =>
    cases e <;> simp_all [BuildCapture.advance, linesDebt, errorsDebt, validPending,
      AppendPc.linesDue, AppendPc.errorsDue]
  case showErrors =>
    cases e <;> simp_all [BuildCapture.advance, linesDebt, errorsDebt, validPending,
      AppendPc.linesDue, AppendPc.errorsDue]
  case readBottom =>
    cases e <;> simp_all [BuildCapture.advance, linesDebt, errorsDebt, validPending,
      AppendPc.linesDue, AppendPc.errorsDue]
  case loadLines =>
    cases e <;> simp_all [BuildCapture.advance, linesDebt, errorsDebt, validPending,
      AppendPc.linesDue, AppendPc.errorsDue]
  case storeLines =>
    cases e <;> simp_all [BuildCapture.advance, linesDebt, errorsDebt, validPending,
      AppendPc.linesDue, AppendPc.errorsDue]
  case insertItem =>
    cases e <;> simp_all [BuildCapture.advance, linesDebt, errorsDebt, validPending,
      AppendPc.linesDue, AppendPc.errorsDue]
  case setCurrent =>
    cases e <;> cases ae <;> simp_all [BuildCapture.advance, linesDebt, errorsDebt,
      validPending, AppendPc.linesDue, AppendPc.errorsDue]
  case notify =>
    cases e <;> simp_all [BuildCapture.advance, linesDebt, errorsDebt, validPending,
      AppendPc.linesDue, AppendPc.errorsDue]

namespace Session

theorem inv6_init (path : String) (args outLines errLines : List String) :
    (init path args outLines errLines).Inv6 := by
  constructor <;>
    simp [init, newBuildCapture, Session.linesDebt, Session.errorsDebt, Capture.linesDebt,
      Capture.errorsDebt, validPending, errorCalls]

set_option maxHeartbeats 4000000 in
theorem inv6_step {s s' : Session} {a : Act} (h1 : s.Inv1) (h : s.Inv6)
    (hs : s.step a = some s') : s'.Inv6 := by
  obtain ⟨k1, k2, k3, k4, k5⟩ := h
  cases a with
  | setup r =>
    by_cases hr : r = .ok
    · subst hr
      obtain ⟨hg, rfl⟩ := step_setup_ok hs
      clear hs
      exact ⟨k1, k2, k3, k4, by intro rc h; simp at h⟩
    · obtain ⟨hg, msg, rfl⟩ := step_setup_fail hr hs
      clear hs
      have hn : s.outPending = none ∧ s.errPending = none ∧ s.priPending = none := by
        rcases h1.shape with h | h | h | h
        · exact ⟨by simpa [h.2.1] using h1.outBusy, by simpa [h.2.2.1] using h1.errBusy,
            by simpa [h.2.2.2.1] using h1.priBusy⟩
        · rw [hg] at h; exact absurd h.1 (by simp)
        · have hd := h.2.1
          simp only [allDone, decide_eq_true_eq] at hd
          exact ⟨by simpa [hd.1] using h1.outBusy, by simpa [hd.2.1] using h1.errBusy,
            by simpa [hd.2.2] using h1.priBusy⟩
        · exact ⟨by simpa [h.2.1] using h1.outBusy, by simpa [h.2.2.1] using h1.errBusy,
            by simpa [h.2.2.2.1] using h1.priBusy⟩
      obtain ⟨n1, n2, n3⟩ := hn
      refine ⟨fun ho => k1 ho, ?_, ?_, ?_, ?_⟩
      · intro ho
        have := k2 ho
        simp only [Session.linesDebt, n1, n2, n3, Capture.linesDebt, List.append_nil] at this
        simp [Session.err, Session.linesDebt, n1, n2, n3, Capture.linesDebt, this]
      · intro ho
        have := k3 ho
        simp only [Session.errorsDebt, n1, n2, n3, Capture.errorsDebt, Nat.add_zero] at this
        simp [Session.err, Session.errorsDebt, n1, n2, n3, Capture.errorsDebt, errorCalls_snoc, this]
      · intro _
        simp [Session.err, n1, n2, n3, validPending]
      · intro rc hc
        simp at hc
  | scanOut =>
    obtain ⟨l, rest, hg1, hg2, hgp, rfl⟩ := step_scanOut hs
    clear hs
    have hnc : ∀ rc, s.startPc ≠ .completed rc := by
      intro rc hc
      rcases h1.shape with h | h | h | h
      · rw [hc] at h; exact absurd h.1 (by simp)
      · rw [hc] at h; exact absurd h.1 (by simp)
      · have hd := h.2.1
        simp only [allDone, decide_eq_true_eq] at hd
        simp [hd] at hg1
      · simp [h.2.1, h.2.2.1, h.2.2.2.1] at hg1
    refine ⟨?_, ?_, ?_, ?_, ?_⟩
    · intro ho
      simp only [Session.call, Session.setPending, Session.busyOthers] at ho
      have ho := busy_false ho
      simp [Session.call, Session.setPending, ho.2.1, ho.2.2]
    · intro ho
      simp only [Session.call, Session.setPending, Session.busyOthers] at ho
      have ho := busy_false ho
      have := k2 ho.1
      simp only [Session.linesDebt, hgp, ho.2.1, ho.2.2, Capture.linesDebt, List.append_nil] at this
      simp [Session.call, Session.setPending, Session.linesDebt, ho.2.1, ho.2.2, Capture.linesDebt,
        Pending.start, AppendPc.linesDue, this]
    · intro ho
      simp only [Session.call, Session.setPending, Session.busyOthers] at ho
      have ho := busy_false ho
      have := k3 ho.1
      simp only [Session.errorsDebt, hgp, ho.2.1, ho.2.2, Capture.errorsDebt, Nat.add_zero] at this
      simp [Session.call, Session.setPending, Session.errorsDebt, ho.2.1, ho.2.2,
        Capture.errorsDebt, Pending.start, AppendPc.errorsDue, errorCalls_snoc, this]
    · intro ho
      simp only [Session.call, Session.setPending, Session.busyOthers] at ho
      have ho := busy_false ho
      simp [Session.call, Session.setPending, ho.2.1, ho.2.2, validPending, Pending.start,
        AppendPc.errorsDue]
    · intro rc hc
      exact absurd hc (hnc rc)
  | eofOut =>
    obtain ⟨hg1, hgp, hg2, rfl⟩ := step_eofOut hs
    clear hs
    exact ⟨k1, k2, k3, k4, k5⟩
  | sendOut =>
    obtain ⟨i, hg1, hg2, hg3, rfl⟩ := step_sendOut hs
    clear hs
    exact ⟨k1, k2, k3, k4, by intro rc h; simp at h⟩
  | scanErr =>
    obtain ⟨l, rest, hg1, hg2, hgp, rfl⟩ := step_scanErr hs
    clear hs
    have hnc : ∀ rc, s.startPc ≠ .completed rc := by
      intro rc hc
      rcases h1.shape with h | h | h | h
      · rw [hc] at h; exact absurd h.1 (by simp)
      · rw [hc] at h; exact absurd h.1 (by simp)
      · have hd := h.2.1
        simp only [allDone, decide_eq_true_eq] at hd
        simp [hd] at hg1
      · simp [h.2.1, h.2.2.1, h.2.2.2.1] at hg1
    refine ⟨?_, ?_, ?_, ?_, ?_⟩
    · intro ho
      simp only [Session.call, Session.setPending, Session.busyOthers] at ho
      have ho := busy_false ho
      simp [Session.call, Session.setPending, ho.2.1, ho.2.2]
    · intro ho
      simp only [Session.call, Session.setPending, Session.busyOthers] at ho
      have ho := busy_false ho
      have := k2 ho.1
      simp only [Session.linesDebt, hgp, ho.2.1, ho.2.2, Capture.linesDebt, List.append_nil] at this
      simp [Session.call, Session.setPending, Session.linesDebt, ho.2.1, ho.2.2, Capture.linesDebt,
        Pending.start, AppendPc.linesDue, this]
    · intro ho
      simp only [Session.call, Session.setPending, Session.busyOthers] at ho
      have ho := busy_false ho
      have := k3 ho.1
      simp only [Session.errorsDebt, hgp, ho.2.1, ho.2.2, Capture.errorsDebt, Nat.add_zero] at this
      simp [Session.call, Session.setPending, Session.errorsDebt, ho.2.1, ho.2.2,
        Capture.errorsDebt, Pending.start, AppendPc.errorsDue, errorCalls_snoc, this]
    · intro ho
      simp only [Session.call, Session.setPending, Session.busyOthers] at ho
      have ho := busy_false ho
      simp [Session.call, Session.setPending, ho.2.1, ho.2.2, validPending, Pending.start,
        AppendPc.errorsDue]
    · intro rc hc
      exact absurd hc (hnc rc)
  | eofErr =>
    obtain ⟨hg1, hgp, hg2, rfl⟩ := step_eofErr hs
    clear hs
    exact ⟨k1, k2, k3, k4, k5⟩
  | sendErr =>
    obtain ⟨i, hg1, hg2, hg3, rfl⟩ := step_sendErr hs
    clear hs
    exact ⟨k1, k2, k3, k4, by intro rc h; simp at h⟩
  | exit c =>
    obtain ⟨hg1, rfl⟩ := step_exit hs
    clear hs
    exact ⟨k1, k2, k3, k4, k5⟩
  | waitReturns =>
    obtain ⟨hg1, hg2, ⟨hg3, rfl⟩ | ⟨hg3, rfl⟩⟩ := step_waitReturns hs
    · clear hs
      have hgp : s.priPending = none := by
        have := h1.priBusy
        simpa [hg1] using this
      have hnc : ∀ rc, s.startPc ≠ .completed rc := by
        intro rc hc
        rcases h1.shape with h | h | h | h
        · rw [hc] at h; exact absurd h.1 (by simp)
        · rw [hc] at h; exact absurd h.1 (by simp)
        · have hd := h.2.1
          simp only [allDone, decide_eq_true_eq] at hd
          simp [hd] at hg1
        · simp [h.2.1, h.2.2.1, h.2.2.2.1] at hg1
      refine ⟨?_, ?_, ?_, ?_, ?_⟩
      · intro ho
        simp only [Session.call, Session.setPending, Session.busyOthers] at ho
        have ho := busy_false ho
        simp [Session.call, Session.setPending, ho.2.1, ho.2.2]
      · intro ho
        simp only [Session.call, Session.setPending, Session.busyOthers] at ho
        have ho := busy_false ho
        have := k2 ho.1
        simp only [Session.linesDebt, hgp, ho.2.1, ho.2.2, Capture.linesDebt, List.append_nil] at this
        simp [Session.call, Session.setPending, Session.linesDebt, ho.2.1, ho.2.2, Capture.linesDebt,
          Pending.start, AppendPc.linesDue, this]
      · intro ho
        simp only [Session.call, Session.setPending, Session.busyOthers] at ho
        have ho := busy_false ho
        have := k3 ho.1
        simp only [Session.errorsDebt, hgp, ho.2.1, ho.2.2, Capture.errorsDebt, Nat.add_zero] at this
        simp [Session.call, Session.setPending, Session.errorsDebt, ho.2.1, ho.2.2,
          Capture.errorsDebt, Pending.start, AppendPc.errorsDue, errorCalls_snoc, this]
      · intro ho
        simp only [Session.call, Session.setPending, Session.busyOthers] at ho
        have ho := busy_false ho
        simp [Session.call, Session.setPending, ho.2.1, ho.2.2, validPending, Pending.start,
          AppendPc.errorsDue]
      · intro rc hc
        exact absurd hc (hnc rc)
    · clear hs
      exact ⟨k1, k2, k3, k4, k5⟩
  | recvKill =>
    obtain ⟨hg1, hg2, rfl⟩ := step_recvKill hs
    clear hs
    have hgp : s.priPending = none := by
      have := h1.priBusy
      simpa [hg1] using this
    have hnc : ∀ rc, s.startPc ≠ .completed rc := by
      intro rc hc
      rcases h1.shape with h | h | h | h
      · rw [hc] at h; exact absurd h.1 (by simp)
      · rw [hc] at h; exact absurd h.1 (by simp)
      · have hd := h.2.1
        simp only [allDone, decide_eq_true_eq] at hd
        simp [hd] at hg1
      · simp [h.2.1, h.2.2.1, h.2.2.2.1] at hg1
    refine ⟨?_, ?_, ?_, ?_, ?_⟩
    · intro ho
      simp only [Session.call, Session.setPending, Session.busyOthers] at ho
      have ho := busy_false ho
      simp [Session.call, Session.setPending, ho.2.1, ho.2.2]
    · intro ho
      simp only [Session.call, Session.setPending, Session.busyOthers] at ho
      have ho := busy_false ho
      have := k2 ho.1
      simp only [Session.linesDebt, hgp, ho.2.1, ho.2.2, Capture.linesDebt, List.append_nil] at this
      simp [Session.call, Session.setPending, Session.linesDebt, ho.2.1, ho.2.2, Capture.linesDebt,
        Pending.start, AppendPc.linesDue, this]
    · intro ho
      simp only [Session.call, Session.setPending, Session.busyOthers] at ho
      have ho := busy_false ho
      have := k3 ho.1
      simp only [Session.errorsDebt, hgp, ho.2.1, ho.2.2, Capture.errorsDebt, Nat.add_zero] at this
      simp [Session.call, Session.setPending, Session.errorsDebt, ho.2.1, ho.2.2,
        Capture.errorsDebt, Pending.start, AppendPc.errorsDue, errorCalls_snoc, this]
    · intro ho
      simp only [Session.call, Session.setPending, Session.busyOthers] at ho
      have ho := busy_false ho
      simp [Session.call, Session.setPending, ho.2.1, ho.2.2, validPending, Pending.start,
        AppendPc.errorsDue]
    · intro rc hc
      exact absurd hc (hnc rc)
  | kill e =>
    obtain ⟨hg1, hgp, ⟨msg, rfl, rfl⟩ | ⟨rfl, rfl⟩⟩ := step_kill hs
    · clear hs
      have hnc : ∀ rc, s.startPc ≠ .completed rc := by
        intro rc hc
        rcases h1.shape with h | h | h | h
        · rw [hc] at h; exact absurd h.1 (by simp)
        · rw [hc] at h; exact absurd h.1 (by simp)
        · have hd := h.2.1
          simp only [allDone, decide_eq_true_eq] at hd
          simp [hd] at hg1
        · simp [h.2.1, h.2.2.1, h.2.2.2.1] at hg1
      refine ⟨?_, ?_, ?_, ?_, ?_⟩
      · intro ho
        simp only [Session.call, Session.setPending, Session.busyOthers] at ho
        have ho := busy_false ho
        simp [Session.call, Session.setPending, ho.2.1, ho.2.2]
      · intro ho
        simp only [Session.call, Session.setPending, Session.busyOthers] at ho
        have ho := busy_false ho
        have := k2 ho.1
        simp only [Session.linesDebt, hgp, ho.2.1, ho.2.2, Capture.linesDebt, List.append_nil] at this
        simp [Session.call, Session.setPending, Session.linesDebt, ho.2.1, ho.2.2, Capture.linesDebt,
          Pending.start, AppendPc.linesDue, this]
      · intro ho
        simp only [Session.call, Session.setPending, Session.busyOthers] at ho
        have ho := busy_false ho
        have := k3 ho.1
        simp only [Session.errorsDebt, hgp, ho.2.1, ho.2.2, Capture.errorsDebt, Nat.add_zero] at this
        simp [Session.call, Session.setPending, Session.errorsDebt, ho.2.1, ho.2.2,
          Capture.errorsDebt, Pending.start, AppendPc.errorsDue, errorCalls_snoc, this]
      · intro ho
        simp only [Session.call, Session.setPending, Session.busyOthers] at ho
        have ho := busy_false ho
        simp [Session.call, Session.setPending, ho.2.1, ho.2.2, validPending, Pending.start,
          AppendPc.errorsDue]
      · intro rc hc
        exact absurd hc (hnc rc)
    · clear hs
      exact ⟨k1, k2, k3, k4, k5⟩
  | sendPrimary =>
    obtain ⟨i, hg1, hgp, hg2, hg3, rfl⟩ := step_sendPrimary hs
    clear hs
    exact ⟨k1, k2, k3, k4, by intro rc h; simp at h⟩
  | startReturn =>
    obtain ⟨hg1, rfl⟩ := step_startReturn hs
    clear hs
    exact ⟨k1, k2, k3, k4, by intro rc h; simp at h⟩
  | markFinished =>
    obtain ⟨rc, hg1, rfl⟩ := step_markFinished hs
    clear hs
    exact ⟨k1, k2, k3, k4, by intro rc h; simp at h⟩
  | reportFail =>
    obtain ⟨rc, hg1, ⟨hg2, rfl⟩ | ⟨hg2, rfl⟩⟩ := step_reportFail hs
    · clear hs
      have hn : s.outPending = none ∧ s.errPending = none ∧ s.priPending = none := by
        rcases h1.shape with h | h | h | h
        · exact ⟨by simpa [h.2.1] using h1.outBusy, by simpa [h.2.2.1] using h1.errBusy,
            by simpa [h.2.2.2.1] using h1.priBusy⟩
        · rw [hg1] at h; exact absurd h.1 (by simp)
        · have hd := h.2.1
          simp only [allDone, decide_eq_true_eq] at hd
          exact ⟨by simpa [hd.1] using h1.outBusy, by simpa [hd.2.1] using h1.errBusy,
            by simpa [hd.2.2] using h1.priBusy⟩
        · exact ⟨by simpa [h.2.1] using h1.outBusy, by simpa [h.2.2.1] using h1.errBusy,
            by simpa [h.2.2.2.1] using h1.priBusy⟩
      obtain ⟨n1, n2, n3⟩ := hn
      refine ⟨fun ho => k1 ho, ?_, ?_, ?_, ?_⟩
      · intro ho
        have := k2 ho
        simp only [Session.linesDebt, n1, n2, n3, Capture.linesDebt, List.append_nil] at this
        simp [Session.err, Session.linesDebt, n1, n2, n3, Capture.linesDebt, this]
      · intro ho
        have := k3 ho
        simp only [Session.errorsDebt, n1, n2, n3, Capture.errorsDebt, Nat.add_zero] at this
        simp [Session.err, Session.errorsDebt, n1, n2, n3, Capture.errorsDebt, errorCalls_snoc, this]
      · intro _
        simp [Session.err, n1, n2, n3, validPending]
      · intro rc' hc hrc
        simp [Session.err, failText]
    · clear hs
      refine ⟨k1, k2, k3, k4, ?_⟩
      intro rc' hc hrc
      simp only [StartPc.completed.injEq] at hc
      exact absurd (hc ▸ hg2) hrc
  | key ch =>
    obtain ⟨hg1, hg2, rfl⟩ := step_key hs
    clear hs
    by_cases hk : ch = 'k'
    · subst hk
      rcases handleKey_k s with ⟨hkd, he⟩ | ⟨hkd, he⟩
      · rw [he]
        exact ⟨k1, k2, k3, k4, k5⟩
      · rw [he]
        exact ⟨k1, k2, k3, k4, k5⟩
    · obtain ⟨c, a, o, he, ha⟩ := handleKey_other s ch hk
      rw [he]
      exact ⟨k1, k2, k3, k4, k5⟩
  | navigate i =>
    obtain ⟨hg1, hg2, rfl⟩ := step_navigate hs
    clear hs
    refine ⟨k1, ?_, ?_, ?_, ?_⟩
    · intro ho
      have := k2 ho
      simpa [Session.linesDebt] using this
    · intro ho
      have := k3 ho
      simpa [Session.errorsDebt] using this
    · intro ho
      obtain ⟨v1, v2, v3⟩ := k4 ho
      exact ⟨(validPending_congr (by simp) (by simp)).2 v1,
        (validPending_congr (by simp) (by simp)).2 v2,
        (validPending_congr (by simp) (by simp)).2 v3⟩
    · intro rc hc hrc
      have := k5 rc hc hrc
      simpa [failText] using this
  | advance g =>
    obtain ⟨p, hgp, rfl⟩ := step_advance hs
    clear hs
    cases g with
    | stdoutReader =>
      simp only [pendingOf] at hgp
      have hnc : ∀ rc, s.startPc ≠ .completed rc := by
        intro rc hc
        rcases h1.shape with h | h | h | h
        · rw [hc] at h; exact absurd h.1 (by simp)
        · rw [hc] at h; exact absurd h.1 (by simp)
        · have hd := h.2.1
          simp only [allDone, decide_eq_true_eq] at hd
          have := h1.outBusy
          simp [hd, hgp] at this
        · have := h1.outBusy
          simp [h.2.1, h.2.2.1, h.2.2.2.1, hgp] at this
      have hothers : s.overlap = false → s.errPending = none ∧ s.priPending = none := by
        intro ho
        rcases k1 ho with h | h | h
        all_goals simp_all
      refine ⟨?_, ?_, ?_, ?_, ?_⟩
      · intro ho
        obtain ⟨ha, hb⟩ := hothers ho
        simp [Session.setPending, ha, hb]
      · intro ho
        obtain ⟨ha, hb⟩ := hothers ho
        have hv : validPending s.bc (some p) := by
          have := k4 ho
          simpa [hgp] using this.1
        have hd := (advance_debt s.bc p hv).1
        have := k2 ho
        simp only [Session.linesDebt, hgp, ha, hb, linesDebt_none, List.append_nil,
          List.nil_append] at this
        simp only [Session.setPending, Session.linesDebt, ha, hb, linesDebt_none, List.append_nil,
          List.nil_append]
        rw [hd]; exact this
      · intro ho
        obtain ⟨ha, hb⟩ := hothers ho
        have hv : validPending s.bc (some p) := by
          have := k4 ho
          simpa [hgp] using this.1
        have hd := (advance_debt s.bc p hv).2.1
        have := k3 ho
        simp only [Session.errorsDebt, hgp, ha, hb, errorsDebt_none, Nat.add_zero,
          Nat.zero_add] at this
        simp only [Session.setPending, Session.errorsDebt, ha, hb, errorsDebt_none, Nat.add_zero,
          Nat.zero_add]
        rw [hd]; exact this
      · intro ho
        obtain ⟨ha, hb⟩ := hothers ho
        have hv : validPending s.bc (some p) := by
          have := k4 ho
          simpa [hgp] using this.1
        have hd := (advance_debt s.bc p hv).2.2
        simp only [Session.setPending, ha, hb, validPending_none, and_true, true_and]
        exact hd
      · intro rc hc
        exact absurd hc (hnc rc)
    | stderrReader =>
      simp only [pendingOf] at hgp
      have hnc : ∀ rc, s.startPc ≠ .completed rc := by
        intro rc hc
        rcases h1.shape with h | h | h | h
        · rw [hc] at h; exact absurd h.1 (by simp)
        · rw [hc] at h; exact absurd h.1 (by simp)
        · have hd := h.2.1
          simp only [allDone, decide_eq_true_eq] at hd
          have := h1.errBusy
          simp [hd, hgp] at this
        · have := h1.errBusy
          simp [h.2.1, h.2.2.1, h.2.2.2.1, hgp] at this
      have hothers : s.overlap = false → s.outPending = none ∧ s.priPending = none := by
        intro ho
        rcases k1 ho with h | h | h
        all_goals simp_all
      refine ⟨?_, ?_, ?_, ?_, ?_⟩
      · intro ho
        obtain ⟨ha, hb⟩ := hothers ho
        simp [Session.setPending, ha, hb]
      · intro ho
        obtain ⟨ha, hb⟩ := hothers ho
        have hv : validPending s.bc (some p) := by
          have := k4 ho
          simpa [hgp] using this.2.1
        have hd := (advance_debt s.bc p hv).1
        have := k2 ho
        simp only [Session.linesDebt, hgp, ha, hb, linesDebt_none, List.append_nil,
          List.nil_append] at this
        simp only [Session.setPending, Session.linesDebt, ha, hb, linesDebt_none, List.append_nil,
          List.nil_append]
        rw [hd]; exact this
      · intro ho
        obtain ⟨ha, hb⟩ := hothers ho
        have hv : validPending s.bc (some p) := by
          have := k4 ho
          simpa [hgp] using this.2.1
        have hd := (advance_debt s.bc p hv).2.1
        have := k3 ho
        simp only [Session.errorsDebt, hgp, ha, hb, errorsDebt_none, Nat.add_zero,
          Nat.zero_add] at this
        simp only [Session.setPending, Session.errorsDebt, ha, hb, errorsDebt_none, Nat.add_zero,
          Nat.zero_add]
        rw [hd]; exact this
      · intro ho
        obtain ⟨ha, hb⟩ := hothers ho
        have hv : validPending s.bc (some p) := by
          have := k4 ho
          simpa [hgp] using this.2.1
        have hd := (advance_debt s.bc p hv).2.2
        simp only [Session.setPending, ha, hb, validPending_none, and_true, true_and]
        exact hd
      · intro rc hc
        exact absurd hc (hnc rc)
    | primary =>
      simp only [pendingOf] at hgp
      have hnc : ∀ rc, s.startPc ≠ .completed rc := by
        intro rc hc
        rcases h1.shape with h | h | h | h
        · rw [hc] at h; exact absurd h.1 (by simp)
        · rw [hc] at h; exact absurd h.1 (by simp)
        · have hd := h.2.1
          simp only [allDone, decide_eq_true_eq] at hd
          have := h1.priBusy
          simp [hd, hgp] at this
        · have := h1.priBusy
          simp [h.2.1, h.2.2.1, h.2.2.2.1, hgp] at this
      have hothers : s.overlap = false → s.outPending = none ∧ s.errPending = none := by
        intro ho
        rcases k1 ho with h | h | h
        all_goals simp_all
      refine ⟨?_, ?_, ?_, ?_, ?_⟩
      · intro ho
        obtain ⟨ha, hb⟩ := hothers ho
        simp [Session.setPending, ha, hb]
      · intro ho
        obtain ⟨ha, hb⟩ := hothers ho
        have hv : validPending s.bc (some p) := by
          have := k4 ho
          simpa [hgp] using this.2.2
        have hd := (advance_debt s.bc p hv).1
        have := k2 ho
        simp only [Session.linesDebt, hgp, ha, hb, linesDebt_none, List.append_nil,
          List.nil_append] at this
        simp only [Session.setPending, Session.linesDebt, ha, hb, linesDebt_none, List.append_nil,
          List.nil_append]
        rw [hd]; exact this
      · intro ho
        obtain ⟨ha, hb⟩ := hothers ho
        have hv : validPending s.bc (some p) := by
          have := k4 ho
          simpa [hgp] using this.2.2
        have hd := (advance_debt s.bc p hv).2.1
        have := k3 ho
        simp only [Session.errorsDebt, hgp, ha, hb, errorsDebt_none, Nat.add_zero,
          Nat.zero_add] at this
        simp only [Session.setPending, Session.errorsDebt, ha, hb, errorsDebt_none, Nat.add_zero,
          Nat.zero_add]
        rw [hd]; exact this
      · intro ho
        obtain ⟨ha, hb⟩ := hothers ho
        have hv : validPending s.bc (some p) := by
          have := k4 ho
          simpa [hgp] using this.2.2
        have hd := (advance_debt s.bc p hv).2.2
        simp only [Session.setPending, ha, hb, validPending_none, and_true, true_and]
        exact hd
      · intro rc hc
        exact absurd hc (hnc rc)

end Session

/-! ## Standard output and the toggle -/

namespace Session

theorem inv7_init (path : String) (args outLines errLines : List String) :
    (init path args outLines errLines).Inv7 := by
  constructor <;> simp [init]

set_option maxHeartbeats 4000000 in
theorem inv7_step {s s' : Session} {a : Act} (h1 : s.Inv1) (h : s.Inv7)
    (hs : s.step a = some s') : s'.Inv7 := by
  obtain ⟨k1, k2, k3⟩ := h
  have hst : s.proc = .notStarted →
      s.primary = .idle ∧ s.outPc = .idle ∧ s.errPc = .idle := by
    intro hn
    rcases h1.shape with h | h | h | h
    · exact ⟨h.2.2.2.1, h.2.1, h.2.2.1⟩
    · exact absurd hn h.2.2.2.2
    · exact absurd hn h.2.2
    · exact ⟨h.2.2.2.1, h.2.1, h.2.2.1⟩
  clear h1
  cases a with
  | setup r =>
    by_cases hr : r = .ok
    · subst hr
      obtain ⟨hg, rfl⟩ := step_setup_ok hs
      clear hs
      constructor <;> simp_all [Session.err, Session.call, Session.setPending, Session.busyOthers]
    · obtain ⟨hg, msg, rfl⟩ := step_setup_fail hr hs
      clear hs
      constructor <;> simp_all [Session.err, Session.call, Session.setPending, Session.busyOthers]
  | scanOut =>
    obtain ⟨l, rest, hg1, hg2, hgp, rfl⟩ := step_scanOut hs
    clear hs
    constructor <;> simp_all [Session.err, Session.call, Session.setPending, Session.busyOthers]
  | eofOut =>
    obtain ⟨hg1, hgp, hg2, rfl⟩ := step_eofOut hs
    clear hs
    constructor <;> simp_all [Session.err, Session.call, Session.setPending, Session.busyOthers]
  | sendOut =>
    obtain ⟨i, hg1, hg2, hg3, rfl⟩ := step_sendOut hs
    clear hs
    constructor <;> simp_all [Session.err, Session.call, Session.setPending, Session.busyOthers]
  | scanErr =>
    obtain ⟨l, rest, hg1, hg2, hgp, rfl⟩ := step_scanErr hs
    clear hs
    constructor <;> simp_all [Session.err, Session.call, Session.setPending, Session.busyOthers]
  | eofErr =>
    obtain ⟨hg1, hgp, hg2, rfl⟩ := step_eofErr hs
    clear hs
    constructor <;> simp_all [Session.err, Session.call, Session.setPending, Session.busyOthers]
  | sendErr =>
    obtain ⟨i, hg1, hg2, hg3, rfl⟩ := step_sendErr hs
    clear hs
    constructor <;> simp_all [Session.err, Session.call, Session.setPending, Session.busyOthers]
  | exit c =>
    obtain ⟨hg1, rfl⟩ := step_exit hs
    clear hs
    constructor <;> simp_all [Session.err, Session.call, Session.setPending, Session.busyOthers]
  | waitReturns =>
    obtain ⟨hg1, hg2, ⟨hg3, rfl⟩ | ⟨hg3, rfl⟩⟩ := step_waitReturns hs
    · clear hs
      constructor <;> simp_all [Session.err, Session.call, Session.setPending, Session.busyOthers]
    · clear hs
      constructor <;> simp_all [Session.err, Session.call, Session.setPending, Session.busyOthers]
  | recvKill =>
    obtain ⟨hg1, hg2, rfl⟩ := step_recvKill hs
    clear hs
    constructor <;> simp_all [Session.err, Session.call, Session.setPending, Session.busyOthers]
  | kill e =>
    obtain ⟨hg1, hgp, ⟨msg, rfl, rfl⟩ | ⟨rfl, rfl⟩⟩ := step_kill hs
    · clear hs
      constructor <;> simp_all [Session.err, Session.call, Session.setPending, Session.busyOthers]
    · clear hs
      constructor <;> simp_all [Session.err, Session.call, Session.setPending, Session.busyOthers]
      split <;> simp_all
  | sendPrimary =>
    obtain ⟨i, hg1, hgp, hg2, hg3, rfl⟩ := step_sendPrimary hs
    clear hs
    constructor <;> simp_all [Session.err, Session.call, Session.setPending, Session.busyOthers]
  | startReturn =>
    obtain ⟨hg1, rfl⟩ := step_startReturn hs
    clear hs
    constructor <;> simp_all [Session.err, Session.call, Session.setPending, Session.busyOthers]
  | markFinished =>
    obtain ⟨rc, hg1, rfl⟩ := step_markFinished hs
    clear hs
    constructor <;> simp_all [Session.err, Session.call, Session.setPending, Session.busyOthers]
  | reportFail =>
    obtain ⟨rc, hg1, ⟨hg2, rfl⟩ | ⟨hg2, rfl⟩⟩ := step_reportFail hs
    · clear hs
      constructor <;> simp_all [Session.err, Session.call, Session.setPending, Session.busyOthers]
    · clear hs
      constructor <;> simp_all [Session.err, Session.call, Session.setPending, Session.busyOthers]
  | key ch =>
    obtain ⟨hg1, hg2, rfl⟩ := step_key hs
    clear hs
    by_cases hk : ch = 'k'
    · subst hk
      rcases handleKey_k s with ⟨hkd, he⟩ | ⟨hkd, he⟩
      · rw [he]
        constructor <;> simp_all [Session.err, Session.call, Session.setPending, Session.busyOthers]
      · rw [he]
        constructor <;> simp_all [Session.err, Session.call, Session.setPending, Session.busyOthers]
    · obtain ⟨c, a, o, he, ha⟩ := handleKey_other s ch hk
      rw [he]
      obtain ⟨ha1, ha2, ha3⟩ := ha
      constructor <;> rcases ha2 with h | ⟨h, h'⟩ <;> simp_all
  | navigate i =>
    obtain ⟨hg1, hg2, rfl⟩ := step_navigate hs
    clear hs
    constructor <;> simp_all [Session.err, Session.call, Session.setPending, Session.busyOthers]
  | advance g =>
    obtain ⟨p, hgp, rfl⟩ := step_advance hs
    clear hs
    cases g with
    | stdoutReader =>
      simp only [pendingOf] at hgp
      constructor <;> simp_all [Session.err, Session.call, Session.setPending, Session.busyOthers]
    | stderrReader =>
      simp only [pendingOf] at hgp
      constructor <;> simp_all [Session.err, Session.call, Session.setPending, Session.busyOthers]
    | primary =>
      simp only [pendingOf] at hgp
      constructor <;> simp_all [Session.err, Session.call, Session.setPending, Session.busyOthers]

/-- Once the primary goroutine has left its `select`, an input capture that is
blocked on `bc.killChan <- struct{}{}` stays blocked. -/
theorem stuck_step {s s' : Session} {a : Act} {kd : Bool} {n : Nat} (h1 : s.Inv1)
    (h : s.ui = .sendingKill ∧ s.primary ≠ .idle ∧ s.primary ≠ .selecting ∧
      s.killed = kd ∧ s.keysK = n)
    (hs : s.step a = some s') :
    s'.ui = .sendingKill ∧ s'.primary ≠ .idle ∧ s'.primary ≠ .selecting ∧
      s'.killed = kd ∧ s'.keysK = n := by
  obtain ⟨k1, k2, k3, k4, k5⟩ := h
  have hfresh : s.startPc = .notStarted → s.primary = .idle := fun hn => by
    rcases h1.shape with h | h | h | h
    · exact h.2.2.2.1
    · rw [hn] at h; exact absurd h.1 (by simp)
    · rw [startReturned, hn] at h; exact absurd h.1 (by simp)
    · rw [startReturned, hn] at h; exact absurd h.1 (by simp)
  clear h1
  cases a with
  | setup r =>
    by_cases hr : r = .ok
    · subst hr
      obtain ⟨hg, rfl⟩ := step_setup_ok hs
      clear hs
      simp_all [Session.err, Session.call, Session.setPending]
    · obtain ⟨hg, msg, rfl⟩ := step_setup_fail hr hs
      clear hs
      simp_all [Session.err, Session.call, Session.setPending]
  | scanOut =>
    obtain ⟨l, rest, hg1, hg2, hgp, rfl⟩ := step_scanOut hs
    clear hs
    simp_all [Session.err, Session.call, Session.setPending]
  | eofOut =>
    obtain ⟨hg1, hgp, hg2, rfl⟩ := step_eofOut hs
    clear hs
    simp_all [Session.err, Session.call, Session.setPending]
  | sendOut =>
    obtain ⟨i, hg1, hg2, hg3, rfl⟩ := step_sendOut hs
    clear hs
    simp_all [Session.err, Session.call, Session.setPending]
  | scanErr =>
    obtain ⟨l, rest, hg1, hg2, hgp, rfl⟩ := step_scanErr hs
    clear hs
    simp_all [Session.err, Session.call, Session.setPending]
  | eofErr =>
    obtain ⟨hg1, hgp, hg2, rfl⟩ := step_eofErr hs
    clear hs
    simp_all [Session.err, Session.call, Session.setPending]
  | sendErr =>
    obtain ⟨i, hg1, hg2, hg3, rfl⟩ := step_sendErr hs
    clear hs
    simp_all [Session.err, Session.call, Session.setPending]
  | exit c =>
    obtain ⟨hg1, rfl⟩ := step_exit hs
    clear hs
    simp_all [Session.err, Session.call, Session.setPending]
  | waitReturns =>
    obtain ⟨hg1, hg2, ⟨hg3, rfl⟩ | ⟨hg3, rfl⟩⟩ := step_waitReturns hs
    · clear hs
      simp_all [Session.err, Session.call, Session.setPending]
    · clear hs
      simp_all [Session.err, Session.call, Session.setPending]
  | recvKill =>
    obtain ⟨hg1, hg2, rfl⟩ := step_recvKill hs
    clear hs
    simp_all [Session.err, Session.call, Session.setPending]
  | kill e =>
    obtain ⟨hg1, hgp, ⟨msg, rfl, rfl⟩ | ⟨rfl, rfl⟩⟩ := step_kill hs
    · clear hs
      simp_all [Session.err, Session.call, Session.setPending]
    · clear hs
      simp_all [Session.err, Session.call, Session.setPending]
  | sendPrimary =>
    obtain ⟨i, hg1, hgp, hg2, hg3, rfl⟩ := step_sendPrimary hs
    clear hs
    simp_all [Session.err, Session.call, Session.setPending]
  | startReturn =>
    obtain ⟨hg1, rfl⟩ := step_startReturn hs
    clear hs
    simp_all [Session.err, Session.call, Session.setPending]
  | markFinished =>
    obtain ⟨rc, hg1, rfl⟩ := step_markFinished hs
    clear hs
    simp_all [Session.err, Session.call, Session.setPending]
  | reportFail =>
    obtain ⟨rc, hg1, ⟨hg2, rfl⟩ | ⟨hg2, rfl⟩⟩ := step_reportFail hs
    · clear hs
      simp_all [Session.err, Session.call, Session.setPending]
    · clear hs
      simp_all [Session.err, Session.call, Session.setPending]
  | key ch =>
    obtain ⟨hg1, hg2, rfl⟩ := step_key hs
    clear hs
    by_cases hk : ch = 'k'
    · subst hk
      rcases handleKey_k s with ⟨hkd, he⟩ | ⟨hkd, he⟩
      · rw [he]
        simp_all [Session.err, Session.call, Session.setPending]
      · rw [he]
        simp_all [Session.err, Session.call, Session.setPending]
    · obtain ⟨c, a, o, he, ha⟩ := handleKey_other s ch hk
      rw [he]
      simp_all [Session.err, Session.call, Session.setPending]
  | navigate i =>
    obtain ⟨hg1, hg2, rfl⟩ := step_navigate hs
    clear hs
    simp_all [Session.err, Session.call, Session.setPending]
  | advance g =>
    obtain ⟨p, hgp, rfl⟩ := step_advance hs
    clear hs
    cases g with
    | stdoutReader =>
      simp only [pendingOf] at hgp
      simp_all [Session.err, Session.call, Session.setPending]
    | stderrReader =>
      simp only [pendingOf] at hgp
      simp_all [Session.err, Session.call, Session.setPending]
    | primary =>
      simp only [pendingOf] at hgp
      simp_all [Session.err, Session.call, Session.setPending]

theorem inv_init (path : String) (args outLines errLines : List String) :
    (init path args outLines errLines).Inv outLines errLines :=
  ⟨inv1_init _ _ _ _, inv2_init _ _ _ _, inv3_init _ _ _ _, inv5_init _ _ _ _,
    inv6_init _ _ _ _, inv7_init _ _ _ _⟩

theorem inv_step {outLines errLines : List String} {s s' : Session} {a : Act}
    (h : s.Inv outLines errLines) (hs : s.step a = some s') : s'.Inv outLines errLines :=
  ⟨inv1_step h.i1 hs, inv2_step h.i1 h.i2 hs, inv3_step h.i3 hs, inv5_step h.i1 h.i2 h.i5 hs,
    inv6_step h.i1 h.i6 hs, inv7_step h.i1 h.i7 hs⟩

theorem inv_run {path : String} {args outLines errLines : List String} {acts : List Act}
    {s : Session} (h : (init path args outLines errLines).runActs acts = some s) :
    s.Inv outLines errLines :=
  run_induction (Inv outLines errLines) (fun _ _ _ hi hs => inv_step hi hs) acts _ s
    (inv_init path args outLines errLines) h

/-- Once `start` has returned after a successful set-up, all goroutines are done. -/
theorem done_of_completed {s : Session} (h1 : s.Inv1) {rc : Int}
    (hc : s.startPc = .completed rc) (hst : s.proc ≠ .notStarted) :
    s.outPc = .done ∧ s.errPc = .done ∧ s.primary = .done := by
  rcases h1.shape with h | h | h | h
  · exact absurd h.2.2.2.2 hst
  · rw [hc] at h; exact absurd h.1 (by simp)
  · simpa [allDone] using h.2.1
  · exact absurd h.2.2.2.2.1 hst

/-- Once `start` has returned, no call of `append` or `appendError` is in
progress. -/
theorem idle_of_returned {s : Session} (h1 : s.Inv1) (hr : s.startReturned = true) :
    s.outPending = none ∧ s.errPending = none ∧ s.priPending = none := by
  rcases h1.shape with h | h | h | h
  · rw [startReturned, h.1] at hr; exact absurd hr (by simp)
  · rw [startReturned, h.1] at hr; exact absurd hr (by simp)
  · have hd := h.2.1
    simp only [allDone, decide_eq_true_eq] at hd
    exact ⟨by simpa [hd.1] using h1.outBusy, by simpa [hd.2.1] using h1.errBusy,
      by simpa [hd.2.2] using h1.priBusy⟩
  · exact ⟨by simpa [h.2.1] using h1.outBusy, by simpa [h.2.2.1] using h1.errBusy,
      by simpa [h.2.2.2.1] using h1.priBusy⟩

/-- In a state without a call in progress and without overlap so far, the
transcript is the log. -/
theorem transcript_of_idle {s : Session} (h6 : s.Inv6)
    (hn : s.outPending = none ∧ s.errPending = none ∧ s.priPending = none)
    (ho : s.overlap = false) :
    s.bc.lines = s.log.map Prod.snd ∧ s.bc.errors = errorCalls s.log := by
  have hl := h6.lines_eq ho
  have he := h6.errors_eq ho
  simp only [Session.linesDebt, Session.errorsDebt, hn.1, hn.2.1, hn.2.2, linesDebt_none,
    errorsDebt_none, List.append_nil, Nat.add_zero] at hl he
  exact ⟨hl, he⟩

end Session

/-! ## Runs -/

theorem log_length (log : List (Origin × String)) :
    log.length =
      (linesOf .stdout log).length + (linesOf .stderr log).length + (synthetic log).length := by
  induction log with
  | nil => rfl
  | cons e log ih =>
    obtain ⟨o, t⟩ := e
    cases o <;> simp [linesOf, synthetic, List.filter] at ih ⊢ <;> omega

theorem errorCalls_count (log : List (Origin × String)) :
    errorCalls log = (linesOf .stderr log).length + (synthetic log).length := by
  unfold errorCalls
  induction log with
  | nil => rfl
  | cons e log ih =>
    obtain ⟨o, t⟩ := e
    cases o <;> simp [linesOf, synthetic, List.filter] at ih ⊢ <;> omega

theorem success_exited (c : Nat) (h : c ≠ 0) : (Proc.exited c).Success = false := by
  cases c with
  | zero => exact absurd rfl h
  | succ n => rfl

/-- A call made alone, statement after statement, is `bc.appendError` or
`bc.append`. -/
theorem finish_alone (bc : BuildCapture) (o : Origin) (line : String) :
    BuildCapture.finish 9 bc (some (Pending.start o true line)) = bc.appendError line ∧
    BuildCapture.finish 6 bc (some (Pending.start o false line)) = bc.append line :=
  ⟨rfl, rfl⟩

/-- C7, as the code has it: when the child exits on its own with a non-zero
code `c` and no kill request was received, the completed session has returned
`c`; `appendError` was called for exactly two synthetic lines, `Command failed:
rc = c` and then, as the last call of all, `Fail: <path> <args>`, which is also
the last line of the transcript; each reader has passed on a prefix of its
stream.  If no two calls of `append` / `appendError` overlapped, the transcript
holds the lines of all calls in the order of the calls, and the error counter
is the number of captured stderr lines plus two. -/
theorem natural_failure_two_synthetic_lines (path : String)
    (args outLines errLines : List String) (acts : List Act) (s : Session) (c : Nat) (rc : Int)
    (h : (Session.init path args outLines errLines).runActs acts = some s)
    (hc : s.startPc = .completed rc) (hk : s.killSends = 0) (hp : s.proc = .exited c)
    (hne : c ≠ 0) :
    rc = c ∧
    synthetic s.log =
      [(.cmdFailed, "Command failed: rc = " ++ fmtInt c), (.failSummary, s.failText)] ∧
    linesOf .stdout s.log ++ s.outRest = outLines ∧
    linesOf .stderr s.log ++ s.errRest = errLines ∧
    s.log.getLast? = some (.failSummary, s.failText) ∧
    s.bc.lines.getLast? = some s.failText ∧
    (s.overlap = true ∨
      (s.bc.lines = s.log.map Prod.snd ∧
       s.bc.lines.length
         = (linesOf .stdout s.log).length + (linesOf .stderr s.log).length + 2 ∧
       s.bc.errors = (linesOf .stderr s.log).length + 2)) := by
  obtain ⟨h1, h2, h3, h5, h6, h7⟩ := Session.inv_run h
  have hst : s.proc ≠ .notStarted := by rw [hp]; simp
  obtain ⟨ho, he, hpd⟩ := Session.done_of_completed h1 hc hst
  have hrc : rc = c := by
    have := h5.rcNatural rc (by simp [Session.rc?, hc]) hst (Or.inl hk)
    simpa [hp, Proc.ExitCode] using this
  have hrc0 : rc ≠ 0 := by rw [hrc]; exact_mod_cast hne
  have hfail : s.failPart = [(.failSummary, s.failText)] := by
    simp [Session.failPart, hc, hrc0]
  have hend : s.endPart = [(.cmdFailed, "Command failed: rc = " ++ fmtInt c)] := by
    simp [Session.endPart, hpd, hp, success_exited c hne, Proc.ExitCode]
  have hsyn : synthetic s.log =
      [(.cmdFailed, "Command failed: rc = " ++ fmtInt c), (.failSummary, s.failText)] := by
    rw [h5.natural hst hk, hend, hfail]; rfl
  refine ⟨hrc, hsyn, h3.outs, h3.errs, ?_, h6.last rc hc hrc0, ?_⟩
  · obtain ⟨pre, hpre⟩ := h5.tail
    rw [hpre, hfail]; simp
  · cases hov : s.overlap
    · right
      obtain ⟨hl, herr⟩ := Session.transcript_of_idle h6
        (Session.idle_of_returned h1 (by simp [Session.startReturned, hc])) hov
      refine ⟨hl, ?_, ?_⟩
      · rw [hl, List.length_map, log_length, hsyn]; rfl
      · rw [herr, errorCalls_count, hsyn]; rfl
    · left; rfl

/-- Witness for C7: the `oops` command, read before the child exits, with no
overlapping calls. -/
theorem natural_failure_two_synthetic_lines_witness :
    oopsInit.runActs oopsActs = some oopsFinal ∧ oopsFinal.startPc = .completed 2 ∧
    oopsFinal.killSends = 0 ∧ oopsFinal.proc = .exited 2 ∧ 2 ≠ 0 ∧
    ((2 : Int) = (2 : Nat) ∧
    synthetic oopsFinal.log =
      [(.cmdFailed, "Command failed: rc = " ++ fmtInt (2 : Nat)),
       (.failSummary, oopsFinal.failText)] ∧
    linesOf .stdout oopsFinal.log ++ oopsFinal.outRest = [] ∧
    linesOf .stderr oopsFinal.log ++ oopsFinal.errRest = ["oops"] ∧
    oopsFinal.log.getLast? = some (.failSummary, oopsFinal.failText) ∧
    oopsFinal.bc.lines.getLast? = some oopsFinal.failText ∧
    (oopsFinal.overlap = true ∨
      (oopsFinal.bc.lines = oopsFinal.log.map Prod.snd ∧
       oopsFinal.bc.lines.length
         = (linesOf .stdout oopsFinal.log).length + (linesOf .stderr oopsFinal.log).length
           + 2 ∧
       oopsFinal.bc.errors = (linesOf .stderr oopsFinal.log).length + 2))) :=
  ⟨by decide, by decide, by decide, by decide, by decide,
    natural_failure_two_synthetic_lines "sh" ["sh", "-c", "echo oops >&2; exit 2"] [] ["oops"]
      oopsActs oopsFinal 2 2 (by decide) (by decide) (by decide) (by decide) (by decide)⟩

/-- C7 as stated fails, in five runs of the `oops` command that exits with
code 2 and is not killed.  Read in time and without overlap, `oops` is followed
by two synthetic error lines and the counter is 3.  Read after the failure was
reported, `oops` comes after `Command failed`.  When the pipe is closed before
`oops` is read, the line is never captured.  When the call of the stderr reader
overlaps the call of the primary goroutine, the `Command failed` line is
overwritten: one synthetic line is left while the counter is 3.  When that
overlap is on `bc.errors++` instead, an increment is lost: the transcript holds
three error lines while the counter is 2. -/
theorem natural_failure_counterexample :
    (oopsInit.runActs oopsActs = some oopsFinal ∧ oopsFinal.startPc = .completed 2 ∧
      oopsFinal.proc = .exited 2 ∧ oopsFinal.killSends = 0 ∧
      oopsFinal.bc.lines =
        ["oops", "Command failed: rc = 2", "Fail: sh sh -c echo oops >&2; exit 2"] ∧
      oopsFinal.bc.errors = 3 ∧
      oopsFinal.bc.errors ≠ (linesOf .stderr oopsFinal.log).length + 1) ∧
    (oopsInit.runActs oopsLateActs = some oopsLate ∧ oopsLate.startPc = .completed 2 ∧
      oopsLate.proc = .exited 2 ∧ oopsLate.killSends = 0 ∧ oopsLate.overlap = false ∧
      oopsLate.bc.lines =
        ["Command failed: rc = 2", "oops", "Fail: sh sh -c echo oops >&2; exit 2"]) ∧
    (oopsInit.runActs oopsDroppedActs = some oopsDropped ∧
      oopsDropped.startPc = .completed 2 ∧ oopsDropped.proc = .exited 2 ∧
      oopsDropped.killSends = 0 ∧ oopsDropped.errRest = ["oops"] ∧
      oopsDropped.bc.lines =
        ["Command failed: rc = 2", "Fail: sh sh -c echo oops >&2; exit 2"]) ∧
    (oopsInit.runActs oopsRaceActs = some oopsRace ∧ oopsRace.startPc = .completed 2 ∧
      oopsRace.proc = .exited 2 ∧ oopsRace.killSends = 0 ∧ oopsRace.overlap = true ∧
      oopsRace.bc.lines = ["oops", "Fail: sh sh -c echo oops >&2; exit 2"] ∧
      oopsRace.bc.errors = 3) ∧
    (oopsInit.runActs oopsMiscountActs = some oopsMiscount ∧
      oopsMiscount.startPc = .completed 2 ∧ oopsMiscount.proc = .exited 2 ∧
      oopsMiscount.killSends = 0 ∧ oopsMiscount.overlap = true ∧
      oopsMiscount.bc.lines =
        ["Command failed: rc = 2", "oops", "Fail: sh sh -c echo oops >&2; exit 2"] ∧
      oopsMiscount.bc.errors = 2) := by
  decide

/-- C5, as the code has it.  In every run at most one kill request is received
from `killChan` and `Process.Kill` is called at most once.  A `'k'` pressed
while the flag `killed` is unset leaves the input capture blocked in the send;
while it is blocked the flag is unset and no key is handled; the send completes
only while the primary goroutine is in its `select`, which then sets the flag,
counts the first request and calls `appendError` with the notice; once that
goroutine has left the `select` a blocked input capture stays blocked for ever.  The flag is
set exactly when the request has been received, and from then on a `'k'`
changes nothing (beyond the count of key presses kept by the model).  The number
of calls of `appendError` with "Process was killed by user" equals the number of
requests received: after two handled presses it is one, and `Process.Kill` has
been called exactly once as soon as the primary goroutine is past that call.  If
no two calls of `append` / `appendError` overlapped, `bc.lines` holds the lines
of the calls in the log, apart from the line of a call still in progress. -/
theorem kill_request_at_most_once (path : String) (args outLines errLines : List String)
    (acts : List Act) (s : Session)
    (h : (Session.init path args outLines errLines).runActs acts = some s) :
    s.killSends ≤ 1 ∧ s.killCalls ≤ s.killSends ∧
    originCount .killNotice s.log = s.killSends ∧
    (s.killed = true ↔ s.killSends = 1) ∧
    (s.killed = false ∨ s.handleKey 'k' = { s with keysK := s.keysK + 1 }) ∧
    (s.killed = true ∨
      s.handleKey 'k' = { s with keysK := s.keysK + 1, ui := .sendingKill }) ∧
    (s.ui = .idle ∨ (s.killed = false ∧ ∀ ch, s.step (.key ch) = none)) ∧
    (s.step .recvKill).map (fun t => (t.killed, t.killSends, t.ui, t.priPending)) =
      (if s.primary = .selecting ∧ s.ui = .sendingKill then
        some (true, 1, UiPc.idle,
          some (Pending.start .killNotice true "Process was killed by user"))
       else none) ∧
    (∀ (later : List Act) (s' : Session), s.runActs later = some s' →
      s.ui = .sendingKill → s.primary ≠ .idle → s.primary ≠ .selecting →
      s'.ui = .sendingKill ∧ s'.killed = false ∧ s'.keysK = s.keysK) ∧
    (s.keysK < 2 ∨
      (s.killSends = 1 ∧ originCount .killNotice s.log = 1 ∧
        (s.primary = .killing ∨ s.killCalls = 1))) ∧
    (s.overlap = true ∨ s.bc.lines ++ s.linesDebt = s.log.map Prod.snd) := by
  have hinv := Session.inv_run h
  obtain ⟨h1, h2, h3, h5, h6, h7⟩ := hinv
  have hcalls : s.killCalls ≤ s.killSends ∧ (s.primary = .killing ∨ s.killCalls = s.killSends) := by
    cases hp : s.primary
    · have := h2.early (Or.inl hp); omega
    · have := h2.early (Or.inr hp); omega
    · have := h2.killing hp; exact ⟨by omega, Or.inl rfl⟩
    · have := h2.late (Or.inl hp); omega
    · have := h2.late (Or.inr hp); omega
  have hblocked : s.ui = .sendingKill → s.killed = false := by
    intro hu
    have h0 := (h2.blocked hu).1
    cases hkd : s.killed
    · rfl
    · have := h2.killed_iff.1 hkd
      omega
  refine ⟨h2.sends_le, hcalls.1, h2.notices, h2.killed_iff, ?_, ?_, ?_, ?_, ?_, ?_, ?_⟩
  · rcases Session.handleKey_k s with ⟨hf, _⟩ | ⟨_, he⟩
    · left; exact hf
    · right; exact he
  · rcases Session.handleKey_k s with ⟨_, he⟩ | ⟨hf, _⟩
    · right; exact he
    · left; exact hf
  · cases hu : s.ui
    · left; rfl
    · right
      refine ⟨hblocked hu, fun ch => ?_⟩
      simp [Session.step, hu]
  · by_cases hen : s.primary = .selecting ∧ s.ui = .sendingKill
    · simp [Session.step, hen, Session.call, Session.setPending, (h2.blocked hen.2).1]
    · simp only [Session.step, if_neg hen, Option.map_none']
  · intro later s' hrun hu hp1 hp2
    have := Session.run_induction
      (fun t => t.Inv1 ∧ (t.ui = .sendingKill ∧ t.primary ≠ .idle ∧ t.primary ≠ .selecting ∧
        t.killed = false ∧ t.keysK = s.keysK))
      (fun t a t' hi hs => ⟨Session.inv1_step hi.1 hs, Session.stuck_step hi.1 hi.2 hs⟩)
      later s s' ⟨h1, hu, hp1, hp2, hblocked hu, rfl⟩ hrun
    exact ⟨this.2.1, this.2.2.2.2.1, this.2.2.2.2.2⟩
  · by_cases h2k : s.keysK < 2
    · left; exact h2k
    · right
      have hs1 := h2.pressedTwice (by omega)
      refine ⟨hs1, by rw [h2.notices, hs1], ?_⟩
      rcases hcalls.2 with hkp | hkc
      · left; exact hkp
      · right; omega
  · cases hov : s.overlap
    · right; exact h6.lines_eq hov
    · left; rfl

/-- Witness for C5: two presses of `'k'` on a running `sleep 100`. -/
theorem kill_request_at_most_once_witness :
    sleepInit.runActs twoKillsActs = some twoKills ∧
    (twoKills.killSends ≤ 1 ∧ twoKills.killCalls ≤ twoKills.killSends ∧
    originCount .killNotice twoKills.log = twoKills.killSends ∧
    (twoKills.killed = true ↔ twoKills.killSends = 1) ∧
    (twoKills.killed = false ∨
      twoKills.handleKey 'k' = { twoKills with keysK := twoKills.keysK + 1 }) ∧
    (twoKills.killed = true ∨
      twoKills.handleKey 'k'
        = { twoKills with keysK := twoKills.keysK + 1, ui := .sendingKill }) ∧
    (twoKills.ui = .idle ∨ (twoKills.killed = false ∧ ∀ ch, twoKills.step (.key ch) = none)) ∧
    (twoKills.step .recvKill).map (fun t => (t.killed, t.killSends, t.ui, t.priPending)) =
      (if twoKills.primary = .selecting ∧ twoKills.ui = .sendingKill then
        some (true, 1, UiPc.idle,
          some (Pending.start .killNotice true "Process was killed by user"))
       else none) ∧
    (∀ (later : List Act) (s' : Session), twoKills.runActs later = some s' →
      twoKills.ui = .sendingKill → twoKills.primary ≠ .idle → twoKills.primary ≠ .selecting →
      s'.ui = .sendingKill ∧ s'.killed = false ∧ s'.keysK = twoKills.keysK) ∧
    (twoKills.keysK < 2 ∨
      (twoKills.killSends = 1 ∧ originCount .killNotice twoKills.log = 1 ∧
        (twoKills.primary = .killing ∨ twoKills.killCalls = 1))) ∧
    (twoKills.overlap = true ∨
      twoKills.bc.lines ++ twoKills.linesDebt = twoKills.log.map Prod.snd)) :=
  ⟨by decide, kill_request_at_most_once "sleep" ["sleep", "100"] ["tick"] [] twoKillsActs
    twoKills (by decide)⟩

/-- C5 as stated fails.  On the finished session of `echo hello` the first
`'k'` neither sends a request nor sets the flag: the input capture is blocked
in the send and no action of the program is enabled any more.  And after two
presses of `'k'` on a running `sleep 100`, with the call of the stdout reader
overlapping the call that appends the notice, `Process.Kill` was called once but
the transcript holds no "Process was killed by user" line. -/
theorem kill_request_counterexample :
    (helloInit.runActs lateKillActs = some lateKill ∧ lateKill.finished = true ∧
      lateKill.keysK = 1 ∧ lateKill.killed = false ∧ lateKill.killSends = 0 ∧
      lateKill.ui = .sendingKill ∧ ∀ a : Act, lateKill.step a = none) ∧
    (sleepInit.runActs twoKillsRaceActs = some twoKillsRace ∧ twoKillsRace.keysK = 2 ∧
      twoKillsRace.killCalls = 1 ∧ twoKillsRace.overlap = true ∧ twoKillsRace.startPc = .completed (-1) ∧
      twoKillsRace.bc.lines = ["tick", "Fail: sleep sleep 100"] ∧
      "Process was killed by user" ∉ twoKillsRace.bc.lines) := by
  refine ⟨⟨by decide, by decide, by decide, by decide, by decide, by decide, ?_⟩, by decide⟩
  have e1 : lateKill.startPc = .completed 0 := by decide
  have e2 : lateKill.outPc = .done := by decide
  have e3 : lateKill.errPc = .done := by decide
  have e4 : lateKill.primary = .done := by decide
  have e5 : lateKill.proc = .exited 0 := by decide
  have e6 : lateKill.ui = .sendingKill := by decide
  have e7 : lateKill.outPending = none := by decide
  have e8 : lateKill.errPending = none := by decide
  have e9 : lateKill.priPending = none := by decide
  intro a
  cases a with
  | advance g => cases g <;> simp [Session.step, Session.pendingOf, e7, e8, e9]
  | _ => simp [Session.step, Session.recv, e1, e2, e3, e4, e5, e6]

/-- C8, as the code has it: in a completed session in which a kill request was
received, `appendError` was called exactly once with "Process was killed by
user", at the moment the request is received (so after every call made
before); the only other synthetic lines are at most one "Error killing process"
line and the final `Fail:` line, and there is no "Command failed" line; when
`Process.Kill` has terminated the child, `start` returned `-1`; whenever `start`
returned a non-zero code the `Fail:` line is the last call and the last line of
the transcript.  If no two calls of `append` / `appendError` overlapped, the
transcript holds the lines of all calls in the order of the calls. -/
theorem kill_notice_then_fail_line (path : String) (args outLines errLines : List String)
    (acts : List Act) (s : Session) (rc : Int)
    (h : (Session.init path args outLines errLines).runActs acts = some s)
    (hc : s.startPc = .completed rc) (hk : s.killSends = 1) :
    originCount .killNotice s.log = 1 ∧
    (∃ K, synthetic s.log = (.killNotice, "Process was killed by user") :: K ++ s.failPart ∧
      (∀ e ∈ K, e.1 = .killError) ∧ K.length ≤ 1) ∧
    (∀ t : Session, (t.step .recvKill).map (fun t' => (t'.log, t'.priPending))
      = (t.step .recvKill).map (fun _ =>
          (t.log ++ [(.killNotice, "Process was killed by user")],
            some (Pending.start .killNotice true "Process was killed by user")))) ∧
    (s.proc ≠ .signaled ∨ rc = -1) ∧
    (rc = 0 ∨ (s.log.getLast? = some (.failSummary, s.failText) ∧
      s.bc.lines.getLast? = some s.failText)) ∧
    (s.overlap = true ∨ s.bc.lines = s.log.map Prod.snd) := by
  obtain ⟨h1, h2, h3, h5, h6, h7⟩ := Session.inv_run h
  have hcalls : s.killCalls ≤ 1 := by
    cases hp : s.primary
    · have := h2.early (Or.inl hp); omega
    · have := h2.early (Or.inr hp); omega
    · have := h2.killing hp; omega
    · have := h2.late (Or.inl hp); omega
    · have := h2.late (Or.inr hp); omega
  refine ⟨by rw [h2.notices, hk], ?_, ?_, ?_, ?_, ?_⟩
  · obtain ⟨K, hK1, hK2, hK3⟩ := h5.killedRun hk
    exact ⟨K, hK1, hK2, by omega⟩
  · intro t
    cases hst : t.step .recvKill with
    | none => rfl
    | some t' =>
      obtain ⟨_, _, rfl⟩ := Session.step_recvKill hst
      simp [Session.call, Session.setPending]
  · by_cases hsig : s.proc = .signaled
    · right
      have := h5.rcNatural rc (by simp [Session.rc?, hc]) (by rw [hsig]; simp) (Or.inr hsig)
      simpa [hsig, Proc.ExitCode] using this
    · left; exact hsig
  · by_cases hrc : rc = 0
    · left; exact hrc
    · right
      obtain ⟨pre, hpre⟩ := h5.tail
      have hfail : s.failPart = [(.failSummary, s.failText)] := by
        simp [Session.failPart, hc, hrc]
      exact ⟨by rw [hpre, hfail]; simp, h6.last rc hc hrc⟩
  · cases hov : s.overlap
    · right
      exact (Session.transcript_of_idle h6
        (Session.idle_of_returned h1 (by simp [Session.startReturned, hc])) hov).1
    · left; rfl

/-- Witness for C8: `sleep 100` killed after one line of output. -/
theorem kill_notice_then_fail_line_witness :
    sleepInit.runActs killedActs = some killedFinal ∧ killedFinal.startPc = .completed (-1) ∧
    killedFinal.killSends = 1 ∧
    (originCount .killNotice killedFinal.log = 1 ∧
    (∃ K, synthetic killedFinal.log
        = (.killNotice, "Process was killed by user") :: K ++ killedFinal.failPart ∧
      (∀ e ∈ K, e.1 = .killError) ∧ K.length ≤ 1) ∧
    (∀ t : Session, (t.step .recvKill).map (fun t' => (t'.log, t'.priPending))
      = (t.step .recvKill).map (fun _ =>
          (t.log ++ [(.killNotice, "Process was killed by user")],
            some (Pending.start .killNotice true "Process was killed by user")))) ∧
    (killedFinal.proc ≠ .signaled ∨ (-1 : Int) = -1) ∧
    ((-1 : Int) = 0 ∨ (killedFinal.log.getLast? = some (.failSummary, killedFinal.failText) ∧
      killedFinal.bc.lines.getLast? = some killedFinal.failText)) ∧
    (killedFinal.overlap = true ∨ killedFinal.bc.lines = killedFinal.log.map Prod.snd)) :=
  ⟨by decide, by decide, by decide,
    kill_notice_then_fail_line "sleep" ["sleep", "100"] ["tick"] [] killedActs killedFinal (-1)
      (by decide) (by decide) (by decide)⟩

/-- C8 as stated fails, in three runs in which `sleep 100` is killed while it
runs.  Without overlap the notice is followed by the line `Fail: sleep sleep
100`.  When the line of output is read after the kill, it is appended after
the notice as well.  When the call of the stdout reader overlaps the call that
appends the notice, the notice is overwritten and is not in the transcript. -/
theorem kill_notice_not_last_counterexample :
    (sleepInit.runActs killedActs = some killedFinal ∧ killedFinal.proc = .signaled ∧
      killedFinal.rc? = some (-1) ∧ killedFinal.overlap = false ∧
      killedFinal.bc.lines = ["tick", "Process was killed by user", "Fail: sleep sleep 100"] ∧
      killedFinal.bc.lines.getLast? ≠ some "Process was killed by user") ∧
    (sleepInit.runActs killedLateActs = some killedLate ∧ killedLate.proc = .signaled ∧
      killedLate.overlap = false ∧
      killedLate.bc.lines
        = ["Process was killed by user", "tick", "Fail: sleep sleep 100"]) ∧
    (sleepInit.runActs killedRaceActs = some killedRace ∧ killedRace.proc = .signaled ∧
      killedRace.killSends = 1 ∧ killedRace.overlap = true ∧
      killedRace.bc.lines = ["tick", "Fail: sleep sleep 100"] ∧
      "Process was killed by user" ∉ killedRace.bc.lines) := by
  decide

namespace Session

/-- The toggle after a key. -/
theorem handleKey_clear (s : Session) (ch : Char) :
    (s.handleKey ch).clear = (s.clear || decide (ch = 'c')) := by
  unfold handleKey quit
  cases hkd : s.killed <;> cases hf : s.finished <;> cases hcl : s.clear <;> split_ifs <;>
    simp_all

/-- The toggle `clear` is set by a handled `'c'` and by nothing else, and is
never unset. -/
theorem clear_step_eq {s s' : Session} {a : Act} (hs : s.step a = some s') :
    s'.clear = (s.clear || decide (a = .key 'c')) := by
  cases a with
  | setup r =>
    by_cases hr : r = .ok
    · subst hr
      obtain ⟨hg, rfl⟩ := step_setup_ok hs
      clear hs
      simp [Session.err, Session.call, Session.setPending]
    · obtain ⟨hg, msg, rfl⟩ := step_setup_fail hr hs
      clear hs
      simp [Session.err, Session.call, Session.setPending]
  | scanOut =>
    obtain ⟨l, rest, hg1, hg2, hgp, rfl⟩ := step_scanOut hs
    clear hs
    simp [Session.err, Session.call, Session.setPending]
  | eofOut =>
    obtain ⟨hg1, hgp, hg2, rfl⟩ := step_eofOut hs
    clear hs
    simp [Session.err, Session.call, Session.setPending]
  | sendOut =>
    obtain ⟨i, hg1, hg2, hg3, rfl⟩ := step_sendOut hs
    clear hs
    simp [Session.err, Session.call, Session.setPending]
  | scanErr =>
    obtain ⟨l, rest, hg1, hg2, hgp, rfl⟩ := step_scanErr hs
    clear hs
    simp [Session.err, Session.call, Session.setPending]
  | eofErr =>
    obtain ⟨hg1, hgp, hg2, rfl⟩ := step_eofErr hs
    clear hs
    simp [Session.err, Session.call, Session.setPending]
  | sendErr =>
    obtain ⟨i, hg1, hg2, hg3, rfl⟩ := step_sendErr hs
    clear hs
    simp [Session.err, Session.call, Session.setPending]
  | exit c =>
    obtain ⟨hg1, rfl⟩ := step_exit hs
    clear hs
    simp [Session.err, Session.call, Session.setPending]
  | waitReturns =>
    obtain ⟨hg1, hg2, ⟨hg3, rfl⟩ | ⟨hg3, rfl⟩⟩ := step_waitReturns hs
    · clear hs
      simp [Session.err, Session.call, Session.setPending]
    · clear hs
      simp [Session.err, Session.call, Session.setPending]
  | recvKill =>
    obtain ⟨hg1, hg2, rfl⟩ := step_recvKill hs
    clear hs
    simp [Session.err, Session.call, Session.setPending]
  | kill e =>
    obtain ⟨hg1, hgp, ⟨msg, rfl, rfl⟩ | ⟨rfl, rfl⟩⟩ := step_kill hs
    · clear hs
      simp [Session.err, Session.call, Session.setPending]
    · clear hs
      simp [Session.err, Session.call, Session.setPending]
  | sendPrimary =>
    obtain ⟨i, hg1, hgp, hg2, hg3, rfl⟩ := step_sendPrimary hs
    clear hs
    simp [Session.err, Session.call, Session.setPending]
  | startReturn =>
    obtain ⟨hg1, rfl⟩ := step_startReturn hs
    clear hs
    simp [Session.err, Session.call, Session.setPending]
  | markFinished =>
    obtain ⟨rc, hg1, rfl⟩ := step_markFinished hs
    clear hs
    simp [Session.err, Session.call, Session.setPending]
  | reportFail =>
    obtain ⟨rc, hg1, ⟨hg2, rfl⟩ | ⟨hg2, rfl⟩⟩ := step_reportFail hs
    · clear hs
      simp [Session.err, Session.call, Session.setPending]
    · clear hs
      simp [Session.err, Session.call, Session.setPending]
  | key ch =>
    obtain ⟨hg1, hg2, rfl⟩ := step_key hs
    clear hs
    by_cases hk : ch = 'k'
    · subst hk
      rcases handleKey_k s with ⟨hkd, he⟩ | ⟨hkd, he⟩
      · rw [he]
        simp
      · rw [he]
        simp
    · obtain ⟨c, a, o, he, ha⟩ := handleKey_other s ch hk
      rw [he]
      have hcl := handleKey_clear s ch
      rw [he] at hcl
      simp only [] at hcl
      rw [show ({ s with clear := c, appRunning := a, stdout := o } : Session).clear = c from rfl]
      simp_all
  | navigate i =>
    obtain ⟨hg1, hg2, rfl⟩ := step_navigate hs
    clear hs
    simp [Session.err, Session.call, Session.setPending]
  | advance g =>
    obtain ⟨p, hgp, rfl⟩ := step_advance hs
    clear hs
    cases g with
    | stdoutReader =>
      simp only [pendingOf] at hgp
      simp [Session.err, Session.call, Session.setPending]
    | stderrReader =>
      simp only [pendingOf] at hgp
      simp [Session.err, Session.call, Session.setPending]
    | primary =>
      simp only [pendingOf] at hgp
      simp [Session.err, Session.call, Session.setPending]

/-- The toggle at the end of a run. -/
theorem clear_run (acts : List Act) (s0 s : Session) (h : s0.runActs acts = some s) :
    s.clear = (s0.clear || decide (Act.key 'c' ∈ acts)) := by
  induction acts generalizing s0 with
  | nil =>
    simp only [runActs, Option.some.injEq] at h
    subst h
    simp
  | cons a as ih =>
    simp only [runActs] at h
    cases hst : s0.step a with
    | none => rw [hst] at h; exact absurd h (by simp)
    | some s1 =>
      rw [hst] at h
      rw [ih s1 h, clear_step_eq hst]
      by_cases ha : a = .key 'c'
      · simp [ha]
      · have : ¬ (Act.key 'c' = a) := fun e => ha e.symm
        simp [ha, this]

/-- After a failed set-up the process is never started. -/
theorem notStarted_step {s s' : Session} {a : Act}
    (h : s.proc = .notStarted ∧ s.startPc ≠ .notStarted) (hs : s.step a = some s') :
    s'.proc = .notStarted ∧ s'.startPc ≠ .notStarted := by
  obtain ⟨hp, hn⟩ := h
  cases a with
  | setup r =>
    by_cases hr : r = .ok
    · subst hr
      obtain ⟨hg, rfl⟩ := step_setup_ok hs
      clear hs
      simp_all [Session.err, Session.call, Session.setPending]
    · obtain ⟨hg, msg, rfl⟩ := step_setup_fail hr hs
      clear hs
      simp_all [Session.err, Session.call, Session.setPending]
  | scanOut =>
    obtain ⟨l, rest, hg1, hg2, hgp, rfl⟩ := step_scanOut hs
    clear hs
    simp_all [Session.err, Session.call, Session.setPending]
  | eofOut =>
    obtain ⟨hg1, hgp, hg2, rfl⟩ := step_eofOut hs
    clear hs
    simp_all [Session.err, Session.call, Session.setPending]
  | sendOut =>
    obtain ⟨i, hg1, hg2, hg3, rfl⟩ := step_sendOut hs
    clear hs
    simp_all [Session.err, Session.call, Session.setPending]
  | scanErr =>
    obtain ⟨l, rest, hg1, hg2, hgp, rfl⟩ := step_scanErr hs
    clear hs
    simp_all [Session.err, Session.call, Session.setPending]
  | eofErr =>
    obtain ⟨hg1, hgp, hg2, rfl⟩ := step_eofErr hs
    clear hs
    simp_all [Session.err, Session.call, Session.setPending]
  | sendErr =>
    obtain ⟨i, hg1, hg2, hg3, rfl⟩ := step_sendErr hs
    clear hs
    simp_all [Session.err, Session.call, Session.setPending]
  | exit c =>
    obtain ⟨hg1, rfl⟩ := step_exit hs
    clear hs
    simp_all [Session.err, Session.call, Session.setPending]
  | waitReturns =>
    obtain ⟨hg1, hg2, ⟨hg3, rfl⟩ | ⟨hg3, rfl⟩⟩ := step_waitReturns hs
    · clear hs
      simp_all [Session.err, Session.call, Session.setPending]
    · clear hs
      simp_all [Session.err, Session.call, Session.setPending]
  | recvKill =>
    obtain ⟨hg1, hg2, rfl⟩ := step_recvKill hs
    clear hs
    simp_all [Session.err, Session.call, Session.setPending]
  | kill e =>
    obtain ⟨hg1, hgp, ⟨msg, rfl, rfl⟩ | ⟨rfl, rfl⟩⟩ := step_kill hs
    · clear hs
      simp_all [Session.err, Session.call, Session.setPending]
    · clear hs
      simp_all
  | sendPrimary =>
    obtain ⟨i, hg1, hgp, hg2, hg3, rfl⟩ := step_sendPrimary hs
    clear hs
    simp_all [Session.err, Session.call, Session.setPending]
  | startReturn =>
    obtain ⟨hg1, rfl⟩ := step_startReturn hs
    clear hs
    simp_all [Session.err, Session.call, Session.setPending]
  | markFinished =>
    obtain ⟨rc, hg1, rfl⟩ := step_markFinished hs
    clear hs
    simp_all [Session.err, Session.call, Session.setPending]
  | reportFail =>
    obtain ⟨rc, hg1, ⟨hg2, rfl⟩ | ⟨hg2, rfl⟩⟩ := step_reportFail hs
    · clear hs
      simp_all [Session.err, Session.call, Session.setPending]
    · clear hs
      simp_all [Session.err, Session.call, Session.setPending]
  | key ch =>
    obtain ⟨hg1, hg2, rfl⟩ := step_key hs
    clear hs
    by_cases hk : ch = 'k'
    · subst hk
      rcases handleKey_k s with ⟨hkd, he⟩ | ⟨hkd, he⟩
      · rw [he]
        simp_all [Session.err, Session.call, Session.setPending]
      · rw [he]
        simp_all [Session.err, Session.call, Session.setPending]
    · obtain ⟨c, a, o, he, ha⟩ := handleKey_other s ch hk
      rw [he]
      simp_all [Session.err, Session.call, Session.setPending]
  | navigate i =>
    obtain ⟨hg1, hg2, rfl⟩ := step_navigate hs
    clear hs
    simp_all [Session.err, Session.call, Session.setPending]
  | advance g =>
    obtain ⟨p, hgp, rfl⟩ := step_advance hs
    clear hs
    cases g with
    | stdoutReader =>
      simp only [pendingOf] at hgp
      simp_all [Session.err, Session.call, Session.setPending]
    | stderrReader =>
      simp only [pendingOf] at hgp
      simp_all [Session.err, Session.call, Session.setPending]
    | primary =>
      simp only [pendingOf] at hgp
      simp_all [Session.err, Session.call, Session.setPending]

end Session

/-- C9, as the code has it: when set-up fails, the failure is appended as an
error line, `start` returns `-2` and no reader or exit-wait goroutine is ever
started; the program does not terminate: the application keeps running until the
user quits the finished session, and the run continues to the finished state,
where `main` appends the `Fail:` line. -/
theorem setup_failure_reported_not_fatal (path : String)
    (args outLines errLines : List String) (r : SetupResult) (acts : List Act) (s : Session)
    (hr : r ≠ .ok)
    (h : (Session.init path args outLines errLines).runActs (.setup r :: acts) = some s) :
    s.outPc = .idle ∧ s.errPc = .idle ∧ s.primary = .idle ∧ s.proc = .notStarted ∧
    s.rc? = some (-2) ∧
    (∃ msg, s.log = (.setupError, msg) :: s.failPart) ∧
    s.bc.lines = s.log.map Prod.snd ∧
    (s.appRunning = true ∨ s.finished = true) ∧
    ((Session.init path args outLines errLines).runActs
        [.setup r, .markFinished, .reportFail]).map
      (fun t => (t.finished, t.appRunning, t.log.length, t.startPc))
      = some (true, true, 2, .completed (-2)) := by
  obtain ⟨h1, h2, h3, h5, h6, h7⟩ := Session.inv_run h
  have hns : s.proc = .notStarted ∧ s.startPc ≠ .notStarted := by
    rw [Session.run_cons] at h
    cases hst : (Session.init path args outLines errLines).step (.setup r) with
    | none => rw [hst] at h; exact absurd h (by simp)
    | some t =>
      rw [hst] at h
      obtain ⟨_, msg, rfl⟩ := Session.step_setup_fail hr hst
      exact Session.run_induction
        (fun s => s.proc = .notStarted ∧ s.startPc ≠ .notStarted)
        (fun _ _ _ hi hs => Session.notStarted_step hi hs) acts _ s
        (by simp [Session.err, Session.init]) h
  have hshape : s.outPc = .idle ∧ s.errPc = .idle ∧ s.primary = .idle ∧
      s.rc? = some (-2) := by
    rcases h1.shape with hh | hh | hh | hh
    · exact absurd hh.1 hns.2
    · exact absurd hns.1 hh.2.2.2.2
    · exact absurd hns.1 hh.2.2
    · exact ⟨hh.2.1, hh.2.2.1, hh.2.2.2.1, hh.2.2.2.2.2⟩
  have hlines := (Session.transcript_of_idle h6
    (Session.idle_of_returned h1 (Session.startReturned_of_rc hshape.2.2.2))
    (h7.started hns.1)).1
  refine ⟨hshape.1, hshape.2.1, hshape.2.2.1, hns.1, hshape.2.2.2, h5.failed hns.1 hns.2,
    hlines, ?_, ?_⟩
  · cases hrun : s.appRunning
    · right; exact h1.stopped hrun
    · left; rfl
  · cases r with
    | ok => exact absurd rfl hr
    | stdoutPipeError e => simp [Session.runActs, Session.step, Session.init, Session.err]
    | stderrPipeError e => simp [Session.runActs, Session.step, Session.init, Session.err]
    | startError e => simp [Session.runActs, Session.step, Session.init, Session.err]

/-- Witness for C9: a command that cannot be started. -/
theorem setup_failure_reported_not_fatal_witness :
    SetupResult.startError "executable file not found" ≠ .ok ∧
    nosuchInit.runActs (.setup (.startError "executable file not found") :: nosuchActs)
      = some nosuchFinal ∧
    (nosuchFinal.outPc = .idle ∧ nosuchFinal.errPc = .idle ∧ nosuchFinal.primary = .idle ∧
    nosuchFinal.proc = .notStarted ∧ nosuchFinal.rc? = some (-2) ∧
    (∃ msg, nosuchFinal.log = (.setupError, msg) :: nosuchFinal.failPart) ∧
    nosuchFinal.bc.lines = nosuchFinal.log.map Prod.snd ∧
    (nosuchFinal.appRunning = true ∨ nosuchFinal.finished = true) ∧
    (nosuchInit.runActs
        [.setup (.startError "executable file not found"), .markFinished, .reportFail]).map
      (fun t => (t.finished, t.appRunning, t.log.length, t.startPc))
      = some (true, true, 2, .completed (-2))) :=
  ⟨by decide, by decide,
    setup_failure_reported_not_fatal "nosuch" ["nosuch"] [] []
      (.startError "executable file not found") nosuchActs nosuchFinal (by decide) (by decide)⟩

/-- C9 as stated fails: after a failed `cmd.Start()` the program is still
running, the session is in the finished state and the transcript holds the
error line followed by the `Fail:` line. -/
theorem setup_failure_counterexample :
    nosuchInit.runActs (.setup (.startError "executable file not found") :: nosuchActs)
      = some nosuchFinal ∧
    nosuchFinal.appRunning = true ∧ nosuchFinal.finished = true ∧
    nosuchFinal.bc.caption = "(completed) Press 'q' to exit" ∧
    nosuchFinal.bc.lines =
      ["Error starting cmd: executable file not found", "Fail: nosuch nosuch"] ∧
    (nosuchFinal.step (.key 'q')).map (fun t => t.appRunning) = some false := by
  decide

/-- C6, as the code has it.  In every reachable state: a handled `'q'` on a
finished session stops the application and writes the elements of `bc.lines`,
in order, joined by newlines and followed by a newline, if no `'c'` was handled
earlier in the run, and writes nothing otherwise; on a session that is not
finished it changes nothing.  A handled `'c'` sets the toggle and writes
nothing; it stops the application exactly when the session is finished.  The
toggle is set exactly when a `'c'` was handled, from then on nothing is ever
written, and nothing is written while the application runs.  If no two calls of
`append` / `appendError` overlapped, `bc.lines` holds the texts of the calls in
the log, apart from the line of a call still in progress. -/
theorem quit_dumps_transcript (path : String) (args outLines errLines : List String)
    (acts : List Act) (s : Session)
    (h : (Session.init path args outLines errLines).runActs acts = some s) :
    (s.step (.key 'q')).map (fun t => (t.stdout, t.appRunning, t.clear)) =
      (if s.appRunning ∧ s.ui = .idle then
        some (if s.finished then
                (if Act.key 'c' ∈ acts then ""
                 else String.intercalate "\n" s.bc.lines ++ "\n",
                 false, decide (Act.key 'c' ∈ acts))
              else ("", true, decide (Act.key 'c' ∈ acts)))
       else none) ∧
    (s.finished = true ∨
      s.step (.key 'q') = if s.appRunning ∧ s.ui = .idle then some s else none) ∧
    (s.step (.key 'c')).map (fun t => (t.stdout, t.appRunning, t.clear)) =
      (if s.appRunning ∧ s.ui = .idle then some ("", !s.finished, true) else none) ∧
    (s.finished = true ∨
      s.step (.key 'c')
        = if s.appRunning ∧ s.ui = .idle then some { s with clear := true } else none) ∧
    (s.clear = true ↔ Act.key 'c' ∈ acts) ∧
    (Act.key 'c' ∉ acts ∨ s.stdout = "") ∧
    (s.appRunning = false ∨ s.stdout = "") ∧
    (s.overlap = true ∨ s.bc.lines ++ s.linesDebt = s.log.map Prod.snd) := by
  obtain ⟨h1, h2, h3, h5, h6, h7⟩ := Session.inv_run h
  have hclear : s.clear = decide (Act.key 'c' ∈ acts) := by
    rw [Session.clear_run acts _ s h]; rfl
  have hq : s.handleKey 'q' =
      (if s.finished then
        (if s.clear then { s with appRunning := false }
         else { s with appRunning := false,
                       stdout := s.stdout ++ (String.intercalate "\n" s.bc.lines ++ "\n") })
       else s) := by
    unfold Session.handleKey Session.quit
    rw [if_neg (by decide), if_neg (by decide), if_pos rfl]
    cases s.finished <;> cases s.clear <;> rfl
  have hcc : s.handleKey 'c' =
      (if s.finished then { s with clear := true, appRunning := false }
       else { s with clear := true }) := by
    unfold Session.handleKey Session.quit
    rw [if_neg (by decide), if_pos rfl]
    cases s.finished <;> rfl
  refine ⟨?_, ?_, ?_, ?_, ?_, ?_, ?_, ?_⟩
  · by_cases hen : s.appRunning ∧ s.ui = .idle
    · have hout := h7.quiet hen.1
      simp only [Session.step, if_pos hen, hq, Option.map_some']
      by_cases hm : Act.key 'c' ∈ acts
      · have hcl : s.clear = true := by rw [hclear]; exact decide_eq_true hm
        cases hf : s.finished <;> simp [hen.1, hcl, hm, hout]
      · have hcl : s.clear = false := by rw [hclear]; exact decide_eq_false hm
        cases hf : s.finished <;> simp [hen.1, hcl, hm, hout]
    · simp [Session.step, hen]
  · cases hf : s.finished
    · right
      by_cases hen : s.appRunning ∧ s.ui = .idle
      · simp only [Session.step, if_pos hen, hq, hf]
        rfl
      · simp [Session.step, hen]
    · left; rfl
  · by_cases hen : s.appRunning ∧ s.ui = .idle
    · have hout := h7.quiet hen.1
      simp only [Session.step, if_pos hen, hcc, Option.map_some']
      cases hf : s.finished <;> simp [hen.1, hout]
    · simp [Session.step, hen]
  · cases hf : s.finished
    · right
      by_cases hen : s.appRunning ∧ s.ui = .idle
      · simp only [Session.step, if_pos hen, hcc, hf]
        rfl
      · simp [Session.step, hen]
    · left; rfl
  · rw [hclear]; exact decide_eq_true_iff
  · by_cases hm : Act.key 'c' ∈ acts
    · right
      exact h7.cleared (by rw [hclear]; exact decide_eq_true hm)
    · left; exact hm
  · cases hr : s.appRunning
    · left; rfl
    · right; exact h7.quiet hr
  · cases hov : s.overlap
    · right; exact h6.lines_eq hov
    · left; rfl

/-- Witness for C6: the finished session of `echo hello`. -/
theorem quit_dumps_transcript_witness :
    helloInit.runActs (.setup .ok :: helloActs) = some helloFinished ∧
    ((helloFinished.step (.key 'q')).map (fun t => (t.stdout, t.appRunning, t.clear)) =
      (if helloFinished.appRunning ∧ helloFinished.ui = .idle then
        some (if helloFinished.finished then
                (if Act.key 'c' ∈ (Act.setup .ok :: helloActs) then ""
                 else String.intercalate "\n" helloFinished.bc.lines ++ "\n",
                 false, decide (Act.key 'c' ∈ (Act.setup .ok :: helloActs)))
              else ("", true, decide (Act.key 'c' ∈ (Act.setup .ok :: helloActs))))
       else none) ∧
    (helloFinished.finished = true ∨
      helloFinished.step (.key 'q')
        = if helloFinished.appRunning ∧ helloFinished.ui = .idle then some helloFinished
          else none) ∧
    (helloFinished.step (.key 'c')).map (fun t => (t.stdout, t.appRunning, t.clear)) =
      (if helloFinished.appRunning ∧ helloFinished.ui = .idle then
        some ("", !helloFinished.finished, true)
       else none) ∧
    (helloFinished.finished = true ∨
      helloFinished.step (.key 'c')
        = if helloFinished.appRunning ∧ helloFinished.ui = .idle then
            some { helloFinished with clear := true }
          else none) ∧
    (helloFinished.clear = true ↔ Act.key 'c' ∈ (Act.setup .ok :: helloActs)) ∧
    (Act.key 'c' ∉ (Act.setup .ok :: helloActs) ∨ helloFinished.stdout = "") ∧
    (helloFinished.appRunning = false ∨ helloFinished.stdout = "") ∧
    (helloFinished.overlap = true ∨
      helloFinished.bc.lines ++ helloFinished.linesDebt = helloFinished.log.map Prod.snd)) :=
  ⟨by decide, quit_dumps_transcript "echo" ["echo", "hello"] ["hello"] []
    (.setup .ok :: helloActs) helloFinished (by decide)⟩

/-- C6 as stated fails in its last sentence: `'c'` pressed while `echo hello`
is not finished changes the state, and the later quit then prints nothing,
whereas without it the quit prints `hello`. -/
theorem early_c_counterexample :
    helloInit.finished = false ∧ helloInit.handleKey 'c' ≠ helloInit ∧
    helloInit.step (.key 'c') ≠ some helloInit ∧
    (helloInit.runActs (.setup .ok :: helloActs ++ [.key 'q'])).map (fun t => t.stdout)
      = some "hello\n" ∧
    (helloInit.runActs (.key 'c' :: .setup .ok :: helloActs ++ [.key 'q'])).map
      (fun t => t.stdout) = some "" := by
  decide

end Capture
